import Mathlib

/-!
# WaterTown: boat physics and water height field

Shallow embedding of `Boat` (src/src/Physics/Boat.cpp, src/WaterTown/src/Physics/Boat.h)
and of the wave part of `WaterSurface`
(src/graphsis/WaterTown/src/Water/WaterSurface.cpp, src/WaterTown/src/Water/WaterSurface.h).

Modelling conventions.
* C++ `float` values are elements of a linearly ordered field `α` and arithmetic is exact
  (no rounding, no NaN, no infinities; `x / 0 = 0` as in every Lean field). The one
  exception is the time accumulator of `BoatWake` and the emission interval it is compared
  with, which can be infinite or NaN in the code and are IEEE values here, see there.
  All definitions are computable for `α := ℚ`; theorems about the true elementary
  functions take `α := ℝ`.
* The calls into `<cmath>` and glm (`exp`, `sin`, `cos`, `sqrt`, `atan2`, `pi`) are the fields
  of a record `FloatOps α` that every function receives, so nothing is assumed about them
  except what a theorem states as a hypothesis.
* `glfwGetTime()` read inside `Boat::updateMotion` is the explicit argument `glfwTime`.
* A `std::function` collision predicate is `Option (α → α → Bool)` (`none` = empty function),
  a `WaterSurface*` is `Option (WaterSurface α)` (`none` = null pointer).
-/

namespace WaterTown

/-! ## Elementary functions and vectors -/

/-- The elementary functions of `<cmath>` and glm used by the code. -/
structure FloatOps (α : Type) where
  exp : α → α
  sin : α → α
  cos : α → α
  sqrt : α → α
  atan2 : α → α → α
  pi : α

/-- Counterpart of `glm::vec2`. -/
structure Vec2 (α : Type) where
  x : α
  y : α

/-- Counterpart of `glm::vec3`. -/
structure Vec3 (α : Type) where
  x : α
  y : α
  z : α

section Defs

variable {α : Type} [LinearOrderedField α]

/-- Componentwise sum, `a + b` on `glm::vec3`. -/
def Vec3.add (a b : Vec3 α) : Vec3 α := ⟨a.x + b.x, a.y + b.y, a.z + b.z⟩

/-- Componentwise difference, `a - b` on `glm::vec3`. -/
def Vec3.sub (a b : Vec3 α) : Vec3 α := ⟨a.x - b.x, a.y - b.y, a.z - b.z⟩

/-- Scaling `v * k` on `glm::vec3`. -/
def Vec3.scale (v : Vec3 α) (k : α) : Vec3 α := ⟨v.x * k, v.y * k, v.z * k⟩

/-- Counterpart of `glm::dot` on `vec3`. -/
def Vec3.dot (a b : Vec3 α) : α := a.x * b.x + a.y * b.y + a.z * b.z

/-- Counterpart of `glm::length` on `vec3`: `sqrt(dot(v, v))`. -/
def Vec3.length (F : FloatOps α) (v : Vec3 α) : α := F.sqrt (v.dot v)

/-- Counterpart of `glm::normalize` on `vec3`: `v * inversesqrt(dot(v, v))`. -/
def Vec3.normalize (F : FloatOps α) (v : Vec3 α) : Vec3 α := v.scale (1 / F.sqrt (v.dot v))

/-- Counterpart of `glm::dot` on `vec2`. -/
def Vec2.dot (a b : Vec2 α) : α := a.x * b.x + a.y * b.y

/-- Counterpart of `glm::normalize` on `vec2`: `v * inversesqrt(dot(v, v))`. -/
def Vec2.normalize (F : FloatOps α) (v : Vec2 α) : Vec2 α :=
  ⟨v.x * (1 / F.sqrt (v.dot v)), v.y * (1 / F.sqrt (v.dot v))⟩

/-- Counterpart of `glm::radians`: degrees to radians. -/
def radians (F : FloatOps α) (degrees : α) : α := degrees * (F.pi / 180)

/-! ## WaterSurface (wave part) -/

/-- Counterpart of `WaterSurface::WaveParams`. -/
structure WaveParams (α : Type) where
  direction : Vec2 α
  amplitude : α
  wavelength : α
  speed : α
  steepness : α

/-- The fields of `WaterSurface` read by the height query: `m_baseHeight` and `m_waves`. -/
structure WaterSurface (α : Type) where
  baseHeight : α
  waves : List (WaveParams α)

/-- The four `m_waves.push_back` lines of the `WaterSurface` constructor. -/
def defaultWaves : List (WaveParams α) :=
  [ ⟨⟨1, 0⟩, 15 / 100, 2, 1, 3 / 10⟩,
    ⟨⟨7 / 10, 7 / 10⟩, 1 / 10, 15 / 10, 12 / 10, 2 / 10⟩,
    ⟨⟨0, 1⟩, 8 / 100, 1, 8 / 10, 25 / 100⟩,
    ⟨⟨-(5 / 10), 5 / 10⟩, 5 / 100, 8 / 10, 15 / 10, 15 / 100⟩ ]

/-- The constructor `WaterSurface::WaterSurface`: base height 0 and the four default waves. -/
def WaterSurface.new : WaterSurface α := ⟨0, defaultWaves⟩

/-- The setter `WaterSurface::setBaseHeight`. -/
def WaterSurface.setBaseHeight (w : WaterSurface α) (height : α) : WaterSurface α :=
  { w with baseHeight := height }

/-- One iteration of the loop of `WaterSurface::calculateGerstnerHeight`. -/
def gerstnerStep (F : FloatOps α) (x z time : α) (height : α) (wave : WaveParams α) : α :=
  let k := 2 * F.pi / wave.wavelength
  let c := wave.speed
  let d_dot_p := wave.direction.x * x + wave.direction.y * z
  let phase := k * d_dot_p - c * time
  height + wave.amplitude * F.sin phase

/-- The method `WaterSurface::calculateGerstnerHeight`: the loop over `m_waves` from 0. -/
def WaterSurface.calculateGerstnerHeight (F : FloatOps α) (w : WaterSurface α)
    (x z time : α) : α :=
  w.waves.foldl (gerstnerStep F x z time) 0

/-- The method `WaterSurface::getWaterHeight`. -/
def WaterSurface.getWaterHeight (F : FloatOps α) (w : WaterSurface α) (x z time : α) : α :=
  w.baseHeight + w.calculateGerstnerHeight F x z time

/-- The wave built by iteration `i` of the loop of `WaterSurface::setWaveParameters`. -/
def makeWave (F : FloatOps α) (waveCount : Int) (amplitude wavelength speed : α) (i : Nat) :
    WaveParams α :=
  let angle := (2 * F.pi * (i : α)) / (waveCount : α)
  { direction := Vec2.normalize F ⟨F.cos angle, F.sin angle⟩
    amplitude := amplitude * (1 - (i : α) * (2 / 10))
    wavelength := wavelength * (1 + (i : α) * (3 / 10))
    speed := speed * (1 - (i : α) * (15 / 100))
    steepness := 3 / 10 }

/-- The method `WaterSurface::setWaveParameters`: clear, then push one wave for each
`i = 0 .. waveCount - 1` (no iteration when `waveCount <= 0`). -/
def WaterSurface.setWaveParameters (F : FloatOps α) (w : WaterSurface α) (waveCount : Int)
    (amplitude wavelength speed : α) : WaterSurface α :=
  { w with
    waves := List.map (makeWave F waveCount amplitude wavelength speed)
      (List.range waveCount.toNat) }

/-! ## Boat -/

/-- Counterpart of `struct Obstacle`. -/
structure Obstacle (α : Type) where
  position : Vec3 α
  radius : α

/-- The mutable fields of `class Boat` (the `m_` members of Boat.h). -/
structure Boat (α : Type) where
  position : Vec3 α
  lastSafePosition : Vec3 α
  hasLastSafePosition : Bool
  rotation : α
  speed : α
  angularVelocity : α
  pitch : α
  roll : α
  forwardInput : α
  turnInput : α
  hasBounds : Bool
  minX : α
  maxX : α
  minZ : α
  maxZ : α
  obstacles : List (Obstacle α)
  collisionPredicate : Option (α → α → Bool)

/-- Constant `MAX_SPEED = 10.0f`. -/
def MAX_SPEED : α := 10

/-- Constant `ACCELERATION = 3.0f`. -/
def ACCELERATION : α := 3

/-- Constant `DECELERATION = 2.5f`. -/
def DECELERATION : α := 25 / 10

/-- Constant `TURN_SPEED = 60.0f`. -/
def TURN_SPEED : α := 60

/-- Constant `DRAG = 0.5f`. -/
def DRAG : α := 5 / 10

/-- Constant `TURN_ACCEL = 120.0f`. -/
def TURN_ACCEL : α := 120

/-- Constant `TURN_DAMPING = 4.0f`. -/
def TURN_DAMPING : α := 4

/-- Constant `THROTTLE_SMOOTH = 4.0f`. -/
def THROTTLE_SMOOTH : α := 4

/-- Constant `TURN_SPEED_FACTOR = 0.7f`. -/
def TURN_SPEED_FACTOR : α := 7 / 10

/-- Constant `BOAT_LENGTH = 1.0f`. -/
def BOAT_LENGTH : α := 1

/-- Constant `BOAT_WIDTH = 0.4f`. -/
def BOAT_WIDTH : α := 4 / 10

/-- Constant `BOAT_RADIUS = 0.5f`. -/
def BOAT_RADIUS : α := 5 / 10

/-- Constant `BOAT_WATERLINE_OFFSET = 0.45f`. -/
def BOAT_WATERLINE_OFFSET : α := 45 / 100

/-- The constructor `Boat::Boat(position, rotation)`. -/
def Boat.new (position : Vec3 α) (rotation : α) : Boat α :=
  { position := position
    lastSafePosition := position
    hasLastSafePosition := true
    rotation := rotation
    speed := 0
    angularVelocity := 0
    pitch := 0
    roll := 0
    forwardInput := 0
    turnInput := 0
    hasBounds := false
    minX := -100
    maxX := 100
    minZ := -100
    maxZ := 100
    obstacles := []
    collisionPredicate := none }

/-- The setter `Boat::setCollisionPredicate`. -/
def Boat.setCollisionPredicate (b : Boat α) (predicate : Option (α → α → Bool)) : Boat α :=
  { b with collisionPredicate := predicate }

/-- The setter `Boat::setBounds`. -/
def Boat.setBounds (b : Boat α) (minX maxX minZ maxZ : α) : Boat α :=
  { b with minX := minX, maxX := maxX, minZ := minZ, maxZ := maxZ, hasBounds := true }

/-- The method `Boat::addObstacle`: `push_back` at the end of `m_obstacles`. -/
def Boat.addObstacle (b : Boat α) (position : Vec3 α) (radius : α) : Boat α :=
  { b with obstacles := b.obstacles ++ [⟨position, radius⟩] }

/-- The method `Boat::clearObstacles`. -/
def Boat.clearObstacles (b : Boat α) : Boat α :=
  { b with obstacles := [] }

/-- The setter `Boat::setPosition`. -/
def Boat.setPosition (b : Boat α) (position : Vec3 α) : Boat α :=
  { b with position := position }

/-- The setter `Boat::setRotation`. -/
def Boat.setRotation (b : Boat α) (rotation : α) : Boat α :=
  { b with rotation := rotation }

/-- The setter `Boat::setSpeed`. -/
def Boat.setSpeed (b : Boat α) (speed : α) : Boat α :=
  { b with speed := speed }

/-- The method `Boat::processInput`: both inputs clamped by `max(-1, min(v, 1))`. -/
def Boat.processInput (b : Boat α) (forward turn : α) : Boat α :=
  { b with
    forwardInput := max (-1) (min forward 1)
    turnInput := max (-1) (min turn 1) }

/-- The method `Boat::updateMotion`; `glfwTime` is the value returned by `glfwGetTime()`. -/
def Boat.updateMotion (F : FloatOps α) (glfwTime : α) (b : Boat α) (deltaTime : α) : Boat α :=
  let targetSpeed := b.forwardInput * MAX_SPEED
  let throttleLerp := 1 - F.exp (-THROTTLE_SMOOTH * deltaTime)
  let desiredSpeed := b.speed + (targetSpeed - b.speed) * throttleLerp
  let speed1 :=
    if |b.forwardInput| > 1 / 100 then
      let accel := if desiredSpeed > b.speed then ACCELERATION else DECELERATION
      b.speed + (desiredSpeed - b.speed) * accel * deltaTime
    else
      let dragged := b.speed * F.exp (-DRAG * deltaTime)
      if |dragged| < 1 / 100 then 0 else dragged
  let speedFactor := min (|speed1| / MAX_SPEED) 1
  let desiredYawRate := b.turnInput * TURN_SPEED * speedFactor
  let yawAccel := (desiredYawRate - b.angularVelocity) * TURN_ACCEL
  let angVel1 := (b.angularVelocity + yawAccel * deltaTime) * F.exp (-TURN_DAMPING * deltaTime)
  let rot1 := b.rotation + angVel1 * deltaTime
  let rot2 := if rot1 < 0 then rot1 + 360 else rot1
  let rot3 := if rot2 ≥ 360 then rot2 - 360 else rot2
  let turnPenalty := 1 - min (|angVel1| / TURN_SPEED) 1 * TURN_SPEED_FACTOR
  let effectiveSpeed := speed1 * max (35 / 100) turnPenalty
  let rotRad := radians F rot3
  let forward : Vec3 α := ⟨F.sin rotRad, 0, F.cos rotRad⟩
  let position1 := b.position.add ((forward.scale effectiveSpeed).scale deltaTime)
  let roll1 :=
    if |speed1| > 1 / 10 then
      let wobble := F.sin (glfwTime * 2) * (1 / 100) * speedFactor
      wobble * 2
    else
      b.roll * (95 / 100)
  { b with
    speed := speed1
    angularVelocity := angVel1
    rotation := rot3
    position := position1
    roll := roll1 }

/-- The method `Boat::sampleWaterHeight`. -/
def Boat.sampleWaterHeight (F : FloatOps α) (worldPos : Vec3 α) (waterSurface : WaterSurface α)
    (time : α) : α :=
  waterSurface.getWaterHeight F worldPos.x worldPos.z time

/-- The method `Boat::updateBuoyancy`; the literal `3.14159f` is kept as `314159 / 100000`. -/
def Boat.updateBuoyancy (F : FloatOps α) (b : Boat α) (waterSurface : Option (WaterSurface α))
    (currentTime : α) : Boat α :=
  match waterSurface with
  | none => b
  | some ws =>
    let rotRad := radians F b.rotation
    let forward : Vec3 α := ⟨F.sin rotRad, 0, F.cos rotRad⟩
    let right : Vec3 α := ⟨F.cos rotRad, 0, -F.sin rotRad⟩
    let bow := b.position.add (forward.scale (BOAT_LENGTH * (5 / 10)))
    let stern := b.position.sub (forward.scale (BOAT_LENGTH * (5 / 10)))
    let portSide := b.position.sub (right.scale (BOAT_WIDTH * (5 / 10)))
    let starboard := b.position.add (right.scale (BOAT_WIDTH * (5 / 10)))
    let heightBow := Boat.sampleWaterHeight F bow ws currentTime
    let heightStern := Boat.sampleWaterHeight F stern ws currentTime
    let heightPort := Boat.sampleWaterHeight F portSide ws currentTime
    let heightStarboard := Boat.sampleWaterHeight F starboard ws currentTime
    let avgHeight := (heightBow + heightStern + heightPort + heightStarboard) / 4
    let pitchDiff := heightBow - heightStern
    let pitch1 := F.atan2 pitchDiff BOAT_LENGTH * (180 / (314159 / 100000))
    let rollDiff := heightStarboard - heightPort
    let waterRoll := F.atan2 rollDiff BOAT_WIDTH * (180 / (314159 / 100000))
    { b with
      position := ⟨b.position.x, avgHeight + BOAT_WATERLINE_OFFSET, b.position.z⟩
      pitch := pitch1 * (3 / 10)
      roll := b.roll * (5 / 10) + waterRoll * (5 / 10) }

/-- The method `Boat::syncToWaterSurface`. -/
def Boat.syncToWaterSurface (F : FloatOps α) (b : Boat α) (waterSurface : Option (WaterSurface α))
    (currentTime : α) : Boat α :=
  match waterSurface with
  | none => b
  | some ws => b.updateBuoyancy F (some ws) currentTime

/-- The four probe points of `Boat::handleCollisions` (bow, stern, port, starboard) for a
boat at `position` with heading `rotation`; the same block of code occurs in both passes. -/
def checkPoints (F : FloatOps α) (position : Vec3 α) (rotation : α) : List (Vec3 α) :=
  let rotRad := radians F rotation
  let forward : Vec3 α := ⟨F.sin rotRad, 0, F.cos rotRad⟩
  let right : Vec3 α := ⟨F.cos rotRad, 0, -F.sin rotRad⟩
  let checkDistLong := BOAT_LENGTH * (6 / 10)
  let checkDistSide := BOAT_WIDTH * (8 / 10)
  [ position.add (forward.scale checkDistLong),
    position.sub (forward.scale checkDistLong),
    position.sub (right.scale checkDistSide),
    position.add (right.scale checkDistSide) ]

/-- The probe loop of `Boat::handleCollisions`: true when no probe point is rejected by the
predicate (the value of `inWater` after the loop). -/
def probesSafe (F : FloatOps α) (predicate : α → α → Bool) (position : Vec3 α) (rotation : α) :
    Bool :=
  (checkPoints F position rotation).all (fun p => predicate p.x p.z)

/-- The world bounds block of `Boat::handleCollisions`. -/
def Boat.boundsStage (b : Boat α) : Boat α :=
  if b.hasBounds then
    let c1 := b.position.x - BOAT_RADIUS < b.minX
    let px1 : α := if c1 then b.minX + BOAT_RADIUS - b.position.x else 0
    let c2 := b.position.x + BOAT_RADIUS > b.maxX
    let px2 : α := if c2 then b.maxX - BOAT_RADIUS - b.position.x else px1
    let c3 := b.position.z - BOAT_RADIUS < b.minZ
    let pz1 : α := if c3 then b.minZ + BOAT_RADIUS - b.position.z else 0
    let c4 := b.position.z + BOAT_RADIUS > b.maxZ
    let pz2 : α := if c4 then b.maxZ - BOAT_RADIUS - b.position.z else pz1
    if c1 ∨ c2 ∨ c3 ∨ c4 then
      { b with
        position := b.position.add ⟨px2, 0, pz2⟩
        speed := b.speed * (3 / 10) }
    else b
  else b

/-- One iteration of the obstacle loop of `Boat::handleCollisions`. -/
def Boat.obstacleStep (F : FloatOps α) (b : Boat α) (obstacle : Obstacle α) : Boat α :=
  let diff0 := b.position.sub obstacle.position
  let diff : Vec3 α := ⟨diff0.x, 0, diff0.z⟩
  let distance := Vec3.length F diff
  let minDist := BOAT_RADIUS + obstacle.radius
  if distance < minDist ∧ distance > 1 / 1000 then
    let pushDir := Vec3.normalize F diff
    let pushAmount := minDist - distance
    { b with
      position := b.position.add (pushDir.scale pushAmount)
      speed := b.speed * (3 / 10) }
  else b

/-- The obstacle loop of `Boat::handleCollisions`, in the order of `m_obstacles`. -/
def Boat.obstacleStage (F : FloatOps α) (b : Boat α) : Boat α :=
  b.obstacles.foldl (Boat.obstacleStep F) b

/-- The final block of `Boat::handleCollisions`: the terrain check after the pushes. -/
def Boat.revalidate (F : FloatOps α) (b : Boat α) : Boat α :=
  match b.collisionPredicate with
  | none => b
  | some predicate =>
    if probesSafe F predicate b.position b.rotation then b
    else
      { b with
        position := if b.hasLastSafePosition then b.lastSafePosition else b.position
        speed := 0
        angularVelocity := 0 }

/-- The method `Boat::handleCollisions`. -/
def Boat.handleCollisions (F : FloatOps α) (b : Boat α) (prevPosition : Vec3 α) : Boat α :=
  match b.collisionPredicate with
  | some predicate =>
    if probesSafe F predicate b.position b.rotation then
      Boat.revalidate F (Boat.obstacleStage F (Boat.boundsStage
        { b with lastSafePosition := b.position, hasLastSafePosition := true }))
    else
      { b with
        position := if b.hasLastSafePosition then b.lastSafePosition else prevPosition
        speed := 0
        angularVelocity := 0 }
  | none => Boat.revalidate F (Boat.obstacleStage F (Boat.boundsStage b))

/-- The method `Boat::update`. -/
def Boat.update (F : FloatOps α) (glfwTime : α) (b : Boat α) (deltaTime : α)
    (waterSurface : Option (WaterSurface α)) (currentTime : α) : Boat α :=
  let prevPos := b.position
  let b1 := Boat.updateMotion F glfwTime b deltaTime
  let b2 := Boat.handleCollisions F b1 prevPos
  match waterSurface with
  | some ws => Boat.updateBuoyancy F b2 (some ws) currentTime
  | none => b2

/-! ## Sequences of calls -/

/-- A call made by the game loop while driving: `processInput` or `update`. -/
inductive DriveOp (α : Type) where
  | processInput (forward turn : α)
  | update (glfwTime deltaTime : α) (waterSurface : Option (WaterSurface α)) (currentTime : α)

/-- Effect of one call on the boat. -/
def Boat.applyOp (F : FloatOps α) (b : Boat α) : DriveOp α → Boat α
  | .processInput forward turn => b.processInput forward turn
  | .update glfwTime deltaTime waterSurface currentTime =>
      b.update F glfwTime deltaTime waterSurface currentTime

/-- Effect of a sequence of calls, first call first. -/
def Boat.runOps (F : FloatOps α) (b : Boat α) (ops : List (DriveOp α)) : Boat α :=
  ops.foldl (Boat.applyOp F) b

/-- Planar distance between two points, Y ignored: `glm::length(diff)` after `diff.y = 0`
as computed in the obstacle loop of `Boat::handleCollisions`. -/
def planarDistance (F : FloatOps α) (p q : Vec3 α) : α :=
  Vec3.length F ⟨(p.sub q).x, 0, (p.sub q).z⟩

/-! ## Example states -/

/-- A boat built at the origin with heading 0, then given speed 10 and one obstacle of
radius 1 centred at `centre`. -/
def boatWithObstacle (centre : Vec3 α) : Boat α :=
  (((Boat.new ⟨0, 0, 0⟩ 0).setSpeed 10).addObstacle centre 1)

/-- The fields that `Boat::handleCollisions` and `Boat::updateBuoyancy` never write:
heading, stored inputs, bounds, obstacles and predicate agree in `b` and `c`. -/
def Boat.SameConfig (b c : Boat α) : Prop :=
  c.rotation = b.rotation ∧ c.forwardInput = b.forwardInput ∧ c.turnInput = b.turnInput
  ∧ c.hasBounds = b.hasBounds ∧ c.minX = b.minX ∧ c.maxX = b.maxX ∧ c.minZ = b.minZ
  ∧ c.maxZ = b.maxZ ∧ c.obstacles = b.obstacles
  ∧ c.collisionPredicate = b.collisionPredicate

/-- A call of a drive at sustained full-forward input with ticks of at most `maxDt`
seconds: `processInput` with `forward >= 1` (stored as 1) and any turn input, or `update`
with `0 <= deltaTime <= maxDt`. -/
def fullThrottleOp (maxDt : α) : DriveOp α → Prop
  | .processInput forward _ => 1 ≤ forward
  | .update _ deltaTime _ _ => 0 ≤ deltaTime ∧ deltaTime ≤ maxDt

/-- The boat of the throttle scenario: built at the origin with heading 0 (speed 0), an
always-true collision predicate, no bounds, no obstacles, after `processInput(1, 0)`. -/
def throttleScenario : Boat α :=
  (((Boat.new ⟨0, 0, 0⟩ 0).setCollisionPredicate (some (fun _ _ => true))).processInput 1 0)

/-- The call is an `update` whose tick duration is `dt`. -/
def isUpdateWithDt (dt : α) : DriveOp α → Prop
  | .processInput _ _ => False
  | .update _ deltaTime _ _ => deltaTime = dt

/-- A call of a drive with ticks of at most `maxDt` seconds: any `processInput`, or
`update` with `0 <= deltaTime <= maxDt`. -/
def boundedTickOp (maxDt : α) : DriveOp α → Prop
  | .processInput _ _ => True
  | .update _ deltaTime _ _ => 0 ≤ deltaTime ∧ deltaTime ≤ maxDt

/-- A boat in a turning run in open water: full forward and full turn input are
stored, there is no predicate, no bounds and no obstacle, and the speed, the angular
velocity and the heading lie within the given bounds. -/
def turningWithin (b : Boat α) (speedLo speedHi rateLo rateHi headingLo headingHi : α) :
    Prop :=
  (b.forwardInput = 1 ∧ b.turnInput = 1 ∧ b.collisionPredicate = none ∧ b.hasBounds = false
    ∧ b.obstacles = [])
  ∧ (speedLo ≤ b.speed ∧ b.speed ≤ speedHi)
  ∧ (rateLo ≤ b.angularVelocity ∧ b.angularVelocity ≤ rateHi)
  ∧ (headingLo ≤ b.rotation ∧ b.rotation ≤ headingHi)

/-- The terrain check of `Boat::handleCollisions` passed at `position` for some heading:
all four probe points around `position` were reported safe by the predicate. -/
def validatedAt (F : FloatOps α) (predicate : α → α → Bool) (position : Vec3 α) : Prop :=
  ∃ rotation : α, probesSafe F predicate position rotation = true

/-- A predicate that marks as unsafe the disc of radius `0.1` around the origin (a small
rock) and everything else as safe. -/
def rockPredicate (x z : α) : Bool := decide (1 / 100 < x * x + z * z)

/-- A boat built at the origin with heading 0, with `rockPredicate` as collision
predicate: the four probes are outside the rock, the centre of the boat is on it. -/
def boatOnRock : Boat α :=
  (Boat.new ⟨0, 0, 0⟩ 0).setCollisionPredicate (some rockPredicate)

/-- A boat built at the origin (so that the last-safe position is the origin), given a
predicate that rejects every point, then moved by `setPosition` to height 1. -/
def strandedBoat : Boat α :=
  (((Boat.new ⟨0, 0, 0⟩ 0).setCollisionPredicate (some (fun _ _ => false))).setPosition
    ⟨0, 1, 0⟩)

/-- A predicate for a shore along the line `z = 1`: a point is safe when `z <= 1`. -/
def shorePredicate (_x z : α) : Bool := decide (z ≤ 1)

/-- A boat built at the origin with heading 0, with `shorePredicate` as collision
predicate: the shore is ahead of the bow. -/
def boatOffShore : Boat α :=
  (Boat.new ⟨0, 0, 0⟩ 0).setCollisionPredicate (some shorePredicate)

/-- A boat built at `(0, 0, 0.3)` with heading 0, given speed 2, world bounds that start
at `minZ = 0.5` and `shorePredicate`: all four probes are safe where the boat is, and the
bounds push moves it to `z = 1`, where the bow probe is on the shore. -/
def boatPushedAshore : Boat α :=
  ((((Boat.new ⟨0, 0, 3 / 10⟩ 0).setSpeed 2).setBounds (-5) 5 (1 / 2) 5).setCollisionPredicate
    (some shorePredicate))

/-! ## SceneEditor (boat branch of the per-frame update) -/

/-- Counterpart of `enum class EditorMode`. -/
inductive EditorMode where
  | TERRAIN
  | BUILDING
  | GAME
  deriving DecidableEq

/-- The members of `SceneEditor` read or written by the boat branch of
`SceneEditor::update`: `m_currentMode`, `m_boat` and `m_waterSurface` (null = `none`). -/
structure SceneEditor (α : Type) where
  currentMode : EditorMode
  boat : Option (Boat α)
  waterSurface : Option (WaterSurface α)

/-- The boat branch of `SceneEditor::update` (SceneEditor.cpp:232-245); `currentTime` is
the value of `glfwGetTime()` read there, `glfwTime` the one read inside `Boat::update`. -/
def SceneEditor.update (F : FloatOps α) (glfwTime currentTime : α) (s : SceneEditor α)
    (deltaTime : α) : SceneEditor α :=
  if s.currentMode = EditorMode.GAME then
    match s.boat, s.waterSurface with
    | some b, some ws =>
      { s with boat := some (b.update F glfwTime deltaTime (some ws) currentTime) }
    | _, _ => s
  else
    match s.boat, s.waterSurface with
    | some b, some ws => { s with boat := some (b.syncToWaterSurface F (some ws) currentTime) }
    | _, _ => s

/-! ## BoatWake

Two places of `BoatWake` depend on machine arithmetic and are modelled explicitly.
* `m_particles.size()` is compared with the `int m_maxParticles`: the `int` is converted
  to the unsigned 64-bit `size_t` (`BoatWake.capacity`).
* `interval = 1.0f / adjustedRate` is a division by zero when `adjustedRate` is zero: in
  IEEE arithmetic it is `+inf` for `+0.0f` and `-inf` for `-0.0f`. The interval and the
  accumulator it is compared with and subtracted from are therefore values of `ExtFloat`
  (a finite number, an infinity or NaN), with the IEEE rules for `>=`, `+` and `-`. The
  numbers of the model have a single zero, which stands for `+0.0f` (an emission rate or a
  boat speed of `-0.0f` is outside the model); the zero product
  `m_emissionRate * speedFactor` is then `-0.0f` exactly when `m_emissionRate` is negative
  (`speedFactor` is the result of a clamp to `[0, 1]`). -/

/-- The values of a `float` variable that can become infinite: a finite number, `+inf`,
`-inf` or NaN. -/
inductive ExtFloat (α : Type) where
  | finite (value : α)
  | posInf
  | negInf
  | nan

/-- The comparison `a >= b` of two `float` values (false whenever one of them is NaN). -/
def ExtFloat.ge : ExtFloat α → ExtFloat α → Bool
  | .finite x, .finite y => decide (x ≥ y)
  | .finite _, .posInf => false
  | .finite _, .negInf => true
  | .posInf, .nan => false
  | .posInf, _ => true
  | .negInf, .negInf => true
  | .negInf, _ => false
  | .nan, _ => false
  | .finite _, .nan => false

/-- The difference `a - b` of two `float` values (`inf - inf` is NaN). -/
def ExtFloat.sub : ExtFloat α → ExtFloat α → ExtFloat α
  | .finite x, .finite y => .finite (x - y)
  | .finite _, .posInf => .negInf
  | .finite _, .negInf => .posInf
  | .posInf, .finite _ => .posInf
  | .posInf, .negInf => .posInf
  | .posInf, .posInf => .nan
  | .negInf, .finite _ => .negInf
  | .negInf, .posInf => .negInf
  | .negInf, .negInf => .nan
  | .nan, _ => .nan
  | .finite _, .nan => .nan
  | .posInf, .nan => .nan
  | .negInf, .nan => .nan

/-- The sum `a + d` of a `float` value and a finite number. -/
def ExtFloat.addFinite : ExtFloat α → α → ExtFloat α
  | .finite x, d => .finite (x + d)
  | .posInf, _ => .posInf
  | .negInf, _ => .negInf
  | .nan, _ => .nan

/-- Counterpart of `BoatWake::WakeParticle`. -/
structure WakeParticle (α : Type) where
  position : Vec3 α
  amplitude : α
  wavelength : α
  lifetime : α
  age : α
  direction : Vec2 α
  speed : α

/-- The members of `class BoatWake`. -/
structure BoatWake (α : Type) where
  particles : List (WakeParticle α)
  maxParticles : Int
  emissionRate : α
  particleLifetime : α
  accumulator : ExtFloat α
  bowWaveAmplitude : α
  bowWaveWavelength : α
  sternWaveAmplitude : α
  sternWaveWavelength : α
  currentBoatSpeed : α

/-- The constructor `BoatWake::BoatWake`. -/
def BoatWake.new : BoatWake α :=
  { particles := []
    maxParticles := 20
    emissionRate := 5
    particleLifetime := 5
    accumulator := .finite 0
    bowWaveAmplitude := 3 / 10
    bowWaveWavelength := 2
    sternWaveAmplitude := 2 / 10
    sternWaveWavelength := 3
    currentBoatSpeed := 0 }

/-- The setter `BoatWake::setMaxParticles`. -/
def BoatWake.setMaxParticles (w : BoatWake α) (count : Int) : BoatWake α :=
  { w with maxParticles := count }

/-- The setter `BoatWake::setEmissionRate`. -/
def BoatWake.setEmissionRate (w : BoatWake α) (rate : α) : BoatWake α :=
  { w with emissionRate := rate }

/-- The setter `BoatWake::setParticleLifetime`. -/
def BoatWake.setParticleLifetime (w : BoatWake α) (lifetime : α) : BoatWake α :=
  { w with particleLifetime := lifetime }

/-- The method `BoatWake::clear`. -/
def BoatWake.clear (w : BoatWake α) : BoatWake α :=
  { w with particles := [], accumulator := .finite 0 }

/-- The value `m_maxParticles` takes in a comparison with `m_particles.size()`: the
`int` converted to the unsigned 64-bit `size_t`. -/
def BoatWake.capacity (w : BoatWake α) : Nat := (w.maxParticles % 2 ^ 64).toNat

/-- The method `BoatWake::emitWake`. -/
def BoatWake.emitWake (w : BoatWake α) (position : Vec3 α) (direction : Vec2 α)
    (intensity : α) : BoatWake α :=
  if w.particles.length ≥ w.capacity then w
  else
    { w with
      particles := w.particles ++
        [{ position := position
           direction := direction
           amplitude := intensity
           wavelength := w.sternWaveWavelength
           speed := 2
           lifetime := w.particleLifetime
           age := 0 }] }

/-- The body of the particle loop of `BoatWake::update` before the removal test: the age
grows by `deltaTime`, the particle moves along its direction, the amplitude decays. -/
def WakeParticle.advance (p : WakeParticle α) (deltaTime : α) : WakeParticle α :=
  let age1 := p.age + deltaTime
  let position1 : Vec3 α :=
    ⟨p.position.x + p.direction.x * p.speed * deltaTime, p.position.y,
      p.position.z + p.direction.y * p.speed * deltaTime⟩
  let lifeRatio := age1 / p.lifetime
  { p with
    age := age1
    position := position1
    amplitude := p.amplitude * (1 - lifeRatio * (1 / 10) * deltaTime) }

/-- The removal test of the particle loop of `BoatWake::update`. -/
def WakeParticle.expired (p : WakeParticle α) : Bool :=
  decide (p.age ≥ p.lifetime ∨ p.amplitude < 1 / 100)

/-- The particle loop of `BoatWake::update`: every particle is advanced, the expired ones
are erased, the order of the others is kept. -/
def ageParticles (particles : List (WakeParticle α)) (deltaTime : α) :
    List (WakeParticle α) :=
  (particles.map (fun p => p.advance deltaTime)).filter (fun p => !p.expired)

/-- The body of the emission loop of `BoatWake::update` after the accumulator update:
three bow particles and two stern particles are handed to `emitWake`. -/
def BoatWake.emitBatch (F : FloatOps α) (w : BoatWake α) (boatPos : Vec3 α)
    (boatForward : Vec2 α) (speedFactor : α) : BoatWake α :=
  let boatRight : Vec2 α := ⟨-boatForward.y, boatForward.x⟩
  let boatLength : α := 3
  let boatWidth : α := 15 / 10
  let forward3 : Vec3 α := ⟨boatForward.x, 0, boatForward.y⟩
  let right3 : Vec3 α := ⟨boatRight.x, 0, boatRight.y⟩
  let bowPos := boatPos.add ((forward3.scale boatLength).scale (5 / 10))
  let sternLeftPos := (boatPos.sub ((forward3.scale boatLength).scale (3 / 10))).add
    ((right3.scale boatWidth).scale (4 / 10))
  let sternRightPos := (boatPos.sub ((forward3.scale boatLength).scale (3 / 10))).sub
    ((right3.scale boatWidth).scale (4 / 10))
  let angle := radians F 30
  let waveDir (i : Int) : Vec2 α :=
    let spreadAngle := angle * (i : α)
    ⟨boatForward.x * F.cos spreadAngle - boatForward.y * F.sin spreadAngle,
      boatForward.x * F.sin spreadAngle + boatForward.y * F.cos spreadAngle⟩
  let w1 := w.emitWake bowPos (Vec2.normalize F (waveDir (-1)))
    (speedFactor * w.bowWaveAmplitude)
  let w2 := w1.emitWake bowPos (Vec2.normalize F (waveDir 0))
    (speedFactor * w1.bowWaveAmplitude)
  let w3 := w2.emitWake bowPos (Vec2.normalize F (waveDir 1))
    (speedFactor * w2.bowWaveAmplitude)
  let wakeAngle := radians F 30
  let leftDir : Vec2 α :=
    ⟨-boatForward.x * F.cos wakeAngle + boatRight.x * F.sin wakeAngle,
      -boatForward.x * F.sin wakeAngle + boatRight.y * F.cos wakeAngle⟩
  let w4 := w3.emitWake sternLeftPos (Vec2.normalize F leftDir)
    (speedFactor * w3.sternWaveAmplitude)
  let rightDir : Vec2 α :=
    ⟨-boatForward.x * F.cos wakeAngle - boatRight.x * F.sin wakeAngle,
      -boatForward.x * F.sin wakeAngle - boatRight.y * F.cos wakeAngle⟩
  w4.emitWake sternRightPos (Vec2.normalize F rightDir) (speedFactor * w4.sternWaveAmplitude)

/-- The value of `interval = 1.0f / adjustedRate` with
`adjustedRate = m_emissionRate * speedFactor`: the quotient when `adjustedRate` is not
zero, `-inf` when it is the zero product of a negative emission rate (`-0.0f`), and `+inf`
when it is any other zero (`+0.0f`). -/
def emissionInterval (emissionRate speedFactor : α) : ExtFloat α :=
  let adjustedRate := emissionRate * speedFactor
  if adjustedRate = 0 then
    if emissionRate < 0 then .negInf else .posInf
  else .finite (1 / adjustedRate)

/-- The particle `BoatWake::emitWake` builds from its arguments. -/
def BoatWake.newParticle (w : BoatWake α) (position : Vec3 α) (direction : Vec2 α)
    (intensity : α) : WakeParticle α :=
  { position := position
    direction := direction
    amplitude := intensity
    wavelength := w.sternWaveWavelength
    speed := 2
    lifetime := w.particleLifetime
    age := 0 }

/-- The 5-particle pattern of one emission interval, in the order of the five `emitWake`
calls of the loop body of `BoatWake::update`: the bow particles at spread `-30`, `0` and
`+30` degrees, then the stern-left and the stern-right particle. -/
def BoatWake.wakePattern (F : FloatOps α) (w : BoatWake α) (boatPos : Vec3 α)
    (boatForward : Vec2 α) (speedFactor : α) : List (WakeParticle α) :=
  let boatRight : Vec2 α := ⟨-boatForward.y, boatForward.x⟩
  let boatLength : α := 3
  let boatWidth : α := 15 / 10
  let forward3 : Vec3 α := ⟨boatForward.x, 0, boatForward.y⟩
  let right3 : Vec3 α := ⟨boatRight.x, 0, boatRight.y⟩
  let bowPos := boatPos.add ((forward3.scale boatLength).scale (5 / 10))
  let sternLeftPos := (boatPos.sub ((forward3.scale boatLength).scale (3 / 10))).add
    ((right3.scale boatWidth).scale (4 / 10))
  let sternRightPos := (boatPos.sub ((forward3.scale boatLength).scale (3 / 10))).sub
    ((right3.scale boatWidth).scale (4 / 10))
  let angle := radians F 30
  let waveDir (i : Int) : Vec2 α :=
    let spreadAngle := angle * (i : α)
    ⟨boatForward.x * F.cos spreadAngle - boatForward.y * F.sin spreadAngle,
      boatForward.x * F.sin spreadAngle + boatForward.y * F.cos spreadAngle⟩
  let wakeAngle := radians F 30
  let leftDir : Vec2 α :=
    ⟨-boatForward.x * F.cos wakeAngle + boatRight.x * F.sin wakeAngle,
      -boatForward.x * F.sin wakeAngle + boatRight.y * F.cos wakeAngle⟩
  let rightDir : Vec2 α :=
    ⟨-boatForward.x * F.cos wakeAngle - boatRight.x * F.sin wakeAngle,
      -boatForward.x * F.sin wakeAngle - boatRight.y * F.cos wakeAngle⟩
  [w.newParticle bowPos (Vec2.normalize F (waveDir (-1))) (speedFactor * w.bowWaveAmplitude),
    w.newParticle bowPos (Vec2.normalize F (waveDir 0)) (speedFactor * w.bowWaveAmplitude),
    w.newParticle bowPos (Vec2.normalize F (waveDir 1)) (speedFactor * w.bowWaveAmplitude),
    w.newParticle sternLeftPos (Vec2.normalize F leftDir)
      (speedFactor * w.sternWaveAmplitude),
    w.newParticle sternRightPos (Vec2.normalize F rightDir)
      (speedFactor * w.sternWaveAmplitude)]

/-- The test of the emission loop of `BoatWake::update`:
`m_accumulator >= interval && m_particles.size() < m_maxParticles`. -/
def BoatWake.canEmit (w : BoatWake α) (interval : ExtFloat α) : Prop :=
  w.accumulator.ge interval = true ∧ w.particles.length < w.capacity

instance BoatWake.canEmitDecidable (w : BoatWake α) (interval : ExtFloat α) :
    Decidable (w.canEmit interval) := by
  unfold BoatWake.canEmit
  exact inferInstance

/-- The emission loop of `BoatWake::update`, unrolled at most `fuel` times. Every
iteration adds a particle, so `capacity - size` iterations are enough
(`emitLoop_spec`). -/
def BoatWake.emitLoop (F : FloatOps α) (boatPos : Vec3 α) (boatForward : Vec2 α)
    (speedFactor : α) (interval : ExtFloat α) : Nat → BoatWake α → BoatWake α
  | 0, w => w
  | fuel + 1, w =>
    if w.canEmit interval then
      BoatWake.emitLoop F boatPos boatForward speedFactor interval fuel
        (BoatWake.emitBatch F { w with accumulator := w.accumulator.sub interval }
          boatPos boatForward speedFactor)
    else w

/-- The method `BoatWake::update`. -/
def BoatWake.update (F : FloatOps α) (w : BoatWake α) (deltaTime : α) (boatPos : Vec3 α)
    (boatForward : Vec2 α) (boatSpeed : α) : BoatWake α :=
  let w1 : BoatWake α :=
    { w with currentBoatSpeed := boatSpeed, particles := ageParticles w.particles deltaTime }
  let speedFactor := min (max (boatSpeed / 10) 0) 1
  let w2 : BoatWake α := { w1 with accumulator := w1.accumulator.addFinite deltaTime }
  let interval := emissionInterval w2.emissionRate speedFactor
  BoatWake.emitLoop F boatPos boatForward speedFactor interval
    (w2.capacity - w2.particles.length) w2

/-- A call on the wake system: `update` or `emitWake`. -/
inductive WakeOp (α : Type) where
  | update (deltaTime : α) (boatPos : Vec3 α) (boatForward : Vec2 α) (boatSpeed : α)
  | emitWake (position : Vec3 α) (direction : Vec2 α) (intensity : α)

/-- Effect of one call on the wake system. -/
def BoatWake.applyOp (F : FloatOps α) (w : BoatWake α) : WakeOp α → BoatWake α
  | .update deltaTime boatPos boatForward boatSpeed =>
      w.update F deltaTime boatPos boatForward boatSpeed
  | .emitWake position direction intensity => w.emitWake position direction intensity

/-- Effect of a sequence of calls on the wake system, first call first. -/
def BoatWake.runOps (F : FloatOps α) (w : BoatWake α) (ops : List (WakeOp α)) : BoatWake α :=
  ops.foldl (BoatWake.applyOp F) w

/-- The wake `v` is the wake `w` with particles appended at the end, each of age 0 and with
lifetime `w.particleLifetime`, and with the same capacity and lifetime settings. -/
def BoatWake.ExtendedBy (w v : BoatWake α) : Prop :=
  v.maxParticles = w.maxParticles ∧ v.particleLifetime = w.particleLifetime
  ∧ ∃ spawned : List (WakeParticle α), v.particles = w.particles ++ spawned
    ∧ ∀ q ∈ spawned, q.age = 0 ∧ q.lifetime = w.particleLifetime

/-- The wake `v` is the wake `w` after some `emitWake` calls: particles of age 0 and
lifetime `w.particleLifetime` appended at the end, within the capacity if `w` was, at
least one of them if `w` was below capacity, and all settings kept. -/
def BoatWake.Grows (w v : BoatWake α) : Prop :=
  v.maxParticles = w.maxParticles ∧ v.particleLifetime = w.particleLifetime
  ∧ v.accumulator = w.accumulator ∧ v.emissionRate = w.emissionRate
  ∧ (∃ spawned : List (WakeParticle α), v.particles = w.particles ++ spawned
      ∧ ∀ q ∈ spawned, q.age = 0 ∧ q.lifetime = w.particleLifetime)
  ∧ (w.particles.length ≤ w.capacity → v.particles.length ≤ w.capacity)
  ∧ (w.particles.length < w.capacity → w.particles.length < v.particles.length)

/-! ## Further example states and the public interface of Boat -/

/-- A new wake system whose capacity is lowered to 3 by `setMaxParticles`. -/
def smallWake : BoatWake α := (BoatWake.new : BoatWake α).setMaxParticles 3

/-- A public operation of `Boat` that modifies the boat (the getters are left out). -/
inductive BoatOp (α : Type) where
  | update (glfwTime deltaTime : α) (waterSurface : Option (WaterSurface α)) (currentTime : α)
  | processInput (forward turn : α)
  | setPosition (position : Vec3 α)
  | setRotation (rotation : α)
  | setSpeed (speed : α)
  | setBounds (minX maxX minZ maxZ : α)
  | addObstacle (position : Vec3 α) (radius : α)
  | clearObstacles
  | syncToWaterSurface (waterSurface : Option (WaterSurface α)) (currentTime : α)
  | setCollisionPredicate (predicate : Option (α → α → Bool))

/-- Effect of one public operation on the boat. -/
def Boat.applyPublic (F : FloatOps α) (b : Boat α) : BoatOp α → Boat α
  | .update glfwTime deltaTime waterSurface currentTime =>
      b.update F glfwTime deltaTime waterSurface currentTime
  | .processInput forward turn => b.processInput forward turn
  | .setPosition position => b.setPosition position
  | .setRotation rotation => b.setRotation rotation
  | .setSpeed speed => b.setSpeed speed
  | .setBounds minX maxX minZ maxZ => b.setBounds minX maxX minZ maxZ
  | .addObstacle position radius => b.addObstacle position radius
  | .clearObstacles => b.clearObstacles
  | .syncToWaterSurface waterSurface currentTime =>
      b.syncToWaterSurface F waterSurface currentTime
  | .setCollisionPredicate predicate => b.setCollisionPredicate predicate

/-- Effect of a sequence of public operations, first operation first. -/
def Boat.runPublic (F : FloatOps α) (b : Boat α) (ops : List (BoatOp α)) : Boat α :=
  ops.foldl (Boat.applyPublic F) b

end Defs

/-! ## Theorems -/

section Theorems

variable {α : Type} [LinearOrderedField α]

/-! ### WaterSurface -/

theorem foldl_gerstnerStep (F : FloatOps α) (x z time : α) (waves : List (WaveParams α))
    (h0 : α) :
    waves.foldl (gerstnerStep F x z time) h0 =
      h0 + (waves.map (fun wave => wave.amplitude *
        F.sin (2 * F.pi / wave.wavelength * (wave.direction.x * x + wave.direction.y * z)
          - wave.speed * time))).sum := by
  induction waves generalizing h0 with
  | nil => simp
  | cons w ws ih =>
    simp only [List.foldl_cons, List.map_cons, List.sum_cons, ih]
    simp only [gerstnerStep]
    ring

/-- C6: with the four default waves and any base height, the water height queried at
`(0, 0)` at time `0` is exactly the base height (every phase is `0` and `sin 0 = 0`). -/
theorem getWaterHeight_default_origin (F : FloatOps α) (hsin : F.sin 0 = 0) (baseHeight : α) :
    ((WaterSurface.new : WaterSurface α).setBaseHeight baseHeight).getWaterHeight F 0 0 0
      = baseHeight := by
  simp [WaterSurface.getWaterHeight, WaterSurface.calculateGerstnerHeight,
    WaterSurface.setBaseHeight, WaterSurface.new, defaultWaves, gerstnerStep, hsin]

theorem getWaterHeight_default_origin_witness :
    Real.sin 0 = 0 ∧
    ((WaterSurface.new : WaterSurface ℝ).setBaseHeight 2).getWaterHeight
      (FloatOps.mk Real.exp Real.sin Real.cos Real.sqrt (fun y x => Complex.arg ⟨x, y⟩) Real.pi)
      0 0 0 = 2 :=
  ⟨Real.sin_zero, getWaterHeight_default_origin _ Real.sin_zero 2⟩

/-- C7: the water height is the base height plus the sum, over all configured waves, of
`amplitude * sin(k * (direction.x * x + direction.y * z) - speed * t)` with
`k = 2 * pi / wavelength`; overwriting the steepness of every wave changes nothing. -/
theorem getWaterHeight_eq_sum (F : FloatOps α) (w : WaterSurface α) (x z t : α)
    (g : WaveParams α → α) :
    w.getWaterHeight F x z t =
      w.baseHeight + (w.waves.map (fun wave => wave.amplitude *
        F.sin (2 * F.pi / wave.wavelength * (wave.direction.x * x + wave.direction.y * z)
          - wave.speed * t))).sum
    ∧ WaterSurface.getWaterHeight F
        { w with waves := w.waves.map (fun wave => { wave with steepness := g wave }) } x z t
      = w.getWaterHeight F x z t := by
  simp only [WaterSurface.getWaterHeight, WaterSurface.calculateGerstnerHeight,
    foldl_gerstnerStep, zero_add, List.map_map]
  exact ⟨trivial, rfl⟩

theorem normalize_cos_sin (F : FloatOps α)
    (hunit : ∀ θ : α, F.cos θ * F.cos θ + F.sin θ * F.sin θ = 1) (hsqrt : F.sqrt 1 = 1)
    (θ : α) : Vec2.normalize F ⟨F.cos θ, F.sin θ⟩ = ⟨F.cos θ, F.sin θ⟩ := by
  simp [Vec2.normalize, Vec2.dot, hunit, hsqrt]

theorem setWaveParameters_get (F : FloatOps α) (w : WaterSurface α) (waveCount : Int)
    (amplitude wavelength speed : α) (i : Nat) (hi : i < waveCount.toNat) :
    (w.setWaveParameters F waveCount amplitude wavelength speed).waves[i]?
      = some (makeWave F waveCount amplitude wavelength speed i) := by
  simp [WaterSurface.setWaveParameters, List.getElem?_map, List.getElem?_range hi]

/-- C8: `setWaveParameters(count, amplitude, wavelength, speed)` replaces the wave list by
exactly `count` components (none when `count <= 0`), whatever the previous list was; the
component of index `i` has direction `(cos(2 pi i / count), sin(2 pi i / count))`,
amplitude `amplitude * (1 - 0.2 i)`, wavelength `wavelength * (1 + 0.3 i)`,
speed `speed * (1 - 0.15 i)` and steepness `0.3`. The base height is kept. -/
theorem setWaveParameters_components (F : FloatOps α)
    (hunit : ∀ θ : α, F.cos θ * F.cos θ + F.sin θ * F.sin θ = 1) (hsqrt : F.sqrt 1 = 1)
    (w : WaterSurface α) (waveCount : Int) (amplitude wavelength speed : α) :
    (w.setWaveParameters F waveCount amplitude wavelength speed).baseHeight = w.baseHeight
    ∧ (w.setWaveParameters F waveCount amplitude wavelength speed).waves.length
        = waveCount.toNat
    ∧ ∀ i : Nat, i < waveCount.toNat →
        (w.setWaveParameters F waveCount amplitude wavelength speed).waves[i]? =
          some { direction := ⟨F.cos (2 * F.pi * (i : α) / (waveCount : α)),
                               F.sin (2 * F.pi * (i : α) / (waveCount : α))⟩
                 amplitude := amplitude * (1 - (i : α) * (2 / 10))
                 wavelength := wavelength * (1 + (i : α) * (3 / 10))
                 speed := speed * (1 - (i : α) * (15 / 100))
                 steepness := 3 / 10 } := by
  refine ⟨rfl, by simp [WaterSurface.setWaveParameters], ?_⟩
  intro i hi
  rw [setWaveParameters_get F w waveCount amplitude wavelength speed i hi]
  simp only [makeWave, normalize_cos_sin F hunit hsqrt]

theorem setWaveParameters_components_witness :
    Real.sqrt 1 = 1 ∧
    ((WaterSurface.new : WaterSurface ℝ).setWaveParameters
      (FloatOps.mk Real.exp Real.sin Real.cos Real.sqrt (fun y x => Complex.arg ⟨x, y⟩) Real.pi)
      4 1 2 1).waves.length = 4 ∧
    ((WaterSurface.new : WaterSurface ℝ).setWaveParameters
      (FloatOps.mk Real.exp Real.sin Real.cos Real.sqrt (fun y x => Complex.arg ⟨x, y⟩) Real.pi)
      4 1 2 1).waves[2]? =
        some { direction := ⟨Real.cos (2 * Real.pi * ((2 : Nat) : ℝ) / ((4 : Int) : ℝ)),
                             Real.sin (2 * Real.pi * ((2 : Nat) : ℝ) / ((4 : Int) : ℝ))⟩
               amplitude := 1 * (1 - ((2 : Nat) : ℝ) * (2 / 10))
               wavelength := 2 * (1 + ((2 : Nat) : ℝ) * (3 / 10))
               speed := 1 * (1 - ((2 : Nat) : ℝ) * (15 / 100))
               steepness := 3 / 10 } :=
  ⟨Real.sqrt_one,
   (setWaveParameters_components
      (FloatOps.mk Real.exp Real.sin Real.cos Real.sqrt (fun y x => Complex.arg ⟨x, y⟩) Real.pi)
      (fun θ => by simpa [pow_two] using Real.cos_sq_add_sin_sq θ) Real.sqrt_one
      WaterSurface.new 4 1 2 1).2.1,
   (setWaveParameters_components
      (FloatOps.mk Real.exp Real.sin Real.cos Real.sqrt (fun y x => Complex.arg ⟨x, y⟩) Real.pi)
      (fun θ => by simpa [pow_two] using Real.cos_sq_add_sin_sq θ) Real.sqrt_one
      WaterSurface.new 4 1 2 1).2.2 2 (by decide)⟩

/-- C9 (counterexample): two of the four default waves do not have a unit direction (the
squared lengths of the default directions are `1`, `49/50`, `1`, `1/2`), and
`setWaveParameters` with `count = 7` and amplitude `1` builds a last wave of amplitude
`-1/5`. -/
theorem wave_invariant_counterexample :
    (WaterSurface.new : WaterSurface ℚ).waves.map (fun wave => wave.direction.dot wave.direction)
      = [1, 49 / 50, 1, 1 / 2]
    ∧ ((WaterSurface.new : WaterSurface ℝ).setWaveParameters
        (FloatOps.mk Real.exp Real.sin Real.cos Real.sqrt (fun y x => Complex.arg ⟨x, y⟩)
          Real.pi) 7 1 1 1).waves.map (fun wave => wave.amplitude)
      = [1, 4 / 5, 3 / 5, 2 / 5, 1 / 5, 0, -(1 / 5)] := by
  constructor
  · norm_num [WaterSurface.new, defaultWaves, Vec2.dot]
  · have h : (7 : Int).toNat = 7 := rfl
    simp only [WaterSurface.setWaveParameters, h, List.range_succ, List.range_zero]
    norm_num [makeWave]

/-- C9 (amended): after `setWaveParameters(count, amplitude, wavelength, speed)` with
`count <= 6`, `amplitude >= 0` and `wavelength > 0` every wave has a unit direction,
amplitude `>= 0` and wavelength `> 0`; after default construction every wave has
amplitude `>= 0` and wavelength `> 0` (nothing is claimed about the default directions). -/
theorem wave_invariant (F : FloatOps α)
    (hunit : ∀ θ : α, F.cos θ * F.cos θ + F.sin θ * F.sin θ = 1) (hsqrt : F.sqrt 1 = 1)
    (w : WaterSurface α) (waveCount : Int) (hcount : waveCount ≤ 6)
    (amplitude wavelength speed : α) (ha : 0 ≤ amplitude) (hw : 0 < wavelength) :
    (∀ wave ∈ (w.setWaveParameters F waveCount amplitude wavelength speed).waves,
        wave.direction.dot wave.direction = 1 ∧ 0 ≤ wave.amplitude ∧ 0 < wave.wavelength)
    ∧ (∀ wave ∈ (WaterSurface.new : WaterSurface α).waves,
        0 ≤ wave.amplitude ∧ 0 < wave.wavelength) := by
  constructor
  · intro wave hwave
    simp only [WaterSurface.setWaveParameters, List.mem_map, List.mem_range] at hwave
    obtain ⟨i, hi, rfl⟩ := hwave
    have hi6 : i < 6 := by omega
    have hi5 : (i : α) ≤ 5 := by exact_mod_cast Nat.lt_succ_iff.mp hi6
    have hi0 : (0 : α) ≤ (i : α) := Nat.cast_nonneg i
    simp only [makeWave, normalize_cos_sin F hunit hsqrt, Vec2.dot, hunit, true_and]
    constructor
    · apply mul_nonneg ha
      linarith
    · apply mul_pos hw
      linarith
  · intro wave hwave
    simp only [WaterSurface.new, defaultWaves, List.mem_cons, List.mem_singleton,
      List.not_mem_nil, or_false] at hwave
    rcases hwave with rfl | rfl | rfl | rfl <;> norm_num

theorem wave_invariant_witness :
    (∀ wave ∈ ((WaterSurface.new : WaterSurface ℝ).setWaveParameters
        (FloatOps.mk Real.exp Real.sin Real.cos Real.sqrt (fun y x => Complex.arg ⟨x, y⟩)
          Real.pi) 4 1 2 1).waves,
        wave.direction.dot wave.direction = 1 ∧ 0 ≤ wave.amplitude ∧ 0 < wave.wavelength)
    ∧ (∀ wave ∈ (WaterSurface.new : WaterSurface ℝ).waves,
        0 ≤ wave.amplitude ∧ 0 < wave.wavelength) :=
  wave_invariant
    (FloatOps.mk Real.exp Real.sin Real.cos Real.sqrt (fun y x => Complex.arg ⟨x, y⟩) Real.pi)
    (fun θ => by simpa [pow_two] using Real.cos_sq_add_sin_sq θ) Real.sqrt_one
    WaterSurface.new 4 (by decide) 1 2 1 (by norm_num) (by norm_num)

/-! ### Boat -/

/-- C10: `processInput(forward, turn)` stores `forward` and `turn` clamped to `[-1, 1]`
(`-1` below the range, `1` above it, the value itself inside it), for all inputs, and
changes no other field of the boat. -/
theorem processInput_clamps (b : Boat α) (forward turn : α) :
    (b.processInput forward turn).forwardInput
        = (if forward < -1 then -1 else if 1 < forward then 1 else forward)
    ∧ (b.processInput forward turn).turnInput
        = (if turn < -1 then -1 else if 1 < turn then 1 else turn)
    ∧ -1 ≤ (b.processInput forward turn).forwardInput
    ∧ (b.processInput forward turn).forwardInput ≤ 1
    ∧ -1 ≤ (b.processInput forward turn).turnInput
    ∧ (b.processInput forward turn).turnInput ≤ 1
    ∧ (b.processInput forward turn).position = b.position
    ∧ (b.processInput forward turn).lastSafePosition = b.lastSafePosition
    ∧ (b.processInput forward turn).hasLastSafePosition = b.hasLastSafePosition
    ∧ (b.processInput forward turn).rotation = b.rotation
    ∧ (b.processInput forward turn).speed = b.speed
    ∧ (b.processInput forward turn).angularVelocity = b.angularVelocity
    ∧ (b.processInput forward turn).pitch = b.pitch
    ∧ (b.processInput forward turn).roll = b.roll
    ∧ (b.processInput forward turn).hasBounds = b.hasBounds
    ∧ (b.processInput forward turn).minX = b.minX
    ∧ (b.processInput forward turn).maxX = b.maxX
    ∧ (b.processInput forward turn).minZ = b.minZ
    ∧ (b.processInput forward turn).maxZ = b.maxZ
    ∧ (b.processInput forward turn).obstacles = b.obstacles
    ∧ (b.processInput forward turn).collisionPredicate = b.collisionPredicate := by
  have clamp : ∀ v : α, max (-1) (min v 1) = (if v < -1 then -1 else if 1 < v then 1 else v)
      ∧ -1 ≤ max (-1) (min v 1) ∧ max (-1) (min v 1) ≤ 1 := by
    intro v
    refine ⟨?_, le_max_left _ _, max_le (by norm_num) (min_le_right _ _)⟩
    split_ifs with h1 h2
    · rw [max_eq_left]
      exact le_trans (min_le_left _ _) h1.le
    · rw [min_eq_right h2.le, max_eq_right]
      norm_num
    · rw [min_eq_left (not_lt.mp h2), max_eq_right (not_lt.mp h1)]
  exact ⟨(clamp forward).1, (clamp turn).1, (clamp forward).2.1, (clamp forward).2.2,
    (clamp turn).2.1, (clamp turn).2.2, rfl, rfl, rfl, rfl, rfl, rfl, rfl, rfl, rfl, rfl, rfl,
    rfl, rfl, rfl, rfl⟩

theorem boundsStage_of_no_bounds (b : Boat α) (h : b.hasBounds = false) :
    b.boundsStage = b := by
  simp [Boat.boundsStage, h]

theorem revalidate_of_no_predicate (F : FloatOps α) (b : Boat α)
    (h : b.collisionPredicate = none) : b.revalidate F = b := by
  simp [Boat.revalidate, h]

theorem obstacleStep_collisionPredicate (F : FloatOps α) (b : Boat α) (o : Obstacle α) :
    (b.obstacleStep F o).collisionPredicate = b.collisionPredicate := by
  unfold Boat.obstacleStep
  dsimp only
  split_ifs <;> rfl

theorem sqrt_mul_self_of_nonneg (F : FloatOps α)
    (hsqrt : ∀ x : α, 0 ≤ x → 0 ≤ F.sqrt x ∧ F.sqrt x * F.sqrt x = x) (m : α) (hm : 0 ≤ m) :
    F.sqrt (m * m) = m := by
  obtain ⟨h0, h1⟩ := hsqrt (m * m) (mul_self_nonneg m)
  rcases (mul_self_eq_mul_self_iff.mp h1) with h | h
  · exact h
  · have : F.sqrt (m * m) = 0 := le_antisymm (by rw [h]; linarith) h0
    rw [this] at h
    linarith

/-- One obstacle step on an overlapping obstacle at planar distance above `0.001`: the
speed is multiplied by `0.3` and the boat ends exactly at planar distance
`BOAT_RADIUS + radius` from the obstacle. -/
theorem obstacleStep_push (F : FloatOps α)
    (hsqrt : ∀ x : α, 0 ≤ x → 0 ≤ F.sqrt x ∧ F.sqrt x * F.sqrt x = x)
    (b : Boat α) (o : Obstacle α)
    (hnear : planarDistance F b.position o.position < BOAT_RADIUS + o.radius)
    (hfar : 1 / 1000 < planarDistance F b.position o.position) :
    (b.obstacleStep F o).speed = b.speed * (3 / 10)
    ∧ planarDistance F (b.obstacleStep F o).position o.position = BOAT_RADIUS + o.radius := by
  have hD : (0 : α) ≤ (b.position.x - o.position.x) * (b.position.x - o.position.x) + 0 * 0
      + (b.position.z - o.position.z) * (b.position.z - o.position.z) := by
    have h1 := mul_self_nonneg (b.position.x - o.position.x)
    have h2 := mul_self_nonneg (b.position.z - o.position.z)
    linarith
  obtain ⟨-, hdd⟩ := hsqrt _ hD
  simp only [planarDistance, Vec3.length, Vec3.dot, Vec3.sub] at hnear hfar
  have hd0 : (0 : α) < F.sqrt ((b.position.x - o.position.x) * (b.position.x - o.position.x)
      + 0 * 0 + (b.position.z - o.position.z) * (b.position.z - o.position.z)) :=
    lt_trans (by norm_num) hfar
  have hm : (0 : α) ≤ BOAT_RADIUS + o.radius := le_of_lt (lt_trans hd0 hnear)
  have hstep : b.obstacleStep F o =
      { b with
        position := b.position.add ((Vec3.normalize F
          ⟨(b.position.sub o.position).x, 0, (b.position.sub o.position).z⟩).scale
            (BOAT_RADIUS + o.radius - Vec3.length F
              ⟨(b.position.sub o.position).x, 0, (b.position.sub o.position).z⟩))
        speed := b.speed * (3 / 10) } := by
    unfold Boat.obstacleStep
    simp only [Vec3.length, Vec3.dot, Vec3.sub]
    rw [if_pos ⟨hnear, hfar⟩]
  rw [hstep]
  refine ⟨rfl, ?_⟩
  simp only [planarDistance, Vec3.length, Vec3.dot, Vec3.sub, Vec3.add, Vec3.scale,
    Vec3.normalize]
  refine Eq.trans (congrArg F.sqrt ?_) (sqrt_mul_self_of_nonneg F hsqrt _ hm)
  generalize F.sqrt ((b.position.x - o.position.x) * (b.position.x - o.position.x)
      + 0 * 0 + (b.position.z - o.position.z) * (b.position.z - o.position.z)) = d at hdd hd0
  have hd : d ≠ 0 := ne_of_gt hd0
  generalize BOAT_RADIUS + o.radius = m
  have e : ∀ dx dz : α, dx * dx + 0 * 0 + dz * dz = d * d →
      (dx + dx * (1 / d) * (m - d)) * (dx + dx * (1 / d) * (m - d)) + 0 * 0
        + (dz + dz * (1 / d) * (m - d)) * (dz + dz * (1 / d) * (m - d)) = m * m := by
    intro dx dz h
    have h1 : dx + dx * (1 / d) * (m - d) = dx * (m / d) := by field_simp; ring
    have h2 : dz + dz * (1 / d) * (m - d) = dz * (m / d) := by field_simp; ring
    rw [h1, h2]
    have h3 : dx * (m / d) * (dx * (m / d)) + 0 * 0 + dz * (m / d) * (dz * (m / d))
        = (dx * dx + 0 * 0 + dz * dz) * (m / d) * (m / d) := by ring
    rw [h3, h]
    field_simp
    ring
  have e1 := e (b.position.x - o.position.x) (b.position.z - o.position.z) hdd.symm
  rw [← e1]
  ring

theorem handleCollisions_single_obstacle (F : FloatOps α) (b : Boat α) (o : Obstacle α)
    (prevPosition : Vec3 α) (hpred : b.collisionPredicate = none)
    (hbounds : b.hasBounds = false) (hobs : b.obstacles = [o]) :
    b.handleCollisions F prevPosition = b.obstacleStep F o := by
  unfold Boat.handleCollisions
  rw [hpred]
  simp only
  rw [boundsStage_of_no_bounds b hbounds]
  unfold Boat.obstacleStage
  rw [hobs, List.foldl_cons, List.foldl_nil]
  exact revalidate_of_no_predicate F _ (by rw [obstacleStep_collisionPredicate, hpred])

/-- C5 (counterexample): a boat of speed 10 sitting exactly on the centre of an obstacle
of radius 1 (planar distance `0 < 0.5 + 1`) keeps speed 10 and stays at distance 0 after
`handleCollisions`: the push requires a distance above `0.001`. -/
theorem obstacle_push_counterexample :
    planarDistance
        (FloatOps.mk Real.exp Real.sin Real.cos Real.sqrt (fun y x => Complex.arg ⟨x, y⟩)
          Real.pi)
        (boatWithObstacle (⟨0, 0, 0⟩ : Vec3 ℝ)).position ⟨0, 0, 0⟩ < BOAT_RADIUS + 1
    ∧ ((boatWithObstacle (⟨0, 0, 0⟩ : Vec3 ℝ)).handleCollisions
        (FloatOps.mk Real.exp Real.sin Real.cos Real.sqrt (fun y x => Complex.arg ⟨x, y⟩)
          Real.pi) ⟨0, 0, 0⟩).speed = 10
    ∧ planarDistance
        (FloatOps.mk Real.exp Real.sin Real.cos Real.sqrt (fun y x => Complex.arg ⟨x, y⟩)
          Real.pi)
        ((boatWithObstacle (⟨0, 0, 0⟩ : Vec3 ℝ)).handleCollisions
          (FloatOps.mk Real.exp Real.sin Real.cos Real.sqrt (fun y x => Complex.arg ⟨x, y⟩)
            Real.pi) ⟨0, 0, 0⟩).position ⟨0, 0, 0⟩ = 0 := by
  rw [handleCollisions_single_obstacle _ _ ⟨⟨0, 0, 0⟩, 1⟩ _ rfl rfl rfl]
  norm_num [planarDistance, Vec3.length, Vec3.dot, Vec3.sub, boatWithObstacle, Boat.new,
    Boat.setSpeed, Boat.addObstacle, Boat.obstacleStep, BOAT_RADIUS]

/-- C5 (amended): for a boat with speed 10, no collision predicate, no bounds and a single
obstacle whose planar distance `d` from the boat satisfies
`0.001 < d < BOAT_RADIUS + obstacle.radius`, after one `handleCollisions` call the speed is
`<= 0.3 * preSpeed` and the planar distance from the boat to the obstacle is
`>= BOAT_RADIUS + obstacle.radius`. -/
theorem handleCollisions_obstacle_push (F : FloatOps α)
    (hsqrt : ∀ x : α, 0 ≤ x → 0 ≤ F.sqrt x ∧ F.sqrt x * F.sqrt x = x)
    (b : Boat α) (o : Obstacle α) (prevPosition : Vec3 α)
    (hpred : b.collisionPredicate = none) (hbounds : b.hasBounds = false)
    (hobs : b.obstacles = [o]) (hspeed : b.speed = 10)
    (hnear : planarDistance F b.position o.position < BOAT_RADIUS + o.radius)
    (hfar : 1 / 1000 < planarDistance F b.position o.position) :
    (b.handleCollisions F prevPosition).speed ≤ 3 / 10 * b.speed
    ∧ BOAT_RADIUS + o.radius
        ≤ planarDistance F (b.handleCollisions F prevPosition).position o.position := by
  rw [handleCollisions_single_obstacle F b o prevPosition hpred hbounds hobs]
  obtain ⟨h1, h2⟩ := obstacleStep_push F hsqrt b o hnear hfar
  rw [h1, h2, hspeed]
  exact ⟨by norm_num, le_refl _⟩

theorem handleCollisions_obstacle_push_witness :
    ((boatWithObstacle (⟨1, 0, 0⟩ : Vec3 ℝ)).handleCollisions
        (FloatOps.mk Real.exp Real.sin Real.cos Real.sqrt (fun y x => Complex.arg ⟨x, y⟩)
          Real.pi) ⟨0, 0, 0⟩).speed ≤ 3 / 10 * (boatWithObstacle (⟨1, 0, 0⟩ : Vec3 ℝ)).speed
    ∧ BOAT_RADIUS + (1 : ℝ) ≤ planarDistance
        (FloatOps.mk Real.exp Real.sin Real.cos Real.sqrt (fun y x => Complex.arg ⟨x, y⟩)
          Real.pi)
        ((boatWithObstacle (⟨1, 0, 0⟩ : Vec3 ℝ)).handleCollisions
          (FloatOps.mk Real.exp Real.sin Real.cos Real.sqrt (fun y x => Complex.arg ⟨x, y⟩)
            Real.pi) ⟨0, 0, 0⟩).position ⟨1, 0, 0⟩ :=
  handleCollisions_obstacle_push
    (FloatOps.mk Real.exp Real.sin Real.cos Real.sqrt (fun y x => Complex.arg ⟨x, y⟩) Real.pi)
    (fun x hx => ⟨Real.sqrt_nonneg x, Real.mul_self_sqrt hx⟩)
    (boatWithObstacle ⟨1, 0, 0⟩) ⟨⟨1, 0, 0⟩, 1⟩ ⟨0, 0, 0⟩ rfl rfl rfl rfl
    (by norm_num [planarDistance, Vec3.length, Vec3.dot, Vec3.sub, boatWithObstacle, Boat.new,
      Boat.setSpeed, Boat.addObstacle, BOAT_RADIUS])
    (by norm_num [planarDistance, Vec3.length, Vec3.dot, Vec3.sub, boatWithObstacle, Boat.new,
      Boat.setSpeed, Boat.addObstacle])

/-! ### Frame lemmas for the collision stages -/

theorem sameConfig_refl (b : Boat α) : b.SameConfig b :=
  ⟨rfl, rfl, rfl, rfl, rfl, rfl, rfl, rfl, rfl, rfl⟩

theorem sameConfig_trans {b c d : Boat α} (h1 : b.SameConfig c) (h2 : c.SameConfig d) :
    b.SameConfig d := by
  obtain ⟨a1, a2, a3, a4, a5, a6, a7, a8, a9, a10⟩ := h1
  obtain ⟨c1, c2, c3, c4, c5, c6, c7, c8, c9, c10⟩ := h2
  exact ⟨c1.trans a1, c2.trans a2, c3.trans a3, c4.trans a4, c5.trans a5, c6.trans a6,
    c7.trans a7, c8.trans a8, c9.trans a9, c10.trans a10⟩

theorem boundsStage_frame (b : Boat α) :
    b.SameConfig b.boundsStage
    ∧ (b.boundsStage.speed = b.speed ∨ b.boundsStage.speed = b.speed * (3 / 10))
    ∧ b.boundsStage.angularVelocity = b.angularVelocity
    ∧ b.boundsStage.lastSafePosition = b.lastSafePosition
    ∧ b.boundsStage.hasLastSafePosition = b.hasLastSafePosition := by
  unfold Boat.boundsStage
  dsimp only
  split
  · split
    · exact ⟨sameConfig_refl _, Or.inr rfl, rfl, rfl, rfl⟩
    · exact ⟨sameConfig_refl _, Or.inl rfl, rfl, rfl, rfl⟩
  · exact ⟨sameConfig_refl _, Or.inl rfl, rfl, rfl, rfl⟩

theorem obstacleStep_frame (F : FloatOps α) (b : Boat α) (o : Obstacle α) :
    b.SameConfig (b.obstacleStep F o)
    ∧ ((b.obstacleStep F o).speed = b.speed ∨ (b.obstacleStep F o).speed = b.speed * (3 / 10))
    ∧ (b.obstacleStep F o).angularVelocity = b.angularVelocity
    ∧ (b.obstacleStep F o).lastSafePosition = b.lastSafePosition
    ∧ (b.obstacleStep F o).hasLastSafePosition = b.hasLastSafePosition := by
  unfold Boat.obstacleStep
  dsimp only
  split_ifs
  · exact ⟨sameConfig_refl _, Or.inr rfl, rfl, rfl, rfl⟩
  · exact ⟨sameConfig_refl _, Or.inl rfl, rfl, rfl, rfl⟩

theorem obstacleFold_frame (F : FloatOps α) (P : α → Prop)
    (hP : ∀ s, P s → P (s * (3 / 10))) (l : List (Obstacle α)) (b : Boat α)
    (hb : P b.speed) :
    b.SameConfig (l.foldl (Boat.obstacleStep F) b)
    ∧ P (l.foldl (Boat.obstacleStep F) b).speed
    ∧ (l.foldl (Boat.obstacleStep F) b).angularVelocity = b.angularVelocity
    ∧ (l.foldl (Boat.obstacleStep F) b).lastSafePosition = b.lastSafePosition
    ∧ (l.foldl (Boat.obstacleStep F) b).hasLastSafePosition = b.hasLastSafePosition := by
  induction l generalizing b with
  | nil => exact ⟨sameConfig_refl _, hb, rfl, rfl, rfl⟩
  | cons o l ih =>
    obtain ⟨h1, h2, h3, h4, h5⟩ := obstacleStep_frame F b o
    have hs : P (b.obstacleStep F o).speed := by
      rcases h2 with h | h
      · rw [h]; exact hb
      · rw [h]; exact hP _ hb
    obtain ⟨i1, i2, i3, i4, i5⟩ := ih (b.obstacleStep F o) hs
    exact ⟨sameConfig_trans h1 i1, i2, i3.trans h3, i4.trans h4, i5.trans h5⟩

theorem revalidate_frame (F : FloatOps α) (b : Boat α) :
    b.SameConfig (b.revalidate F)
    ∧ ((b.revalidate F).speed = b.speed ∨ (b.revalidate F).speed = 0)
    ∧ ((b.revalidate F).angularVelocity = b.angularVelocity
        ∨ (b.revalidate F).angularVelocity = 0)
    ∧ (b.revalidate F).lastSafePosition = b.lastSafePosition
    ∧ (b.revalidate F).hasLastSafePosition = b.hasLastSafePosition := by
  unfold Boat.revalidate
  split
  · exact ⟨sameConfig_refl _, Or.inl rfl, Or.inl rfl, rfl, rfl⟩
  · split
    · exact ⟨sameConfig_refl _, Or.inl rfl, Or.inl rfl, rfl, rfl⟩
    · exact ⟨sameConfig_refl _, Or.inr rfl, Or.inr rfl, rfl, rfl⟩

/-- Effect of `handleCollisions` on everything but the position: heading, inputs, bounds,
obstacles and predicate are kept; a property of the speed that holds for `0` and is stable
under multiplication by `0.3` is kept; the angular velocity is kept or zeroed. -/
theorem handleCollisions_frame (F : FloatOps α) (P : α → Prop) (hP0 : P 0)
    (hP : ∀ s, P s → P (s * (3 / 10))) (b : Boat α) (prevPosition : Vec3 α)
    (hb : P b.speed) :
    b.SameConfig (b.handleCollisions F prevPosition)
    ∧ P (b.handleCollisions F prevPosition).speed
    ∧ ((b.handleCollisions F prevPosition).angularVelocity = b.angularVelocity
        ∨ (b.handleCollisions F prevPosition).angularVelocity = 0) := by
  have rest : ∀ c : Boat α, P c.speed →
      c.SameConfig (Boat.revalidate F (Boat.obstacleStage F (Boat.boundsStage c)))
      ∧ P (Boat.revalidate F (Boat.obstacleStage F (Boat.boundsStage c))).speed
      ∧ ((Boat.revalidate F (Boat.obstacleStage F (Boat.boundsStage c))).angularVelocity
            = c.angularVelocity
          ∨ (Boat.revalidate F (Boat.obstacleStage F (Boat.boundsStage c))).angularVelocity
            = 0) := by
    intro c hc
    obtain ⟨a1, a2, a3, -, -⟩ := boundsStage_frame c
    have hs1 : P c.boundsStage.speed := by
      rcases a2 with h | h
      · rw [h]; exact hc
      · rw [h]; exact hP _ hc
    obtain ⟨o1, o2, o3, -, -⟩ :=
      obstacleFold_frame F P hP c.boundsStage.obstacles c.boundsStage hs1
    obtain ⟨r1, r2, r3, -, -⟩ := revalidate_frame F (Boat.obstacleStage F c.boundsStage)
    refine ⟨sameConfig_trans a1 (sameConfig_trans o1 r1), ?_, ?_⟩
    · rcases r2 with h | h
      · rw [h]; exact o2
      · rw [h]; exact hP0
    · rcases r3 with h | h
      · left; rw [h]; exact o3.trans a3
      · right; exact h
  unfold Boat.handleCollisions
  split
  · split
    · exact rest { b with lastSafePosition := b.position, hasLastSafePosition := true } hb
    · exact ⟨sameConfig_refl _, hP0, Or.inr rfl⟩
  · exact rest b hb

theorem updateBuoyancy_frame (F : FloatOps α) (b : Boat α)
    (waterSurface : Option (WaterSurface α)) (currentTime : α) :
    b.SameConfig (b.updateBuoyancy F waterSurface currentTime)
    ∧ (b.updateBuoyancy F waterSurface currentTime).speed = b.speed
    ∧ (b.updateBuoyancy F waterSurface currentTime).angularVelocity = b.angularVelocity
    ∧ (b.updateBuoyancy F waterSurface currentTime).position.x = b.position.x
    ∧ (b.updateBuoyancy F waterSurface currentTime).position.z = b.position.z
    ∧ (b.updateBuoyancy F waterSurface currentTime).lastSafePosition = b.lastSafePosition
    ∧ (b.updateBuoyancy F waterSurface currentTime).hasLastSafePosition
        = b.hasLastSafePosition := by
  cases waterSurface with
  | none => exact ⟨sameConfig_refl _, rfl, rfl, rfl, rfl, rfl, rfl⟩
  | some ws => exact ⟨sameConfig_refl _, rfl, rfl, rfl, rfl, rfl, rfl⟩

theorem update_eq (F : FloatOps α) (glfwTime : α) (b : Boat α) (deltaTime : α)
    (waterSurface : Option (WaterSurface α)) (currentTime : α) :
    b.update F glfwTime deltaTime waterSurface currentTime =
      ((b.updateMotion F glfwTime deltaTime).handleCollisions F b.position).updateBuoyancy F
        waterSurface currentTime := by
  cases waterSurface <;> rfl

/-! ### Throttle -/

theorem updateMotion_speed_forward (F : FloatOps α) (glfwTime : α) (b : Boat α) (dt : α)
    (hf : b.forwardInput = 1) :
    (b.updateMotion F glfwTime dt).speed =
      b.speed + (10 - b.speed) * (1 - F.exp (-4 * dt))
        * (if 0 < (10 - b.speed) * (1 - F.exp (-4 * dt)) then 3 else 25 / 10) * dt := by
  have h1 : |(1 : α)| > 1 / 100 := by rw [abs_one]; norm_num
  simp only [Boat.updateMotion, hf, MAX_SPEED, THROTTLE_SMOOTH, ACCELERATION, DECELERATION,
    one_mul, if_pos h1, gt_iff_lt, lt_add_iff_pos_right, add_sub_cancel_left]

theorem updateMotion_speed_range (F : FloatOps α) (glfwTime : α) (b : Boat α) (dt : α)
    (hf : b.forwardInput = 1) (he0 : 0 < F.exp (-4 * dt)) (he1 : F.exp (-4 * dt) ≤ 1)
    (hdt0 : 0 ≤ dt) (hdt1 : dt ≤ 1 / 3) (hs1 : b.speed ≤ 10) :
    b.speed ≤ (b.updateMotion F glfwTime dt).speed
    ∧ (b.updateMotion F glfwTime dt).speed ≤ 10 := by
  rw [updateMotion_speed_forward F glfwTime b dt hf]
  generalize F.exp (-4 * dt) = e at he0 he1
  have hg : 0 ≤ 10 - b.speed := by linarith
  have hl0 : 0 ≤ 1 - e := by linarith
  have hl1 : 1 - e ≤ 1 := by linarith
  have hp : 0 ≤ (10 - b.speed) * (1 - e) := mul_nonneg hg hl0
  split_ifs with h
  · have hk : (1 - e) * (3 * dt) ≤ 1 := by nlinarith
    have hk0 : 0 ≤ (1 - e) * (3 * dt) := by positivity
    constructor
    · nlinarith
    · nlinarith
  · have hz : (10 - b.speed) * (1 - e) = 0 := le_antisymm (not_lt.mp h) hp
    rw [hz]
    constructor <;> linarith

theorem updateMotion_inputs (F : FloatOps α) (glfwTime : α) (b : Boat α) (dt : α) :
    (b.updateMotion F glfwTime dt).forwardInput = b.forwardInput
    ∧ (b.updateMotion F glfwTime dt).turnInput = b.turnInput
    ∧ (b.updateMotion F glfwTime dt).collisionPredicate = b.collisionPredicate
    ∧ (b.updateMotion F glfwTime dt).hasBounds = b.hasBounds
    ∧ (b.updateMotion F glfwTime dt).obstacles = b.obstacles
    ∧ (b.updateMotion F glfwTime dt).lastSafePosition = b.lastSafePosition
    ∧ (b.updateMotion F glfwTime dt).hasLastSafePosition = b.hasLastSafePosition :=
  ⟨rfl, rfl, rfl, rfl, rfl, rfl, rfl⟩

/-- One `update` at full-forward input with `0 <= dt <= 1/3` keeps the speed in
`[0, 10]`. -/
theorem update_speed_range (F : FloatOps α)
    (hexp : ∀ x : α, x ≤ 0 → 0 < F.exp x ∧ F.exp x ≤ 1) (glfwTime : α) (b : Boat α) (dt : α)
    (waterSurface : Option (WaterSurface α)) (currentTime : α)
    (hf : b.forwardInput = 1) (hdt0 : 0 ≤ dt) (hdt1 : dt ≤ 1 / 3)
    (hs0 : 0 ≤ b.speed) (hs1 : b.speed ≤ 10) :
    (b.update F glfwTime dt waterSurface currentTime).forwardInput = 1
    ∧ 0 ≤ (b.update F glfwTime dt waterSurface currentTime).speed
    ∧ (b.update F glfwTime dt waterSurface currentTime).speed ≤ 10 := by
  obtain ⟨he0, he1⟩ := hexp (-4 * dt) (by linarith)
  obtain ⟨m1, m2⟩ := updateMotion_speed_range F glfwTime b dt hf he0 he1 hdt0 hdt1 hs1
  obtain ⟨c1, c2, -⟩ := handleCollisions_frame F (fun s => 0 ≤ s ∧ s ≤ 10)
    ⟨le_refl _, by norm_num⟩ (fun s hs => ⟨by linarith [hs.1], by linarith [hs.1, hs.2]⟩)
    (b.updateMotion F glfwTime dt) b.position ⟨le_trans hs0 m1, m2⟩
  obtain ⟨u1, u2, -⟩ := updateBuoyancy_frame F
    ((b.updateMotion F glfwTime dt).handleCollisions F b.position) waterSurface currentTime
  rw [update_eq, u2, u1.2.1, c1.2.1]
  exact ⟨hf, c2.1, c2.2⟩

/-- C3 (counterexample): from rest at full-forward input, one `update` with
`deltaTime = 1` second gives a speed above `MAX_SPEED = 10` (it is `30 (1 - exp(-4))`). -/
theorem speed_bound_counterexample :
    (10 : ℝ) < |((((Boat.new ⟨0, 0, 0⟩ 0 : Boat ℝ).processInput 1 0).runOps
      (FloatOps.mk Real.exp Real.sin Real.cos Real.sqrt (fun y x => Complex.arg ⟨x, y⟩) Real.pi)
      [DriveOp.update 0 1 none 0]).speed)| := by
  have he : Real.exp (-4 * 1) ≤ 1 / 5 := by
    have h4 : (5 : ℝ) ≤ Real.exp 4 := by
      have := Real.add_one_le_exp (4 : ℝ)
      linarith
    have hpos := Real.exp_pos (4 : ℝ)
    have hneg : Real.exp (-4 * 1) = (Real.exp 4)⁻¹ := by
      rw [show (-4 * 1 : ℝ) = -4 by norm_num, Real.exp_neg]
    rw [hneg, inv_le_comm₀ hpos (by norm_num)]
    simpa using h4
  have hpos := Real.exp_pos (-4 * 1 : ℝ)
  have hsp : (((Boat.new ⟨0, 0, 0⟩ 0 : Boat ℝ).processInput 1 0).runOps
      (FloatOps.mk Real.exp Real.sin Real.cos Real.sqrt (fun y x => Complex.arg ⟨x, y⟩) Real.pi)
      [DriveOp.update 0 1 none 0]).speed = 30 * (1 - Real.exp (-4 * 1)) := by
    have hfree : ∀ c : Boat ℝ, c.collisionPredicate = none → c.hasBounds = false →
        c.obstacles = [] → ∀ F prev, c.handleCollisions F prev = c := by
      intro c h1 h2 h3 F prev
      simp [Boat.handleCollisions, Boat.revalidate, Boat.obstacleStage, Boat.boundsStage,
        h1, h2, h3]
    simp only [Boat.runOps, List.foldl_cons, List.foldl_nil, Boat.applyOp, Boat.update]
    rw [hfree _ rfl rfl rfl]
    rw [updateMotion_speed_forward _ _ _ _ (by simp [Boat.processInput, Boat.new])]
    have h0 : ((Boat.new ⟨0, 0, 0⟩ 0 : Boat ℝ).processInput 1 0).speed = 0 := rfl
    rw [h0]
    have hp : (0 : ℝ) < (10 - 0) * (1 - Real.exp (-4 * 1)) := by
      generalize Real.exp (-4 * 1) = e at he hpos
      linarith
    rw [if_pos hp]
    ring
  rw [hsp]
  generalize Real.exp (-4 * 1) = e at he hpos
  rw [abs_of_pos (by linarith)]
  linarith

/-- C3 (amended): starting from rest with forwardInput held at 1, after any number of
`update` ticks (interleaved with any `processInput(forward >= 1, turn)` calls), whatever
the tick durations in `[0, 1/3]` seconds, `|speed|` never exceeds `MAX_SPEED = 10`. -/
theorem speed_bounded_full_forward (F : FloatOps α)
    (hexp : ∀ x : α, x ≤ 0 → 0 < F.exp x ∧ F.exp x ≤ 1) (b : Boat α)
    (hf : b.forwardInput = 1) (hs : b.speed = 0) (ops : List (DriveOp α))
    (hops : ∀ op ∈ ops, fullThrottleOp (1 / 3) op) :
    |(b.runOps F ops).speed| ≤ MAX_SPEED := by
  have inv : ∀ (ops : List (DriveOp α)) (c : Boat α), c.forwardInput = 1 → 0 ≤ c.speed →
      c.speed ≤ 10 → (∀ op ∈ ops, fullThrottleOp (1 / 3) op) →
      0 ≤ (c.runOps F ops).speed ∧ (c.runOps F ops).speed ≤ 10 := by
    intro ops
    induction ops with
    | nil => intro c _ h0 h1 _; exact ⟨h0, h1⟩
    | cons op ops ih =>
      intro c hcf h0 h1 hall
      have hop := hall op (List.mem_cons_self _ _)
      have hrest : ∀ op' ∈ ops, fullThrottleOp (1 / 3) op' :=
        fun op' h => hall op' (List.mem_cons_of_mem _ h)
      simp only [Boat.runOps, List.foldl_cons]
      cases op with
      | processInput forward turn =>
        have hfwd : 1 ≤ forward := hop
        have hin : (c.processInput forward turn).forwardInput = 1 := by
          simp only [Boat.processInput]
          rw [min_eq_right hfwd, max_eq_right (by norm_num)]
        exact ih (c.processInput forward turn) hin h0 h1 hrest
      | update glfwTime dt waterSurface currentTime =>
        obtain ⟨hd0, hd1⟩ : 0 ≤ dt ∧ dt ≤ 1 / 3 := hop
        obtain ⟨u1, u2, u3⟩ := update_speed_range F hexp glfwTime c dt waterSurface
          currentTime hcf hd0 hd1 h0 h1
        exact ih _ u1 u2 u3 hrest
  obtain ⟨i0, i1⟩ := inv ops b hf (by rw [hs]) (by rw [hs]; norm_num) hops
  rw [abs_of_nonneg i0]
  exact i1

theorem speed_bounded_full_forward_witness :
    |((((Boat.new ⟨0, 0, 0⟩ 0 : Boat ℝ).processInput 1 0).runOps
      (FloatOps.mk Real.exp Real.sin Real.cos Real.sqrt (fun y x => Complex.arg ⟨x, y⟩) Real.pi)
      [DriveOp.update 0 (1 / 60) none 0, DriveOp.processInput 1 1,
        DriveOp.update 0 (1 / 3) none 0]).speed)| ≤ MAX_SPEED :=
  speed_bounded_full_forward
    (FloatOps.mk Real.exp Real.sin Real.cos Real.sqrt (fun y x => Complex.arg ⟨x, y⟩) Real.pi)
    (fun x hx => ⟨Real.exp_pos x, Real.exp_le_one_iff.mpr hx⟩)
    ((Boat.new ⟨0, 0, 0⟩ 0).processInput 1 0)
    (by simp [Boat.processInput, Boat.new]) rfl _
    (by
      intro op hop
      simp only [List.mem_cons, List.mem_singleton, List.not_mem_nil, or_false] at hop
      rcases hop with rfl | rfl | rfl
      · exact ⟨by norm_num, by norm_num⟩
      · exact le_refl (1 : ℝ)
      · exact ⟨by norm_num, le_refl _⟩)

/-! ### Throttle scenario -/

theorem handleCollisions_open_water (F : FloatOps α) (c : Boat α) (prev : Vec3 α)
    (hp : c.collisionPredicate = some (fun _ _ => true)) (hb : c.hasBounds = false)
    (ho : c.obstacles = []) :
    c.handleCollisions F prev =
      { c with lastSafePosition := c.position, hasLastSafePosition := true } := by
  simp [Boat.handleCollisions, Boat.revalidate, Boat.obstacleStage, Boat.boundsStage,
    probesSafe, checkPoints, hp, hb, ho]

/-- Closed form of the speed along ticks of `1/60` s at full-forward input in open water:
the gap to 10 is multiplied by `1 - (1 - e) * 3 * (1/60)` at every tick, `e = exp(-4/60)`. -/
theorem throttle_runOps_speed (F : FloatOps α) (he0 : 0 < F.exp (-4 * (1 / 60)))
    (he1 : F.exp (-4 * (1 / 60)) < 1) (ops : List (DriveOp α))
    (hops : ∀ op ∈ ops, isUpdateWithDt (1 / 60) op) (c : Boat α)
    (hf : c.forwardInput = 1) (hp : c.collisionPredicate = some (fun _ _ => true))
    (hb : c.hasBounds = false) (ho : c.obstacles = []) (hs : c.speed < 10) :
    10 - (c.runOps F ops).speed
      = (10 - c.speed) * (1 - (1 - F.exp (-4 * (1 / 60))) * 3 * (1 / 60)) ^ ops.length := by
  induction ops generalizing c with
  | nil => simp [Boat.runOps]
  | cons op ops ih =>
    have hop := hops op (List.mem_cons_self _ _)
    have hrest : ∀ op' ∈ ops, isUpdateWithDt (1 / 60) op' :=
      fun op' h => hops op' (List.mem_cons_of_mem _ h)
    cases op with
    | processInput forward turn => exact absurd hop id
    | update glfwTime dt waterSurface currentTime =>
      have hdt : dt = 1 / 60 := hop
      subst hdt
      simp only [Boat.runOps, List.foldl_cons, Boat.applyOp, List.length_cons]
      have hm := updateMotion_speed_forward F glfwTime c (1 / 60) hf
      have hg : 0 < (10 - c.speed) * (1 - F.exp (-4 * (1 / 60))) :=
        mul_pos (by linarith) (by linarith)
      rw [if_pos hg] at hm
      have hu : (c.update F glfwTime (1 / 60) waterSurface currentTime).speed
          = (c.updateMotion F glfwTime (1 / 60)).speed := by
        rw [update_eq, (updateBuoyancy_frame F _ waterSurface currentTime).2.1,
          handleCollisions_open_water F (c.updateMotion F glfwTime (1 / 60)) c.position
            hp hb ho]
      obtain ⟨u1, -, -⟩ := updateBuoyancy_frame F
        ((c.updateMotion F glfwTime (1 / 60)).handleCollisions F c.position)
        waterSurface currentTime
      obtain ⟨k1, -, -⟩ := handleCollisions_frame F (fun _ => True) trivial (fun _ _ => trivial)
        (c.updateMotion F glfwTime (1 / 60)) c.position trivial
      have hcfg := sameConfig_trans k1 u1
      rw [← update_eq] at hcfg
      have hgap : 10 - (c.update F glfwTime (1 / 60) waterSurface currentTime).speed
          = (10 - c.speed) * (1 - (1 - F.exp (-4 * (1 / 60))) * 3 * (1 / 60)) := by
        rw [hu, hm]; ring
      have hlt : (c.update F glfwTime (1 / 60) waterSurface currentTime).speed < 10 := by
        have : 0 < (10 - c.speed) * (1 - (1 - F.exp (-4 * (1 / 60))) * 3 * (1 / 60)) :=
          mul_pos (by linarith) (by linarith)
        linarith
      have := ih hrest (c.update F glfwTime (1 / 60) waterSurface currentTime)
        (hcfg.2.1.trans hf) (hcfg.2.2.2.2.2.2.2.2.2.trans hp) (hcfg.2.2.2.1.trans hb)
        (hcfg.2.2.2.2.2.2.2.2.1.trans ho) hlt
      simp only [Boat.runOps] at this
      rw [this, hgap, pow_succ]
      ring

theorem exp_tick_bounds :
    (421 / 450 - 2 / 30375 : ℝ) ≤ Real.exp (-4 * (1 / 60))
    ∧ Real.exp (-4 * (1 / 60)) ≤ 421 / 450 + 2 / 30375 := by
  have hx : |(-4 * (1 / 60) : ℝ)| ≤ 1 := by rw [abs_le]; constructor <;> norm_num
  have h := Real.exp_bound hx (n := 3) (by norm_num)
  have habs : |(-4 * (1 / 60) : ℝ)| = 1 / 15 := by
    rw [abs_of_nonpos (by norm_num)]; norm_num
  rw [habs] at h
  simp only [Finset.sum_range_succ, Finset.sum_range_zero, Nat.factorial] at h
  norm_num at h
  rw [abs_le] at h
  constructor <;> linarith [h.1, h.2]

theorem throttle_pow_bounds (r : ℝ) (h1 : (1211081 / 1215000 : ℝ) ≤ r)
    (h2 : r ≤ 1211089 / 1215000) :
    (619 / 100 : ℝ) < 10 * (1 - r ^ 300) ∧ 10 * (1 - r ^ 300) < 621 / 100 := by
  have hr0 : (0 : ℝ) ≤ r := le_trans (by norm_num) h1
  have a1 : (1211081 / 1215000 : ℝ) ^ 300 ≤ r ^ 300 := pow_le_pow_left₀ (by norm_num) h1 300
  have a2 : r ^ 300 ≤ (1211089 / 1215000 : ℝ) ^ 300 := pow_le_pow_left₀ hr0 h2 300
  have b1 : (379 / 1000 : ℝ) < (1211081 / 1215000 : ℝ) ^ 300 := by norm_num
  have b2 : (1211089 / 1215000 : ℝ) ^ 300 < 381 / 1000 := by norm_num
  constructor <;> linarith

theorem throttle_scenario_closed_form (ops : List (DriveOp ℝ))
    (hops : ∀ op ∈ ops, isUpdateWithDt (1 / 60) op) :
    ((throttleScenario : Boat ℝ).runOps
      (FloatOps.mk Real.exp Real.sin Real.cos Real.sqrt (fun y x => Complex.arg ⟨x, y⟩) Real.pi)
      ops).speed
      = 10 * (1 - (1 - (1 - Real.exp (-4 * (1 / 60))) * 3 * (1 / 60)) ^ ops.length) := by
  have h := throttle_runOps_speed
    (FloatOps.mk Real.exp Real.sin Real.cos Real.sqrt (fun y x => Complex.arg ⟨x, y⟩) Real.pi)
    (Real.exp_pos _) (Real.exp_lt_one_iff.mpr (by norm_num)) ops hops throttleScenario
    (by simp [throttleScenario, Boat.processInput]) rfl rfl rfl
    (by simp [throttleScenario, Boat.processInput, Boat.setCollisionPredicate, Boat.new])
  have h0 : (throttleScenario : Boat ℝ).speed = 0 := rfl
  rw [h0] at h
  linarith

/-- C4 (counterexample): after 300 `update` ticks of `1/60` s in the throttle scenario the
speed is not within 1% of `10 * (1 - exp(-4 * 5))`: it is below `6.21`. -/
theorem throttle_scenario_counterexample :
    ¬ |((throttleScenario : Boat ℝ).runOps
        (FloatOps.mk Real.exp Real.sin Real.cos Real.sqrt (fun y x => Complex.arg ⟨x, y⟩)
          Real.pi)
        (List.replicate 300 (DriveOp.update 0 (1 / 60) none 0))).speed
        - 10 * (1 - Real.exp (-4 * 5))|
      ≤ 1 / 100 * (10 * (1 - Real.exp (-4 * 5))) := by
  have hops : ∀ op ∈ List.replicate 300 (DriveOp.update (0 : ℝ) (1 / 60) none 0),
      isUpdateWithDt (1 / 60) op := by
    intro op hop
    rw [List.eq_of_mem_replicate hop]
    exact rfl
  rw [throttle_scenario_closed_form _ hops, List.length_replicate]
  obtain ⟨e1, e2⟩ := exp_tick_bounds
  obtain ⟨-, p2⟩ := throttle_pow_bounds (1 - (1 - Real.exp (-4 * (1 / 60))) * 3 * (1 / 60))
    (by linarith) (by linarith)
  have h20 : Real.exp (-4 * 5) ≤ 1 / 21 := by
    have h1 : (21 : ℝ) ≤ Real.exp 20 := by
      have := Real.add_one_le_exp (20 : ℝ)
      linarith
    have hpos := Real.exp_pos (20 : ℝ)
    rw [show (-4 * 5 : ℝ) = -20 by norm_num, Real.exp_neg, inv_le_comm₀ hpos (by norm_num)]
    simpa using h1
  have hpos := Real.exp_pos (-4 * 5 : ℝ)
  generalize Real.exp (-4 * 5) = c at h20 hpos
  generalize 10 * (1 - (1 - (1 - Real.exp (-4 * (1 / 60))) * 3 * (1 / 60)) ^ 300) = v at p2
  intro h
  rw [abs_le] at h
  linarith [h.1]

/-- C4 (amended): in the throttle scenario (boat at origin, heading 0, speed 0, forward 1,
turn 0, predicate always true, no obstacles, no bounds), after 300 `update` ticks with
`dt = 1/60` the speed is `10 * (1 - (1 - 3 * dt * (1 - exp(-4 * dt))) ^ 300)`, which lies
between `6.19` and `6.21`. -/
theorem throttle_scenario_speed (ops : List (DriveOp ℝ)) (hlen : ops.length = 300)
    (hops : ∀ op ∈ ops, isUpdateWithDt (1 / 60) op) :
    ((throttleScenario : Boat ℝ).runOps
      (FloatOps.mk Real.exp Real.sin Real.cos Real.sqrt (fun y x => Complex.arg ⟨x, y⟩) Real.pi)
      ops).speed
      = 10 * (1 - (1 - 3 * (1 / 60) * (1 - Real.exp (-4 * (1 / 60)))) ^ 300)
    ∧ 619 / 100 < ((throttleScenario : Boat ℝ).runOps
      (FloatOps.mk Real.exp Real.sin Real.cos Real.sqrt (fun y x => Complex.arg ⟨x, y⟩) Real.pi)
      ops).speed
    ∧ ((throttleScenario : Boat ℝ).runOps
      (FloatOps.mk Real.exp Real.sin Real.cos Real.sqrt (fun y x => Complex.arg ⟨x, y⟩) Real.pi)
      ops).speed < 621 / 100 := by
  rw [throttle_scenario_closed_form ops hops, hlen]
  obtain ⟨e1, e2⟩ := exp_tick_bounds
  obtain ⟨p1, p2⟩ := throttle_pow_bounds (1 - (1 - Real.exp (-4 * (1 / 60))) * 3 * (1 / 60))
    (by linarith) (by linarith)
  refine ⟨?_, p1, p2⟩
  congr 3
  ring

theorem throttle_scenario_speed_witness :
    (619 / 100 : ℝ) < ((throttleScenario : Boat ℝ).runOps
      (FloatOps.mk Real.exp Real.sin Real.cos Real.sqrt (fun y x => Complex.arg ⟨x, y⟩) Real.pi)
      (List.replicate 300 (DriveOp.update 0 (1 / 60) none 0))).speed
    ∧ ((throttleScenario : Boat ℝ).runOps
      (FloatOps.mk Real.exp Real.sin Real.cos Real.sqrt (fun y x => Complex.arg ⟨x, y⟩) Real.pi)
      (List.replicate 300 (DriveOp.update 0 (1 / 60) none 0))).speed < 621 / 100 :=
  (throttle_scenario_speed (List.replicate 300 (DriveOp.update 0 (1 / 60) none 0))
    (List.length_replicate _ _)
    (fun op hop => by rw [List.eq_of_mem_replicate hop]; exact rfl)).2

/-! ### Heading -/

theorem updateMotion_turn (F : FloatOps α) (glfwTime : α) (b : Boat α) (dt : α) :
    (b.updateMotion F glfwTime dt).angularVelocity =
      (b.angularVelocity + (b.turnInput * 60
          * min (|(b.updateMotion F glfwTime dt).speed| / 10) 1 - b.angularVelocity) * 120 * dt)
        * F.exp (-4 * dt)
    ∧ (b.updateMotion F glfwTime dt).rotation =
      (if (if b.rotation + (b.updateMotion F glfwTime dt).angularVelocity * dt < 0
            then b.rotation + (b.updateMotion F glfwTime dt).angularVelocity * dt + 360
            else b.rotation + (b.updateMotion F glfwTime dt).angularVelocity * dt) ≥ 360
        then (if b.rotation + (b.updateMotion F glfwTime dt).angularVelocity * dt < 0
            then b.rotation + (b.updateMotion F glfwTime dt).angularVelocity * dt + 360
            else b.rotation + (b.updateMotion F glfwTime dt).angularVelocity * dt) - 360
        else (if b.rotation + (b.updateMotion F glfwTime dt).angularVelocity * dt < 0
            then b.rotation + (b.updateMotion F glfwTime dt).angularVelocity * dt + 360
            else b.rotation + (b.updateMotion F glfwTime dt).angularVelocity * dt)) :=
  ⟨rfl, rfl⟩

theorem wrap_range (r δ : α) (h0 : 0 ≤ r) (h1 : r < 360) (hδ0 : -360 ≤ δ) (hδ1 : δ ≤ 360) :
    0 ≤ (if (if r + δ < 0 then r + δ + 360 else r + δ) ≥ 360
          then (if r + δ < 0 then r + δ + 360 else r + δ) - 360
          else (if r + δ < 0 then r + δ + 360 else r + δ))
    ∧ (if (if r + δ < 0 then r + δ + 360 else r + δ) ≥ 360
          then (if r + δ < 0 then r + δ + 360 else r + δ) - 360
          else (if r + δ < 0 then r + δ + 360 else r + δ)) < 360 := by
  by_cases hneg : r + δ < 0
  · simp only [if_pos hneg]
    have hlt : ¬ (r + δ + 360 ≥ 360) := by
      intro h
      linarith
    rw [if_neg hlt]
    constructor <;> linarith
  · simp only [if_neg hneg]
    by_cases hbig : r + δ ≥ 360
    · rw [if_pos hbig]
      constructor <;> linarith
    · rw [if_neg hbig]
      exact ⟨not_lt.mp hneg, not_le.mp hbig⟩

theorem angVel_step_bound (av d dt e : α) (hav : |av| ≤ 1800) (hd : |d| ≤ 60)
    (hdt0 : 0 ≤ dt) (hdt1 : dt ≤ 1 / 60) (he0 : 0 < e) (he1 : e * (1 + 4 * dt) ≤ 1) :
    |(av + (d - av) * 120 * dt) * e| ≤ 1800 := by
  have hP : |1 - 120 * dt| ≤ 1 := by
    rw [abs_le]
    constructor <;> linarith
  have h1 : |av * (1 - 120 * dt)| ≤ 1800 := by
    rw [abs_mul]
    calc |av| * |1 - 120 * dt| ≤ 1800 * 1 :=
          mul_le_mul hav hP (abs_nonneg _) (by norm_num)
      _ = 1800 := by norm_num
  have h2 : |120 * dt * d| ≤ 7200 * dt := by
    rw [abs_mul, abs_of_nonneg (by positivity : (0 : α) ≤ 120 * dt)]
    nlinarith [abs_nonneg d]
  have h3 : |av + (d - av) * 120 * dt| ≤ 1800 * (1 + 4 * dt) := by
    have e1 : av + (d - av) * 120 * dt = av * (1 - 120 * dt) + 120 * dt * d := by ring
    rw [e1]
    calc |av * (1 - 120 * dt) + 120 * dt * d|
        ≤ |av * (1 - 120 * dt)| + |120 * dt * d| := abs_add _ _
      _ ≤ 1800 + 7200 * dt := add_le_add h1 h2
      _ = 1800 * (1 + 4 * dt) := by ring
  rw [abs_mul, abs_of_pos he0]
  calc |av + (d - av) * 120 * dt| * e ≤ 1800 * (1 + 4 * dt) * e :=
        mul_le_mul_of_nonneg_right h3 he0.le
    _ = 1800 * (e * (1 + 4 * dt)) := by ring
    _ ≤ 1800 * 1 := mul_le_mul_of_nonneg_left he1 (by norm_num)
    _ = 1800 := by norm_num

/-- One `update` with `0 <= dt <= 1/60` keeps the heading in `[0, 360)`, the angular
velocity within `1800` deg/s and the stored turn input as it was. -/
theorem update_heading_range (F : FloatOps α)
    (hexp : ∀ x : α, x ≤ 0 → 0 < F.exp x ∧ F.exp x * (1 - x) ≤ 1) (glfwTime : α) (b : Boat α)
    (dt : α) (waterSurface : Option (WaterSurface α)) (currentTime : α)
    (hdt0 : 0 ≤ dt) (hdt1 : dt ≤ 1 / 60) (hr0 : 0 ≤ b.rotation) (hr1 : b.rotation < 360)
    (hav : |b.angularVelocity| ≤ 1800) (ht : |b.turnInput| ≤ 1) :
    0 ≤ (b.update F glfwTime dt waterSurface currentTime).rotation
    ∧ (b.update F glfwTime dt waterSurface currentTime).rotation < 360
    ∧ |(b.update F glfwTime dt waterSurface currentTime).angularVelocity| ≤ 1800
    ∧ (b.update F glfwTime dt waterSurface currentTime).turnInput = b.turnInput := by
  obtain ⟨he0, he1⟩ := hexp (-4 * dt) (by linarith)
  have he1' : F.exp (-4 * dt) * (1 + 4 * dt) ≤ 1 := by
    have : (1 : α) - -4 * dt = 1 + 4 * dt := by ring
    rw [this] at he1
    exact he1
  obtain ⟨ma, mr⟩ := updateMotion_turn F glfwTime b dt
  have hsf0 : (0 : α) ≤ min (|(b.updateMotion F glfwTime dt).speed| / 10) 1 :=
    le_min (div_nonneg (abs_nonneg _) (by norm_num)) (by norm_num)
  have hsf1 : min (|(b.updateMotion F glfwTime dt).speed| / 10) 1 ≤ 1 := min_le_right _ _
  have hd : |b.turnInput * 60 * min (|(b.updateMotion F glfwTime dt).speed| / 10) 1| ≤ 60 := by
    rw [abs_mul, abs_mul, abs_of_nonneg hsf0, abs_of_pos (by norm_num : (0 : α) < 60)]
    calc |b.turnInput| * 60 * min (|(b.updateMotion F glfwTime dt).speed| / 10) 1
        ≤ 1 * 60 * 1 := by
          apply mul_le_mul _ hsf1 hsf0 (by norm_num)
          exact mul_le_mul_of_nonneg_right ht (by norm_num)
      _ = 60 := by norm_num
  have hav1 : |(b.updateMotion F glfwTime dt).angularVelocity| ≤ 1800 := by
    rw [ma]
    exact angVel_step_bound _ _ dt _ hav hd hdt0 hdt1 he0 he1'
  have hδ : |(b.updateMotion F glfwTime dt).angularVelocity * dt| ≤ 360 := by
    rw [abs_mul, abs_of_nonneg hdt0]
    calc |(b.updateMotion F glfwTime dt).angularVelocity| * dt ≤ 1800 * (1 / 60) :=
          mul_le_mul hav1 hdt1 hdt0 (by norm_num)
      _ ≤ 360 := by norm_num
  rw [abs_le] at hδ
  have hrot := wrap_range b.rotation ((b.updateMotion F glfwTime dt).angularVelocity * dt)
    hr0 hr1 hδ.1 hδ.2
  rw [← mr] at hrot
  obtain ⟨c1, -, c3⟩ := handleCollisions_frame F (fun _ => True) trivial (fun _ _ => trivial)
    (b.updateMotion F glfwTime dt) b.position trivial
  obtain ⟨u1, -, u3, -⟩ := updateBuoyancy_frame F
    ((b.updateMotion F glfwTime dt).handleCollisions F b.position) waterSurface currentTime
  rw [update_eq, u1.1, c1.1, u3, u1.2.2.1, c1.2.2.1]
  refine ⟨hrot.1, hrot.2, ?_, rfl⟩
  rcases c3 with h | h
  · rw [h]; exact hav1
  · rw [h, abs_zero]; norm_num

theorem handleCollisions_free (F : FloatOps α) (c : Boat α) (prev : Vec3 α)
    (hp : c.collisionPredicate = none) (hb : c.hasBounds = false) (ho : c.obstacles = []) :
    c.handleCollisions F prev = c := by
  simp [Boat.handleCollisions, Boat.revalidate, Boat.obstacleStage, Boat.boundsStage,
    hp, hb, ho]

theorem update_free (F : FloatOps α) (glfwTime : α) (b : Boat α) (dt currentTime : α)
    (hp : b.collisionPredicate = none) (hb : b.hasBounds = false) (ho : b.obstacles = []) :
    b.update F glfwTime dt none currentTime = b.updateMotion F glfwTime dt := by
  rw [update_eq]
  exact handleCollisions_free F (b.updateMotion F glfwTime dt) b.position hp hb ho

theorem wrap_below (x : α) (h : x + 360 < 0) :
    (if (if x < 0 then x + 360 else x) ≥ 360 then (if x < 0 then x + 360 else x) - 360
      else (if x < 0 then x + 360 else x)) = x + 360 := by
  have hx : x < 0 := by linarith
  simp only [if_pos hx]
  rw [if_neg]
  intro h360
  linarith

/-- Two `updateMotion` steps of half a second from rest at full forward and full turn
input: the explicit turn integration overshoots, and the resulting heading is negative
(only one wrap by 360 is applied). -/
theorem two_long_ticks_rotation (F : FloatOps α) (g1 g2 : α) (b : Boat α)
    (he0 : 13 / 100 ≤ F.exp (-4 * (1 / 2))) (he1 : F.exp (-4 * (1 / 2)) ≤ 14 / 100)
    (hs : b.speed = 0) (ha : b.angularVelocity = 0) (hr : b.rotation = 0)
    (hf : b.forwardInput = 1) (ht : b.turnInput = 1) :
    ((b.updateMotion F g1 (1 / 2)).updateMotion F g2 (1 / 2)).rotation < 0 := by
  have hs1 : (b.updateMotion F g1 (1 / 2)).speed = 15 * (1 - F.exp (-4 * (1 / 2))) := by
    rw [updateMotion_speed_forward F g1 b (1 / 2) hf, hs, if_pos (by nlinarith)]
    ring
  obtain ⟨a1, r1⟩ := updateMotion_turn F g1 b (1 / 2)
  obtain ⟨a2, r2⟩ := updateMotion_turn F g2 (b.updateMotion F g1 (1 / 2)) (1 / 2)
  have ht1 : (b.updateMotion F g1 (1 / 2)).turnInput = 1 := ht
  have hsf1 : min (|(b.updateMotion F g1 (1 / 2)).speed| / 10) 1 = 1 := by
    apply min_eq_right
    rw [hs1, abs_of_nonneg (by linarith), le_div_iff₀ (by norm_num)]
    linarith
  rw [hsf1, ha, ht] at a1
  have a1' : (b.updateMotion F g1 (1 / 2)).angularVelocity = 3600 * F.exp (-4 * (1 / 2)) := by
    rw [a1]; ring
  have r1' : (b.updateMotion F g1 (1 / 2)).rotation = 1800 * F.exp (-4 * (1 / 2)) := by
    rw [r1, a1', hr]
    have n1 : ¬ (0 + 3600 * F.exp (-4 * (1 / 2)) * (1 / 2) < 0) := by
      intro h
      linarith
    rw [if_neg n1, if_neg]
    · ring
    · intro h
      linarith
  have hsf0 : (0 : α) ≤
      min (|((b.updateMotion F g1 (1 / 2)).updateMotion F g2 (1 / 2)).speed| / 10) 1 :=
    le_min (div_nonneg (abs_nonneg _) (by norm_num)) (by norm_num)
  have hsf2 : min (|((b.updateMotion F g1 (1 / 2)).updateMotion F g2 (1 / 2)).speed| / 10) 1
      ≤ 1 := min_le_right _ _
  rw [ht1, a1'] at a2
  have hX : 3600 * F.exp (-4 * (1 / 2)) + (1 * 60
      * min (|((b.updateMotion F g1 (1 / 2)).updateMotion F g2 (1 / 2)).speed| / 10) 1
      - 3600 * F.exp (-4 * (1 / 2))) * 120 * (1 / 2) ≤ -24012 := by
    linarith
  have hav2 : ((b.updateMotion F g1 (1 / 2)).updateMotion F g2 (1 / 2)).angularVelocity
      ≤ -3121 := by
    rw [a2]
    calc _ ≤ (-24012) * F.exp (-4 * (1 / 2)) :=
          mul_le_mul_of_nonneg_right hX (by linarith)
      _ ≤ -3121 := by linarith
  rw [r2, r1', wrap_below _ (by linarith)]
  linarith

theorem exp_half_tick_bounds :
    (13 / 100 : ℝ) ≤ Real.exp (-4 * (1 / 2)) ∧ Real.exp (-4 * (1 / 2)) ≤ 14 / 100 := by
  have h1 := Real.exp_one_gt_d9
  have h2 := Real.exp_one_lt_d9
  have e2 : Real.exp 2 = Real.exp 1 * Real.exp 1 := by
    rw [← Real.exp_add]
    norm_num
  have hlo : (738 / 100 : ℝ) ≤ Real.exp 2 := by
    rw [e2]
    nlinarith
  have hhi : Real.exp 2 ≤ 769 / 100 := by
    rw [e2]
    nlinarith
  have hneg : Real.exp (-4 * (1 / 2)) = (Real.exp 2)⁻¹ := by
    rw [show (-4 * (1 / 2) : ℝ) = -2 by norm_num, Real.exp_neg]
  have hpos := Real.exp_pos (2 : ℝ)
  rw [hneg]
  constructor
  · rw [le_inv_comm₀ (by norm_num) hpos]
    have hinv : ((13 : ℝ) / 100)⁻¹ = 100 / 13 := by norm_num
    rw [hinv]
    linarith
  · rw [inv_le_comm₀ hpos (by norm_num)]
    have hinv : ((14 : ℝ) / 100)⁻¹ = 100 / 14 := by norm_num
    rw [hinv]
    linarith

theorem mul_bounds_of_nonneg (x e xlo xhi elo ehi : α) (h0 : xlo ≤ x) (h1 : x ≤ xhi)
    (e0 : elo ≤ e) (e1 : e ≤ ehi) (hx : 0 ≤ xlo) (he : 0 ≤ elo) :
    xlo * elo ≤ x * e ∧ x * e ≤ xhi * ehi :=
  ⟨mul_le_mul h0 e0 he (le_trans hx h0),
    mul_le_mul h1 e1 (le_trans he e0) (le_trans hx (le_trans h0 h1))⟩

theorem mul_bounds_of_nonpos (x e xlo xhi elo ehi : α) (h0 : xlo ≤ x) (h1 : x ≤ xhi)
    (e0 : elo ≤ e) (e1 : e ≤ ehi) (hx : xhi ≤ 0) (he : 0 ≤ elo) :
    xlo * ehi ≤ x * e ∧ x * e ≤ xhi * elo := by
  have h := mul_bounds_of_nonneg (-x) e (-xhi) (-xlo) elo ehi (by linarith) (by linarith) e0 e1
    (by linarith) he
  constructor
  · nlinarith [h.2]
  · nlinarith [h.1]

/-- One `update` of `1/30` s in open water (no predicate, no bounds, no obstacles) at full
forward and full turn input, below top speed: the new speed, the new angular
velocity and the heading before the wrap, with `e = exp(-4/30)`. -/
theorem turning_tick (F : FloatOps α) (g : α) (ws : Option (WaterSurface α)) (t : α)
    (b : Boat α) (hf : b.forwardInput = 1) (ht : b.turnInput = 1)
    (hp : b.collisionPredicate = none) (hb : b.hasBounds = false) (ho : b.obstacles = [])
    (hs0 : 0 ≤ b.speed) (hs1 : b.speed < 10)
    (e : α) (hE : F.exp (-4 * (1 / 30)) = e) (he0 : 0 < e) (he1 : e < 1) :
    (b.update F g (1 / 30) ws t).forwardInput = 1
    ∧ (b.update F g (1 / 30) ws t).turnInput = 1
    ∧ (b.update F g (1 / 30) ws t).collisionPredicate = none
    ∧ (b.update F g (1 / 30) ws t).hasBounds = false
    ∧ (b.update F g (1 / 30) ws t).obstacles = []
    ∧ (b.update F g (1 / 30) ws t).speed
        = b.speed * (9 / 10) + 1 - e + b.speed * e * (1 / 10)
    ∧ (b.update F g (1 / 30) ws t).angularVelocity
        = (-3 * b.angularVelocity + 24 * (b.update F g (1 / 30) ws t).speed) * e
    ∧ (b.update F g (1 / 30) ws t).rotation
        = (if (if b.rotation + (b.update F g (1 / 30) ws t).angularVelocity * (1 / 30) < 0
              then b.rotation + (b.update F g (1 / 30) ws t).angularVelocity * (1 / 30) + 360
              else b.rotation + (b.update F g (1 / 30) ws t).angularVelocity * (1 / 30)) ≥ 360
          then (if b.rotation + (b.update F g (1 / 30) ws t).angularVelocity * (1 / 30) < 0
              then b.rotation + (b.update F g (1 / 30) ws t).angularVelocity * (1 / 30) + 360
              else b.rotation + (b.update F g (1 / 30) ws t).angularVelocity * (1 / 30)) - 360
          else (if b.rotation + (b.update F g (1 / 30) ws t).angularVelocity * (1 / 30) < 0
              then b.rotation + (b.update F g (1 / 30) ws t).angularVelocity * (1 / 30) + 360
              else b.rotation + (b.update F g (1 / 30) ws t).angularVelocity * (1 / 30))) := by
  subst hE
  have hu : b.update F g (1 / 30) ws t
      = (b.updateMotion F g (1 / 30)).updateBuoyancy F ws t := by
    rw [update_eq, handleCollisions_free F (b.updateMotion F g (1 / 30)) b.position hp hb ho]
  obtain ⟨u1, u2, u3, -⟩ := updateBuoyancy_frame F (b.updateMotion F g (1 / 30)) ws t
  rw [hu, u1.1, u1.2.1, u1.2.2.1, u1.2.2.2.1, u1.2.2.2.2.2.2.2.2.1, u1.2.2.2.2.2.2.2.2.2, u2,
    u3]
  have hsp : (b.updateMotion F g (1 / 30)).speed
      = b.speed * (9 / 10) + 1 - F.exp (-4 * (1 / 30))
        + b.speed * F.exp (-4 * (1 / 30)) * (1 / 10) := by
    rw [updateMotion_speed_forward F g b (1 / 30) hf, if_pos (by nlinarith)]
    ring
  obtain ⟨a1, r1⟩ := updateMotion_turn F g b (1 / 30)
  have hsp0 : 0 ≤ (b.updateMotion F g (1 / 30)).speed := by
    rw [hsp]
    nlinarith
  have hsp1 : (b.updateMotion F g (1 / 30)).speed ≤ 10 := by
    rw [hsp]
    nlinarith
  have hsf : min (|(b.updateMotion F g (1 / 30)).speed| / 10) 1
      = (b.updateMotion F g (1 / 30)).speed / 10 := by
    rw [abs_of_nonneg hsp0]
    apply min_eq_left
    rw [div_le_iff₀ (by norm_num)]
    linarith
  refine ⟨hf, ht, hp, hb, ho, hsp, ?_, r1⟩
  rw [a1, hsf, ht]
  ring

theorem wrap_none (x : α) (h0 : 0 ≤ x) (h1 : x < 360) :
    (if (if x < 0 then x + 360 else x) ≥ 360 then (if x < 0 then x + 360 else x) - 360
      else (if x < 0 then x + 360 else x)) = x := by
  rw [if_neg (not_lt.mpr h0), if_neg (not_le.mpr h1)]

theorem wrap_above (x : α) (h : 360 ≤ x) :
    (if (if x < 0 then x + 360 else x) ≥ 360 then (if x < 0 then x + 360 else x) - 360
      else (if x < 0 then x + 360 else x)) = x - 360 := by
  have hx : ¬ x < 0 := by
    intro h0
    linarith
  rw [if_neg hx, if_pos h]

theorem wrap_up (x : α) (h0 : x < 0) (h1 : x + 360 < 360) :
    (if (if x < 0 then x + 360 else x) ≥ 360 then (if x < 0 then x + 360 else x) - 360
      else (if x < 0 then x + 360 else x)) = x + 360 := by
  rw [if_pos h0, if_neg (not_le.mpr h1)]

theorem turning_speed_bounds (e s s1 slo shi elo ehi : α) (he0 : elo ≤ e) (he1 : e ≤ ehi)
    (helo : 0 ≤ elo) (hs0 : slo ≤ s) (hs1 : s ≤ shi) (hslo : 0 ≤ slo)
    (es : s1 = s * (9 / 10) + 1 - e + s * e * (1 / 10)) :
    slo * (9 / 10) + 1 - ehi + slo * elo * (1 / 10) ≤ s1
    ∧ s1 ≤ shi * (9 / 10) + 1 - elo + shi * ehi * (1 / 10) := by
  obtain ⟨m0, m1⟩ := mul_bounds_of_nonneg s e slo shi elo ehi hs0 hs1 he0 he1 hslo helo
  rw [es]
  constructor <;> linarith

theorem turning_rate_bounds_pos (e av s1 av1 alo ahi slo shi elo ehi : α) (he0 : elo ≤ e)
    (he1 : e ≤ ehi) (helo : 0 ≤ elo) (ha0 : alo ≤ av) (ha1 : av ≤ ahi) (hs0 : slo ≤ s1)
    (hs1 : s1 ≤ shi) (hx : 0 ≤ -3 * ahi + 24 * slo) (ea : av1 = (-3 * av + 24 * s1) * e) :
    (-3 * ahi + 24 * slo) * elo ≤ av1 ∧ av1 ≤ (-3 * alo + 24 * shi) * ehi := by
  rw [ea]
  exact mul_bounds_of_nonneg (-3 * av + 24 * s1) e _ _ elo ehi (by linarith) (by linarith)
    he0 he1 hx helo

theorem turning_rate_bounds_neg (e av s1 av1 alo ahi slo shi elo ehi : α) (he0 : elo ≤ e)
    (he1 : e ≤ ehi) (helo : 0 ≤ elo) (ha0 : alo ≤ av) (ha1 : av ≤ ahi) (hs0 : slo ≤ s1)
    (hs1 : s1 ≤ shi) (hx : -3 * alo + 24 * shi ≤ 0) (ea : av1 = (-3 * av + 24 * s1) * e) :
    (-3 * ahi + 24 * slo) * ehi ≤ av1 ∧ av1 ≤ (-3 * alo + 24 * shi) * elo := by
  rw [ea]
  exact mul_bounds_of_nonpos (-3 * av + 24 * s1) e _ _ elo ehi (by linarith) (by linarith)
    he0 he1 hx helo

/-- Bounds on speed, angular velocity and heading after the first four of the eleven
turning ticks of `1/30` s, from rest at heading 0. -/
theorem turning_ticks_first (F : FloatOps α) (g : α) (ws : Option (WaterSurface α))
    (t : α) (b : Boat α) (e : α) (hE : F.exp (-4 * (1 / 30)) = e)
    (he0 : (87517 / 100000 : α) ≤ e) (he1 : e ≤ (87519 / 100000 : α))
    (h : turningWithin b
      (0 : α) (0 : α)
      (0 : α) (0 : α)
      (0 : α) (0 : α)) :
    turningWithin (b.runOps F (List.replicate 4 (DriveOp.update g (1 / 30) ws t)))
      (489968 / 1000000 : α) (490051 / 1000000 : α)
      (-216438 / 10000 : α) (-216213 / 10000 : α)
      (3597151 / 10000 : α) (3597165 / 10000 : α) := by
  obtain ⟨⟨hf0, ht0, hp0, hb0, ho0⟩, ⟨hs0lo, hs0hi⟩, ⟨ha0lo, ha0hi⟩,
    ⟨hr0lo, hr0hi⟩⟩ := h
  have hepos : 0 < e := lt_of_lt_of_le (by norm_num) he0
  have helt : e < 1 := lt_of_le_of_lt he1 (by norm_num)
  unfold turningWithin
  simp only [List.replicate, Boat.runOps, List.foldl_cons, List.foldl_nil, Boat.applyOp]
  obtain ⟨hf1, ht1, hp1, hb1, ho1, es1, ea1, er1⟩ :=
    turning_tick F g ws t b hf0 ht0 hp0 hb0 ho0 (le_trans (by norm_num) hs0lo)
      (lt_of_le_of_lt hs0hi (by norm_num)) e hE hepos helt
  generalize b.update F g (1 / 30) ws t = c1 at *
  have hS1 := turning_speed_bounds e b.speed c1.speed
    (0 : α) (0 : α) (87517 / 100000 : α) (87519 / 100000 : α)
    he0 he1 (by norm_num) hs0lo hs0hi (by norm_num) es1
  have hs1lo : (12481 / 100000 : α) ≤ c1.speed := le_trans (by norm_num) hS1.1
  have hs1hi : c1.speed ≤ (12483 / 100000 : α) := le_trans hS1.2 (by norm_num)
  have hA1 := turning_rate_bounds_pos e b.angularVelocity c1.speed c1.angularVelocity
    (0 : α) (0 : α) (12481 / 100000 : α) (12483 / 100000 : α)
    (87517 / 100000 : α) (87519 / 100000 : α) he0 he1 (by norm_num)
    ha0lo ha0hi hs1lo hs1hi (by norm_num) ea1
  have ha1lo : (26215 / 10000 : α) ≤ c1.angularVelocity := le_trans (by norm_num) hA1.1
  have ha1hi : c1.angularVelocity ≤ (2622 / 1000 : α) := le_trans hA1.2 (by norm_num)
  have er1w : c1.rotation = b.rotation + c1.angularVelocity * (1 / 30) :=
    er1.trans (wrap_none (b.rotation + c1.angularVelocity * (1 / 30))
      (by linarith only [hr0lo, hr0hi, ha1lo, ha1hi])
      (by linarith only [hr0lo, hr0hi, ha1lo, ha1hi]))
  have hr1lo : (873 / 10000 : α) ≤ c1.rotation := by
    rw [er1w]
    linarith only [hr0lo, hr0hi, ha1lo, ha1hi]
  have hr1hi : c1.rotation ≤ (874 / 10000 : α) := by
    rw [er1w]
    linarith only [hr0lo, hr0hi, ha1lo, ha1hi]
  clear hS1 hA1 es1 ea1 er1 er1w
  clear hf0 ht0 hp0 hb0 ho0 hs0lo hs0hi ha0lo ha0hi hr0lo hr0hi
  obtain ⟨hf2, ht2, hp2, hb2, ho2, es2, ea2, er2⟩ :=
    turning_tick F g ws t c1 hf1 ht1 hp1 hb1 ho1 (le_trans (by norm_num) hs1lo)
      (lt_of_le_of_lt hs1hi (by norm_num)) e hE hepos helt
  generalize c1.update F g (1 / 30) ws t = c2 at *
  have hS2 := turning_speed_bounds e c1.speed c2.speed
    (12481 / 100000 : α) (12483 / 100000 : α) (87517 / 100000 : α) (87519 / 100000 : α)
    he0 he1 (by norm_num) hs1lo hs1hi (by norm_num) es2
  have hs2lo : (248061 / 1000000 : α) ≤ c2.speed := le_trans (by norm_num) hS2.1
  have hs2hi : c2.speed ≤ (248102 / 1000000 : α) := le_trans hS2.2 (by norm_num)
  have hA2 := turning_rate_bounds_neg e c1.angularVelocity c2.speed c2.angularVelocity
    (26215 / 10000 : α) (2622 / 1000 : α) (248061 / 1000000 : α) (248102 / 1000000 : α)
    (87517 / 100000 : α) (87519 / 100000 : α) he0 he1 (by norm_num)
    ha1lo ha1hi hs2lo hs2hi (by norm_num) ea2
  have ha2lo : (-16739 / 10000 : α) ≤ c2.angularVelocity := le_trans (by norm_num) hA2.1
  have ha2hi : c2.angularVelocity ≤ (-16716 / 10000 : α) := le_trans hA2.2 (by norm_num)
  have er2w : c2.rotation = c1.rotation + c2.angularVelocity * (1 / 30) :=
    er2.trans (wrap_none (c1.rotation + c2.angularVelocity * (1 / 30))
      (by linarith only [hr1lo, hr1hi, ha2lo, ha2hi])
      (by linarith only [hr1lo, hr1hi, ha2lo, ha2hi]))
  have hr2lo : (315 / 10000 : α) ≤ c2.rotation := by
    rw [er2w]
    linarith only [hr1lo, hr1hi, ha2lo, ha2hi]
  have hr2hi : c2.rotation ≤ (317 / 10000 : α) := by
    rw [er2w]
    linarith only [hr1lo, hr1hi, ha2lo, ha2hi]
  clear hS2 hA2 es2 ea2 er2 er2w
  clear hf1 ht1 hp1 hb1 ho1 hs1lo hs1hi ha1lo ha1hi hr1lo hr1hi
  obtain ⟨hf3, ht3, hp3, hb3, ho3, es3, ea3, er3⟩ :=
    turning_tick F g ws t c2 hf2 ht2 hp2 hb2 ho2 (le_trans (by norm_num) hs2lo)
      (lt_of_le_of_lt hs2hi (by norm_num)) e hE hepos helt
  generalize c2.update F g (1 / 30) ws t = c3 at *
  have hS3 := turning_speed_bounds e c2.speed c3.speed
    (248061 / 1000000 : α) (248102 / 1000000 : α) (87517 / 100000 : α) (87519 / 100000 : α)
    he0 he1 (by norm_num) hs2lo hs2hi (by norm_num) es3
  have hs3lo : (369774 / 1000000 : α) ≤ c3.speed := le_trans (by norm_num) hS3.1
  have hs3hi : c3.speed ≤ (369836 / 1000000 : α) := le_trans hS3.2 (by norm_num)
  have hA3 := turning_rate_bounds_pos e c2.angularVelocity c3.speed c3.angularVelocity
    (-16739 / 10000 : α) (-16716 / 10000 : α) (369774 / 1000000 : α) (369836 / 1000000 : α)
    (87517 / 100000 : α) (87519 / 100000 : α) he0 he1 (by norm_num)
    ha2lo ha2hi hs3lo hs3hi (by norm_num) ea3
  have ha3lo : (121555 / 10000 : α) ≤ c3.angularVelocity := le_trans (by norm_num) hA3.1
  have ha3hi : c3.angularVelocity ≤ (121632 / 10000 : α) := le_trans hA3.2 (by norm_num)
  have er3w : c3.rotation = c2.rotation + c3.angularVelocity * (1 / 30) :=
    er3.trans (wrap_none (c2.rotation + c3.angularVelocity * (1 / 30))
      (by linarith only [hr2lo, hr2hi, ha3lo, ha3hi])
      (by linarith only [hr2lo, hr2hi, ha3lo, ha3hi]))
  have hr3lo : (4366 / 10000 : α) ≤ c3.rotation := by
    rw [er3w]
    linarith only [hr2lo, hr2hi, ha3lo, ha3hi]
  have hr3hi : c3.rotation ≤ (4372 / 10000 : α) := by
    rw [er3w]
    linarith only [hr2lo, hr2hi, ha3lo, ha3hi]
  clear hS3 hA3 es3 ea3 er3 er3w
  clear hf2 ht2 hp2 hb2 ho2 hs2lo hs2hi ha2lo ha2hi hr2lo hr2hi
  obtain ⟨hf4, ht4, hp4, hb4, ho4, es4, ea4, er4⟩ :=
    turning_tick F g ws t c3 hf3 ht3 hp3 hb3 ho3 (le_trans (by norm_num) hs3lo)
      (lt_of_le_of_lt hs3hi (by norm_num)) e hE hepos helt
  generalize c3.update F g (1 / 30) ws t = c4 at *
  have hS4 := turning_speed_bounds e c3.speed c4.speed
    (369774 / 1000000 : α) (369836 / 1000000 : α) (87517 / 100000 : α) (87519 / 100000 : α)
    he0 he1 (by norm_num) hs3lo hs3hi (by norm_num) es4
  have hs4lo : (489968 / 1000000 : α) ≤ c4.speed := le_trans (by norm_num) hS4.1
  have hs4hi : c4.speed ≤ (490051 / 1000000 : α) := le_trans hS4.2 (by norm_num)
  have hA4 := turning_rate_bounds_neg e c3.angularVelocity c4.speed c4.angularVelocity
    (121555 / 10000 : α) (121632 / 10000 : α) (489968 / 1000000 : α) (490051 / 1000000 : α)
    (87517 / 100000 : α) (87519 / 100000 : α) he0 he1 (by norm_num)
    ha3lo ha3hi hs4lo hs4hi (by norm_num) ea4
  have ha4lo : (-216438 / 10000 : α) ≤ c4.angularVelocity := le_trans (by norm_num) hA4.1
  have ha4hi : c4.angularVelocity ≤ (-216213 / 10000 : α) := le_trans hA4.2 (by norm_num)
  have er4w : c4.rotation = c3.rotation + c4.angularVelocity * (1 / 30) + 360 :=
    er4.trans (wrap_up (c3.rotation + c4.angularVelocity * (1 / 30))
      (by linarith only [hr3lo, hr3hi, ha4lo, ha4hi])
      (by linarith only [hr3lo, hr3hi, ha4lo, ha4hi]))
  have hr4lo : (3597151 / 10000 : α) ≤ c4.rotation := by
    rw [er4w]
    linarith only [hr3lo, hr3hi, ha4lo, ha4hi]
  have hr4hi : c4.rotation ≤ (3597165 / 10000 : α) := by
    rw [er4w]
    linarith only [hr3lo, hr3hi, ha4lo, ha4hi]
  clear hS4 hA4 es4 ea4 er4 er4w
  clear hf3 ht3 hp3 hb3 ho3 hs3lo hs3hi ha3lo ha3hi hr3lo hr3hi
  exact ⟨⟨hf4, ht4, hp4, hb4, ho4⟩, ⟨hs4lo, hs4hi⟩, ⟨ha4lo, ha4hi⟩,
    ⟨hr4lo, hr4hi⟩⟩

/-- Bounds on speed, angular velocity and heading after ticks five to eight of the eleven
turning ticks of `1/30` s. -/
theorem turning_ticks_middle (F : FloatOps α) (g : α) (ws : Option (WaterSurface α))
    (t : α) (b : Boat α) (e : α) (hE : F.exp (-4 * (1 / 30)) = e)
    (he0 : (87517 / 100000 : α) ≤ e) (he1 : e ≤ (87519 / 100000 : α))
    (h : turningWithin b
      (489968 / 1000000 : α) (490051 / 1000000 : α)
      (-216438 / 10000 : α) (-216213 / 10000 : α)
      (3597151 / 10000 : α) (3597165 / 10000 : α)) :
    turningWithin (b.runOps F (List.replicate 4 (DriveOp.update g (1 / 30) ws t)))
      (955925 / 1000000 : α) (956091 / 1000000 : α)
      (-11812345 / 10000 : α) (-11799847 / 10000 : α)
      (3323104 / 10000 : α) (3323771 / 10000 : α) := by
  obtain ⟨⟨hf4, ht4, hp4, hb4, ho4⟩, ⟨hs4lo, hs4hi⟩, ⟨ha4lo, ha4hi⟩,
    ⟨hr4lo, hr4hi⟩⟩ := h
  have hepos : 0 < e := lt_of_lt_of_le (by norm_num) he0
  have helt : e < 1 := lt_of_le_of_lt he1 (by norm_num)
  unfold turningWithin
  simp only [List.replicate, Boat.runOps, List.foldl_cons, List.foldl_nil, Boat.applyOp]
  obtain ⟨hf5, ht5, hp5, hb5, ho5, es5, ea5, er5⟩ :=
    turning_tick F g ws t b hf4 ht4 hp4 hb4 ho4 (le_trans (by norm_num) hs4lo)
      (lt_of_le_of_lt hs4hi (by norm_num)) e hE hepos helt
  generalize b.update F g (1 / 30) ws t = c5 at *
  have hS5 := turning_speed_bounds e b.speed c5.speed
    (489968 / 1000000 : α) (490051 / 1000000 : α) (87517 / 100000 : α) (87519 / 100000 : α)
    he0 he1 (by norm_num) hs4lo hs4hi (by norm_num) es5
  have hs5lo : (608661 / 1000000 : α) ≤ c5.speed := le_trans (by norm_num) hS5.1
  have hs5hi : c5.speed ≤ (608765 / 1000000 : α) := le_trans hS5.2 (by norm_num)
  have hA5 := turning_rate_bounds_pos e b.angularVelocity c5.speed c5.angularVelocity
    (-216438 / 10000 : α) (-216213 / 10000 : α) (608661 / 1000000 : α) (608765 / 1000000 : α)
    (87517 / 100000 : α) (87519 / 100000 : α) he0 he1 (by norm_num)
    ha4lo ha4hi hs5lo hs5hi (by norm_num) ea5
  have ha5lo : (695513 / 10000 : α) ≤ c5.angularVelocity := le_trans (by norm_num) hA5.1
  have ha5hi : c5.angularVelocity ≤ (696142 / 10000 : α) := le_trans hA5.2 (by norm_num)
  have er5w : c5.rotation = b.rotation + c5.angularVelocity * (1 / 30) - 360 :=
    er5.trans (wrap_above (b.rotation + c5.angularVelocity * (1 / 30))
      (by linarith only [hr4lo, hr4hi, ha5lo, ha5hi]))
  have hr5lo : (20334 / 10000 : α) ≤ c5.rotation := by
    rw [er5w]
    linarith only [hr4lo, hr4hi, ha5lo, ha5hi]
  have hr5hi : c5.rotation ≤ (2037 / 1000 : α) := by
    rw [er5w]
    linarith only [hr4lo, hr4hi, ha5lo, ha5hi]
  clear hS5 hA5 es5 ea5 er5 er5w
  clear hf4 ht4 hp4 hb4 ho4 hs4lo hs4hi ha4lo ha4hi hr4lo hr4hi
  obtain ⟨hf6, ht6, hp6, hb6, ho6, es6, ea6, er6⟩ :=
    turning_tick F g ws t c5 hf5 ht5 hp5 hb5 ho5 (le_trans (by norm_num) hs5lo)
      (lt_of_le_of_lt hs5hi (by norm_num)) e hE hepos helt
  generalize c5.update F g (1 / 30) ws t = c6 at *
  have hS6 := turning_speed_bounds e c5.speed c6.speed
    (608661 / 1000000 : α) (608765 / 1000000 : α) (87517 / 100000 : α) (87519 / 100000 : α)
    he0 he1 (by norm_num) hs5lo hs5hi (by norm_num) es6
  have hs6lo : (725873 / 1000000 : α) ≤ c6.speed := le_trans (by norm_num) hS6.1
  have hs6hi : c6.speed ≤ (725998 / 1000000 : α) := le_trans hS6.2 (by norm_num)
  have hA6 := turning_rate_bounds_neg e c5.angularVelocity c6.speed c6.angularVelocity
    (695513 / 10000 : α) (696142 / 10000 : α) (725873 / 1000000 : α) (725998 / 1000000 : α)
    (87517 / 100000 : α) (87519 / 100000 : α) he0 he1 (by norm_num)
    ha5lo ha5hi hs6lo hs6hi (by norm_num) ea6
  have ha6lo : (-1675304 / 10000 : α) ≤ c6.angularVelocity := le_trans (by norm_num) hA6.1
  have ha6hi : c6.angularVelocity ≤ (-1673587 / 10000 : α) := le_trans hA6.2 (by norm_num)
  have er6w : c6.rotation = c5.rotation + c6.angularVelocity * (1 / 30) + 360 :=
    er6.trans (wrap_up (c5.rotation + c6.angularVelocity * (1 / 30))
      (by linarith only [hr5lo, hr5hi, ha6lo, ha6hi])
      (by linarith only [hr5lo, hr5hi, ha6lo, ha6hi]))
  have hr6lo : (356449 / 1000 : α) ≤ c6.rotation := by
    rw [er6w]
    linarith only [hr5lo, hr5hi, ha6lo, ha6hi]
  have hr6hi : c6.rotation ≤ (3564584 / 10000 : α) := by
    rw [er6w]
    linarith only [hr5lo, hr5hi, ha6lo, ha6hi]
  clear hS6 hA6 es6 ea6 er6 er6w
  clear hf5 ht5 hp5 hb5 ho5 hs5lo hs5hi ha5lo ha5hi hr5lo hr5hi
  obtain ⟨hf7, ht7, hp7, hb7, ho7, es7, ea7, er7⟩ :=
    turning_tick F g ws t c6 hf6 ht6 hp6 hb6 ho6 (le_trans (by norm_num) hs6lo)
      (lt_of_le_of_lt hs6hi (by norm_num)) e hE hepos helt
  generalize c6.update F g (1 / 30) ws t = c7 at *
  have hS7 := turning_speed_bounds e c6.speed c7.speed
    (725873 / 1000000 : α) (725998 / 1000000 : α) (87517 / 100000 : α) (87519 / 100000 : α)
    he0 he1 (by norm_num) hs6lo hs6hi (by norm_num) es7
  have hs7lo : (841621 / 1000000 : α) ≤ c7.speed := le_trans (by norm_num) hS7.1
  have hs7hi : c7.speed ≤ (841767 / 1000000 : α) := le_trans hS7.2 (by norm_num)
  have hA7 := turning_rate_bounds_pos e c6.angularVelocity c7.speed c7.angularVelocity
    (-1675304 / 10000 : α) (-1673587 / 10000 : α) (841621 / 1000000 : α) (841767 / 1000000 : α)
    (87517 / 100000 : α) (87519 / 100000 : α) he0 he1 (by norm_num)
    ha6lo ha6hi hs7lo hs7hi (by norm_num) ea7
  have ha7lo : (4570794 / 10000 : α) ≤ c7.angularVelocity := le_trans (by norm_num) hA7.1
  have ha7hi : c7.angularVelocity ≤ (4575438 / 10000 : α) := le_trans hA7.2 (by norm_num)
  have er7w : c7.rotation = c6.rotation + c7.angularVelocity * (1 / 30) - 360 :=
    er7.trans (wrap_above (c6.rotation + c7.angularVelocity * (1 / 30))
      (by linarith only [hr6lo, hr6hi, ha7lo, ha7hi]))
  have hr7lo : (116849 / 10000 : α) ≤ c7.rotation := by
    rw [er7w]
    linarith only [hr6lo, hr6hi, ha7lo, ha7hi]
  have hr7hi : c7.rotation ≤ (117099 / 10000 : α) := by
    rw [er7w]
    linarith only [hr6lo, hr6hi, ha7lo, ha7hi]
  clear hS7 hA7 es7 ea7 er7 er7w
  clear hf6 ht6 hp6 hb6 ho6 hs6lo hs6hi ha6lo ha6hi hr6lo hr6hi
  obtain ⟨hf8, ht8, hp8, hb8, ho8, es8, ea8, er8⟩ :=
    turning_tick F g ws t c7 hf7 ht7 hp7 hb7 ho7 (le_trans (by norm_num) hs7lo)
      (lt_of_le_of_lt hs7hi (by norm_num)) e hE hepos helt
  generalize c7.update F g (1 / 30) ws t = c8 at *
  have hS8 := turning_speed_bounds e c7.speed c8.speed
    (841621 / 1000000 : α) (841767 / 1000000 : α) (87517 / 100000 : α) (87519 / 100000 : α)
    he0 he1 (by norm_num) hs7lo hs7hi (by norm_num) es8
  have hs8lo : (955925 / 1000000 : α) ≤ c8.speed := le_trans (by norm_num) hS8.1
  have hs8hi : c8.speed ≤ (956091 / 1000000 : α) := le_trans hS8.2 (by norm_num)
  have hA8 := turning_rate_bounds_neg e c7.angularVelocity c8.speed c8.angularVelocity
    (4570794 / 10000 : α) (4575438 / 10000 : α) (955925 / 1000000 : α) (956091 / 1000000 : α)
    (87517 / 100000 : α) (87519 / 100000 : α) he0 he1 (by norm_num)
    ha7lo ha7hi hs8lo hs8hi (by norm_num) ea8
  have ha8lo : (-11812345 / 10000 : α) ≤ c8.angularVelocity := le_trans (by norm_num) hA8.1
  have ha8hi : c8.angularVelocity ≤ (-11799847 / 10000 : α) := le_trans hA8.2 (by norm_num)
  have er8w : c8.rotation = c7.rotation + c8.angularVelocity * (1 / 30) + 360 :=
    er8.trans (wrap_up (c7.rotation + c8.angularVelocity * (1 / 30))
      (by linarith only [hr7lo, hr7hi, ha8lo, ha8hi])
      (by linarith only [hr7lo, hr7hi, ha8lo, ha8hi]))
  have hr8lo : (3323104 / 10000 : α) ≤ c8.rotation := by
    rw [er8w]
    linarith only [hr7lo, hr7hi, ha8lo, ha8hi]
  have hr8hi : c8.rotation ≤ (3323771 / 10000 : α) := by
    rw [er8w]
    linarith only [hr7lo, hr7hi, ha8lo, ha8hi]
  clear hS8 hA8 es8 ea8 er8 er8w
  clear hf7 ht7 hp7 hb7 ho7 hs7lo hs7hi ha7lo ha7hi hr7lo hr7hi
  exact ⟨⟨hf8, ht8, hp8, hb8, ho8⟩, ⟨hs8lo, hs8hi⟩, ⟨ha8lo, ha8hi⟩,
    ⟨hr8lo, hr8hi⟩⟩

/-- Bounds on speed, angular velocity and heading after the last three of the eleven turning
ticks of `1/30` s: the heading is above 519. -/
theorem turning_ticks_last (F : FloatOps α) (g : α) (ws : Option (WaterSurface α))
    (t : α) (b : Boat α) (e : α) (hE : F.exp (-4 * (1 / 30)) = e)
    (he0 : (87517 / 100000 : α) ≤ e) (he1 : e ≤ (87519 / 100000 : α))
    (h : turningWithin b
      (955925 / 1000000 : α) (956091 / 1000000 : α)
      (-11812345 / 10000 : α) (-11799847 / 10000 : α)
      (3323104 / 10000 : α) (3323771 / 10000 : α)) :
    turningWithin (b.runOps F (List.replicate 3 (DriveOp.update g (1 / 30) ws t)))
      (1290346 / 1000000 : α) (1290574 / 1000000 : α)
      (214726289 / 10000 : α) (21496767 / 1000 : α)
      (5195101 / 10000 : α) (5207938 / 10000 : α) := by
  obtain ⟨⟨hf8, ht8, hp8, hb8, ho8⟩, ⟨hs8lo, hs8hi⟩, ⟨ha8lo, ha8hi⟩,
    ⟨hr8lo, hr8hi⟩⟩ := h
  have hepos : 0 < e := lt_of_lt_of_le (by norm_num) he0
  have helt : e < 1 := lt_of_le_of_lt he1 (by norm_num)
  unfold turningWithin
  simp only [List.replicate, Boat.runOps, List.foldl_cons, List.foldl_nil, Boat.applyOp]
  obtain ⟨hf9, ht9, hp9, hb9, ho9, es9, ea9, er9⟩ :=
    turning_tick F g ws t b hf8 ht8 hp8 hb8 ho8 (le_trans (by norm_num) hs8lo)
      (lt_of_le_of_lt hs8hi (by norm_num)) e hE hepos helt
  generalize b.update F g (1 / 30) ws t = c9 at *
  have hS9 := turning_speed_bounds e b.speed c9.speed
    (955925 / 1000000 : α) (956091 / 1000000 : α) (87517 / 100000 : α) (87519 / 100000 : α)
    he0 he1 (by norm_num) hs8lo hs8hi (by norm_num) es9
  have hs9lo : (1068802 / 1000000 : α) ≤ c9.speed := le_trans (by norm_num) hS9.1
  have hs9hi : c9.speed ≤ (1068989 / 1000000 : α) := le_trans hS9.2 (by norm_num)
  have hA9 := turning_rate_bounds_pos e b.angularVelocity c9.speed c9.angularVelocity
    (-11812345 / 10000 : α) (-11799847 / 10000 : α) (1068802 / 1000000 : α) (1068989 / 1000000 : α)
    (87517 / 100000 : α) (87519 / 100000 : α) he0 he1 (by norm_num)
    ha8lo ha8hi hs9lo hs9hi (by norm_num) ea9
  have ha9lo : (31205108 / 10000 : α) ≤ c9.angularVelocity := le_trans (by norm_num) hA9.1
  have ha9hi : c9.angularVelocity ≤ (31238676 / 10000 : α) := le_trans hA9.2 (by norm_num)
  have er9w : c9.rotation = b.rotation + c9.angularVelocity * (1 / 30) - 360 :=
    er9.trans (wrap_above (b.rotation + c9.angularVelocity * (1 / 30))
      (by linarith only [hr8lo, hr8hi, ha9lo, ha9hi]))
  have hr9lo : (763274 / 10000 : α) ≤ c9.rotation := by
    rw [er9w]
    linarith only [hr8lo, hr8hi, ha9lo, ha9hi]
  have hr9hi : c9.rotation ≤ (765061 / 10000 : α) := by
    rw [er9w]
    linarith only [hr8lo, hr8hi, ha9lo, ha9hi]
  clear hS9 hA9 es9 ea9 er9 er9w
  clear hf8 ht8 hp8 hb8 ho8 hs8lo hs8hi ha8lo ha8hi hr8lo hr8hi
  obtain ⟨hf10, ht10, hp10, hb10, ho10, es10, ea10, er10⟩ :=
    turning_tick F g ws t c9 hf9 ht9 hp9 hb9 ho9 (le_trans (by norm_num) hs9lo)
      (lt_of_le_of_lt hs9hi (by norm_num)) e hE hepos helt
  generalize c9.update F g (1 / 30) ws t = c10 at *
  have hS10 := turning_speed_bounds e c9.speed c10.speed
    (1068802 / 1000000 : α) (1068989 / 1000000 : α) (87517 / 100000 : α) (87519 / 100000 : α)
    he0 he1 (by norm_num) hs9lo hs9hi (by norm_num) es10
  have hs10lo : (118027 / 100000 : α) ≤ c10.speed := le_trans (by norm_num) hS10.1
  have hs10hi : c10.speed ≤ (1180477 / 1000000 : α) := le_trans hS10.2 (by norm_num)
  have hA10 := turning_rate_bounds_neg e c9.angularVelocity c10.speed c10.angularVelocity
    (31205108 / 10000 : α) (31238676 / 10000 : α) (118027 / 100000 : α) (1180477 / 1000000 : α)
    (87517 / 100000 : α) (87519 / 100000 : α) he0 he1 (by norm_num)
    ha9lo ha9hi hs10lo hs10hi (by norm_num) ea10
  have ha10lo : (-81771421 / 10000 : α) ≤ c10.angularVelocity := le_trans (by norm_num) hA10.1
  have ha10hi : c10.angularVelocity ≤ (-81681374 / 10000 : α) := le_trans hA10.2 (by norm_num)
  have er10w : c10.rotation = c9.rotation + c10.angularVelocity * (1 / 30) + 360 :=
    er10.trans (wrap_up (c9.rotation + c10.angularVelocity * (1 / 30))
      (by linarith only [hr9lo, hr9hi, ha10lo, ha10hi])
      (by linarith only [hr9lo, hr9hi, ha10lo, ha10hi]))
  have hr10lo : (1637559 / 10000 : α) ≤ c10.rotation := by
    rw [er10w]
    linarith only [hr9lo, hr9hi, ha10lo, ha10hi]
  have hr10hi : c10.rotation ≤ (1642349 / 10000 : α) := by
    rw [er10w]
    linarith only [hr9lo, hr9hi, ha10lo, ha10hi]
  clear hS10 hA10 es10 ea10 er10 er10w
  clear hf9 ht9 hp9 hb9 ho9 hs9lo hs9hi ha9lo ha9hi hr9lo hr9hi
  obtain ⟨hf11, ht11, hp11, hb11, ho11, es11, ea11, er11⟩ :=
    turning_tick F g ws t c10 hf10 ht10 hp10 hb10 ho10 (le_trans (by norm_num) hs10lo)
      (lt_of_le_of_lt hs10hi (by norm_num)) e hE hepos helt
  generalize c10.update F g (1 / 30) ws t = c11 at *
  have hS11 := turning_speed_bounds e c10.speed c11.speed
    (118027 / 100000 : α) (1180477 / 1000000 : α) (87517 / 100000 : α) (87519 / 100000 : α)
    he0 he1 (by norm_num) hs10lo hs10hi (by norm_num) es11
  have hs11lo : (1290346 / 1000000 : α) ≤ c11.speed := le_trans (by norm_num) hS11.1
  have hs11hi : c11.speed ≤ (1290574 / 1000000 : α) := le_trans hS11.2 (by norm_num)
  have hA11 := turning_rate_bounds_pos e c10.angularVelocity c11.speed c11.angularVelocity
    (-81771421 / 10000 : α) (-81681374 / 10000 : α) (1290346 / 1000000 : α) (1290574 / 1000000 : α)
    (87517 / 100000 : α) (87519 / 100000 : α) he0 he1 (by norm_num)
    ha10lo ha10hi hs11lo hs11hi (by norm_num) ea11
  have ha11lo : (214726289 / 10000 : α) ≤ c11.angularVelocity := le_trans (by norm_num) hA11.1
  have ha11hi : c11.angularVelocity ≤ (21496767 / 1000 : α) := le_trans hA11.2 (by norm_num)
  have er11w : c11.rotation = c10.rotation + c11.angularVelocity * (1 / 30) - 360 :=
    er11.trans (wrap_above (c10.rotation + c11.angularVelocity * (1 / 30))
      (by linarith only [hr10lo, hr10hi, ha11lo, ha11hi]))
  have hr11lo : (5195101 / 10000 : α) ≤ c11.rotation := by
    rw [er11w]
    linarith only [hr10lo, hr10hi, ha11lo, ha11hi]
  have hr11hi : c11.rotation ≤ (5207938 / 10000 : α) := by
    rw [er11w]
    linarith only [hr10lo, hr10hi, ha11lo, ha11hi]
  clear hS11 hA11 es11 ea11 er11 er11w
  clear hf10 ht10 hp10 hb10 ho10 hs10lo hs10hi ha10lo ha10hi hr10lo hr10hi
  exact ⟨⟨hf11, ht11, hp11, hb11, ho11⟩, ⟨hs11lo, hs11hi⟩, ⟨ha11lo, ha11hi⟩,
    ⟨hr11lo, hr11hi⟩⟩

/-- Eleven `update` calls of `1/30` s from rest at heading 0 in open water, at full forward
and full turn input: the explicit turn integration overshoots more at every tick
(the angular velocity is multiplied by about `(1 - 120 dt) exp(-4 dt) = -2.63`), and after
the eleventh tick the heading is above 519 (only one wrap by 360 is applied). -/
theorem eleven_turning_ticks (F : FloatOps α) (g : α) (ws : Option (WaterSurface α))
    (t : α) (b : Boat α) (e : α)
    (hE : F.exp (-4 * (1 / 30)) = e)
    (he0 : (87517 / 100000 : α) ≤ e) (he1 : e ≤ (87519 / 100000 : α))
    (hf : b.forwardInput = 1) (ht : b.turnInput = 1)
    (hp : b.collisionPredicate = none) (hb : b.hasBounds = false) (ho : b.obstacles = [])
    (hs : b.speed = 0) (ha : b.angularVelocity = 0) (hr : b.rotation = 0) :
    519 < (b.runOps F (List.replicate 11 (DriveOp.update g (1 / 30) ws t))).rotation := by
  have h4 := turning_ticks_first F g ws t b e hE he0 he1
    ⟨⟨hf, ht, hp, hb, ho⟩, ⟨by rw [hs], by rw [hs]⟩, ⟨by rw [ha], by rw [ha]⟩,
      ⟨by rw [hr], by rw [hr]⟩⟩
  have h8 := turning_ticks_middle F g ws t _ e hE he0 he1 h4
  have h11 := turning_ticks_last F g ws t _ e hE he0 he1 h8
  unfold turningWithin at h11
  have hrun : b.runOps F (List.replicate 11 (DriveOp.update g (1 / 30) ws t))
      = ((b.runOps F (List.replicate 4 (DriveOp.update g (1 / 30) ws t))).runOps F
          (List.replicate 4 (DriveOp.update g (1 / 30) ws t))).runOps F
          (List.replicate 3 (DriveOp.update g (1 / 30) ws t)) := rfl
  rw [hrun]
  exact lt_of_lt_of_le (by norm_num) h11.2.2.2.1

theorem exp_frame_bounds :
    (87517 / 100000 : ℝ) ≤ Real.exp (-4 * (1 / 30))
    ∧ Real.exp (-4 * (1 / 30)) ≤ 87519 / 100000 := by
  have hx : |(-4 * (1 / 30) : ℝ)| ≤ 1 := by rw [abs_le]; constructor <;> norm_num
  have h := Real.exp_bound hx (n := 5) (by norm_num)
  have habs : |(-4 * (1 / 30) : ℝ)| = 2 / 15 := by
    rw [abs_of_nonpos (by norm_num)]; norm_num
  rw [habs] at h
  simp only [Finset.sum_range_succ, Finset.sum_range_zero, Nat.factorial] at h
  norm_num at h
  rw [abs_le] at h
  constructor <;> linarith [h.1, h.2]

/-- C2 (code at the failing input): from a newly built boat (heading 0) after
`processInput(1, 1)`, eleven `update` calls with `deltaTime = 1/30` s (30 frames per second,
default water surface) leave a heading above 519, and two `update` calls with
`deltaTime = 0.5` s leave a negative heading: in both runs the heading after the last
`update` is outside `[0, 360)`. -/
theorem heading_leaves_range :
    519 < (((Boat.new ⟨0, 0, 0⟩ 0 : Boat ℝ).processInput 1 1).runOps
      (FloatOps.mk Real.exp Real.sin Real.cos Real.sqrt (fun y x => Complex.arg ⟨x, y⟩) Real.pi)
      (List.replicate 11 (DriveOp.update 0 (1 / 30) (some WaterSurface.new) 0))).rotation
    ∧ (((Boat.new ⟨0, 0, 0⟩ 0 : Boat ℝ).processInput 1 1).runOps
      (FloatOps.mk Real.exp Real.sin Real.cos Real.sqrt (fun y x => Complex.arg ⟨x, y⟩) Real.pi)
      [DriveOp.update 0 (1 / 2) none 0, DriveOp.update 0 (1 / 2) none 0]).rotation < 0 := by
  constructor
  · exact eleven_turning_ticks
      (FloatOps.mk Real.exp Real.sin Real.cos Real.sqrt (fun y x => Complex.arg ⟨x, y⟩) Real.pi)
      0 (some WaterSurface.new) 0 _ _ rfl exp_frame_bounds.1 exp_frame_bounds.2
      (by simp [Boat.processInput, Boat.new]) (by simp [Boat.processInput, Boat.new])
      rfl rfl rfl rfl rfl rfl
  · simp only [Boat.runOps, List.foldl_cons, List.foldl_nil, Boat.applyOp]
    rw [update_free _ _ _ _ _ rfl rfl rfl, update_free _ _ _ _ _ rfl rfl rfl]
    exact two_long_ticks_rotation _ 0 0 _ exp_half_tick_bounds.1 exp_half_tick_bounds.2 rfl rfl
      rfl (by simp [Boat.processInput, Boat.new]) (by simp [Boat.processInput, Boat.new])

/-- The range in which the single wrap of `updateMotion` is enough: for a boat whose
heading starts in `[0, 360)`, with angular velocity of magnitude at most `1800` deg/s and
stored turn input in `[-1, 1]`, for every sequence of `processInput(forward, turn)` and
`update(dt, ...)` calls with tick durations `0 <= dt <= 1/60`, the heading after every call
is in `[0, 360)`. -/
theorem heading_normalized (F : FloatOps α)
    (hexp : ∀ x : α, x ≤ 0 → 0 < F.exp x ∧ F.exp x * (1 - x) ≤ 1) (b : Boat α)
    (hr0 : 0 ≤ b.rotation) (hr1 : b.rotation < 360) (hav : |b.angularVelocity| ≤ 1800)
    (ht : |b.turnInput| ≤ 1) (ops : List (DriveOp α))
    (hops : ∀ op ∈ ops, boundedTickOp (1 / 60) op) :
    0 ≤ (b.runOps F ops).rotation ∧ (b.runOps F ops).rotation < 360 := by
  induction ops generalizing b with
  | nil => exact ⟨hr0, hr1⟩
  | cons op ops ih =>
    have hop := hops op (List.mem_cons_self _ _)
    have hrest : ∀ op' ∈ ops, boundedTickOp (1 / 60) op' :=
      fun op' h => hops op' (List.mem_cons_of_mem _ h)
    simp only [Boat.runOps, List.foldl_cons]
    cases op with
    | processInput forward turn =>
      have hclamp : |(b.processInput forward turn).turnInput| ≤ 1 := by
        rw [abs_le]
        exact ⟨le_max_left _ _, max_le (by norm_num) (min_le_right _ _)⟩
      exact ih (b.processInput forward turn) hr0 hr1 hav hclamp hrest
    | update glfwTime dt waterSurface currentTime =>
      obtain ⟨hd0, hd1⟩ : 0 ≤ dt ∧ dt ≤ 1 / 60 := hop
      obtain ⟨u0, u1, u2, u3⟩ := update_heading_range F hexp glfwTime b dt waterSurface
        currentTime hd0 hd1 hr0 hr1 hav ht
      exact ih _ u0 u1 u2 (u3.symm ▸ ht) hrest

theorem heading_normalized_example :
    0 ≤ (((Boat.new ⟨0, 0, 0⟩ 0 : Boat ℝ).processInput 1 1).runOps
      (FloatOps.mk Real.exp Real.sin Real.cos Real.sqrt (fun y x => Complex.arg ⟨x, y⟩) Real.pi)
      [DriveOp.update 0 (1 / 60) none 0, DriveOp.processInput 1 (-1),
        DriveOp.update 0 (1 / 60) none 0]).rotation
    ∧ (((Boat.new ⟨0, 0, 0⟩ 0 : Boat ℝ).processInput 1 1).runOps
      (FloatOps.mk Real.exp Real.sin Real.cos Real.sqrt (fun y x => Complex.arg ⟨x, y⟩) Real.pi)
      [DriveOp.update 0 (1 / 60) none 0, DriveOp.processInput 1 (-1),
        DriveOp.update 0 (1 / 60) none 0]).rotation < 360 :=
  heading_normalized
    (FloatOps.mk Real.exp Real.sin Real.cos Real.sqrt (fun y x => Complex.arg ⟨x, y⟩) Real.pi)
    (fun x _ => ⟨Real.exp_pos x, by
      have h1 := Real.add_one_le_exp (-x)
      have h2 : Real.exp x * Real.exp (-x) = 1 := by rw [← Real.exp_add]; simp
      have h3 := Real.exp_pos x
      calc Real.exp x * (1 - x) ≤ Real.exp x * Real.exp (-x) :=
            mul_le_mul_of_nonneg_left (by linarith) h3.le
        _ = 1 := h2⟩)
    ((Boat.new ⟨0, 0, 0⟩ 0).processInput 1 1)
    (le_refl (0 : ℝ)) (by norm_num [Boat.processInput, Boat.new])
    (by norm_num [Boat.processInput, Boat.new])
    (by norm_num [Boat.processInput, Boat.new]) _
    (by
      intro op hop
      simp only [List.mem_cons, List.mem_singleton, List.not_mem_nil, or_false] at hop
      rcases hop with rfl | rfl | rfl
      · exact ⟨by norm_num, by norm_num⟩
      · exact trivial
      · exact ⟨by norm_num, by norm_num⟩)

/-! ### Collision containment -/

theorem probesSafe_congr (F : FloatOps α) (predicate : α → α → Bool) (p q : Vec3 α)
    (rotation : α) (hx : p.x = q.x) (hz : p.z = q.z) :
    probesSafe F predicate p rotation = probesSafe F predicate q rotation := by
  simp [probesSafe, checkPoints, Vec3.add, Vec3.sub, Vec3.scale, hx, hz]

theorem validatedAt_congr (F : FloatOps α) (predicate : α → α → Bool) (p q : Vec3 α)
    (hx : p.x = q.x) (hz : p.z = q.z) (h : validatedAt F predicate q) :
    validatedAt F predicate p := by
  obtain ⟨r, hr⟩ := h
  exact ⟨r, by rw [probesSafe_congr F predicate p q r hx hz]; exact hr⟩

theorem pushes_frame (F : FloatOps α) (c : Boat α) :
    (Boat.obstacleStage F c.boundsStage).collisionPredicate = c.collisionPredicate
    ∧ (Boat.obstacleStage F c.boundsStage).lastSafePosition = c.lastSafePosition
    ∧ (Boat.obstacleStage F c.boundsStage).hasLastSafePosition = c.hasLastSafePosition := by
  obtain ⟨a1, -, -, a4, a5⟩ := boundsStage_frame c
  obtain ⟨o1, -, -, o4, o5⟩ := obstacleFold_frame F (fun _ => True) (fun _ _ => trivial)
    c.boundsStage.obstacles c.boundsStage trivial
  exact ⟨(o1.2.2.2.2.2.2.2.2.2).trans a1.2.2.2.2.2.2.2.2.2, o4.trans a4, o5.trans a5⟩

theorem handleCollisions_pass (F : FloatOps α) (p : α → α → Bool) (m : Boat α) (prev : Vec3 α)
    (hp : m.collisionPredicate = some p)
    (hsafe : probesSafe F p m.position m.rotation = true) :
    m.handleCollisions F prev = Boat.revalidate F (Boat.obstacleStage F (Boat.boundsStage
      { m with lastSafePosition := m.position, hasLastSafePosition := true })) := by
  unfold Boat.handleCollisions
  split
  · rename_i q hq
    have hpq : q = p := Option.some.inj (hq.symm.trans hp)
    subst hpq
    rw [if_pos hsafe]
  · rename_i hq
    rw [hp] at hq
    exact absurd hq (by simp)

theorem handleCollisions_veto (F : FloatOps α) (p : α → α → Bool) (m : Boat α) (prev : Vec3 α)
    (hp : m.collisionPredicate = some p)
    (hbad : ¬ probesSafe F p m.position m.rotation = true) :
    m.handleCollisions F prev =
      { m with
        position := if m.hasLastSafePosition then m.lastSafePosition else prev
        speed := 0
        angularVelocity := 0 } := by
  unfold Boat.handleCollisions
  split
  · rename_i q hq
    have hpq : q = p := Option.some.inj (hq.symm.trans hp)
    subst hpq
    rw [if_neg hbad]
  · rename_i hq
    rw [hp] at hq
    exact absurd hq (by simp)

theorem revalidate_pass (F : FloatOps α) (p : α → α → Bool) (c : Boat α)
    (hp : c.collisionPredicate = some p)
    (hsafe : probesSafe F p c.position c.rotation = true) : c.revalidate F = c := by
  unfold Boat.revalidate
  split
  · rfl
  · rename_i q hq
    have hpq : q = p := Option.some.inj (hq.symm.trans hp)
    subst hpq
    rw [if_pos hsafe]

theorem revalidate_veto (F : FloatOps α) (p : α → α → Bool) (c : Boat α)
    (hp : c.collisionPredicate = some p)
    (hbad : ¬ probesSafe F p c.position c.rotation = true) :
    c.revalidate F =
      { c with
        position := if c.hasLastSafePosition then c.lastSafePosition else c.position
        speed := 0
        angularVelocity := 0 } := by
  unfold Boat.revalidate
  split
  · rename_i hq
    rw [hp] at hq
    exact absurd hq (by simp)
  · rename_i q hq
    have hpq : q = p := Option.some.inj (hq.symm.trans hp)
    subst hpq
    rw [if_neg hbad]

/-- After `handleCollisions` with a predicate, the position is one where the terrain check
passed, as soon as this holds for the fallback positions (`prevPosition`, and the last-safe
position when there is one); the same then holds for the new last-safe position. -/
theorem handleCollisions_validated (F : FloatOps α) (p : α → α → Bool) (m : Boat α)
    (prev : Vec3 α) (hp : m.collisionPredicate = some p) (hprev : validatedAt F p prev)
    (hlast : m.hasLastSafePosition = true → validatedAt F p m.lastSafePosition) :
    (m.handleCollisions F prev).collisionPredicate = some p
    ∧ validatedAt F p (m.handleCollisions F prev).position
    ∧ ((m.handleCollisions F prev).hasLastSafePosition = true →
        validatedAt F p (m.handleCollisions F prev).lastSafePosition) := by
  by_cases hsafe : probesSafe F p m.position m.rotation = true
  · rw [handleCollisions_pass F p m prev hp hsafe]
    obtain ⟨f1, f2, f3⟩ := pushes_frame F
      { m with lastSafePosition := m.position, hasLastSafePosition := true }
    have f1' := f1.trans hp
    by_cases h2 : probesSafe F p
        (Boat.obstacleStage F (Boat.boundsStage
          { m with lastSafePosition := m.position, hasLastSafePosition := true })).position
        (Boat.obstacleStage F (Boat.boundsStage
          { m with lastSafePosition := m.position, hasLastSafePosition := true })).rotation
        = true
    · rw [revalidate_pass F p _ f1' h2]
      refine ⟨f1', ⟨_, h2⟩, fun _ => ?_⟩
      rw [f2]
      exact ⟨m.rotation, hsafe⟩
    · rw [revalidate_veto F p _ f1' h2]
      refine ⟨f1', ?_, fun _ => ?_⟩
      · dsimp only
        rw [f3, f2]
        exact ⟨m.rotation, hsafe⟩
      · dsimp only
        rw [f2]
        exact ⟨m.rotation, hsafe⟩
  · rw [handleCollisions_veto F p m prev hp hsafe]
    refine ⟨hp, ?_, hlast⟩
    dsimp only
    by_cases hl : m.hasLastSafePosition = true
    · rw [if_pos hl]
      exact hlast hl
    · rw [if_neg hl]
      exact hprev

/-- After a `handleCollisions` that ends with all probes safe, the last-safe position (when
there is one) is a position where the terrain check passed. -/
theorem handleCollisions_pass_records (F : FloatOps α) (p : α → α → Bool) (m : Boat α)
    (prev : Vec3 α) (hp : m.collisionPredicate = some p)
    (hpass : probesSafe F p (m.handleCollisions F prev).position
      (m.handleCollisions F prev).rotation = true) :
    (m.handleCollisions F prev).hasLastSafePosition = true →
      validatedAt F p (m.handleCollisions F prev).lastSafePosition := by
  by_cases hsafe : probesSafe F p m.position m.rotation = true
  · intro _
    obtain ⟨-, f2, -⟩ := pushes_frame F
      { m with lastSafePosition := m.position, hasLastSafePosition := true }
    obtain ⟨-, -, -, r4, -⟩ := revalidate_frame F (Boat.obstacleStage F (Boat.boundsStage
      { m with lastSafePosition := m.position, hasLastSafePosition := true }))
    rw [handleCollisions_pass F p m prev hp hsafe, r4, f2]
    exact ⟨m.rotation, hsafe⟩
  · rw [handleCollisions_veto F p m prev hp hsafe] at hpass ⊢
    dsimp only at hpass ⊢
    intro hl
    rw [if_pos hl] at hpass
    exact ⟨m.rotation, hpass⟩

theorem updateMotion_at_rest (F : FloatOps α) (glfwTime : α) (b : Boat α) (dt : α)
    (hs : b.speed = 0) (ha : b.angularVelocity = 0) (hf : |b.forwardInput| ≤ 1 / 100)
    (hr0 : 0 ≤ b.rotation) (hr1 : b.rotation < 360) :
    (b.updateMotion F glfwTime dt).position = b.position
    ∧ (b.updateMotion F glfwTime dt).rotation = b.rotation
    ∧ (b.updateMotion F glfwTime dt).speed = 0
    ∧ (b.updateMotion F glfwTime dt).angularVelocity = 0 := by
  have hn : ¬ (|b.forwardInput| > 1 / 100) := not_lt.mpr hf
  have hsp : (b.updateMotion F glfwTime dt).speed = 0 := by
    simp only [Boat.updateMotion, hs, if_neg hn, zero_mul, abs_zero]
    simp
  obtain ⟨a1, r1⟩ := updateMotion_turn F glfwTime b dt
  have hav : (b.updateMotion F glfwTime dt).angularVelocity = 0 := by
    rw [a1, hsp, ha]
    simp
  have hrot : (b.updateMotion F glfwTime dt).rotation = b.rotation := by
    rw [r1, hav]
    simp only [zero_mul, add_zero]
    rw [if_neg (not_lt.mpr hr0), if_neg (not_le.mpr hr1)]
  refine ⟨?_, hrot, hsp, hav⟩
  have hpos : (b.updateMotion F glfwTime dt).position
      = b.position.add ((Vec3.scale ⟨F.sin (radians F (b.updateMotion F glfwTime dt).rotation),
          0, F.cos (radians F (b.updateMotion F glfwTime dt).rotation)⟩
          ((b.updateMotion F glfwTime dt).speed * max (35 / 100)
            (1 - min (|(b.updateMotion F glfwTime dt).angularVelocity| / TURN_SPEED) 1
              * TURN_SPEED_FACTOR))).scale dt) := rfl
  rw [hpos, hsp]
  simp [Vec3.add, Vec3.scale]

theorem handleCollisions_safe_free (F : FloatOps α) (p : α → α → Bool) (m : Boat α)
    (prev : Vec3 α) (hp : m.collisionPredicate = some p)
    (hsafe : probesSafe F p m.position m.rotation = true) (hb : m.hasBounds = false)
    (ho : m.obstacles = []) :
    m.handleCollisions F prev =
      { m with lastSafePosition := m.position, hasLastSafePosition := true } := by
  rw [handleCollisions_pass F p m prev hp hsafe, boundsStage_of_no_bounds
    { m with lastSafePosition := m.position, hasLastSafePosition := true } hb]
  unfold Boat.obstacleStage
  simp only [ho, List.foldl_nil]
  exact revalidate_pass F p _ hp hsafe

/-- An `update` without water surface of a boat at rest with no forward input, in a place
where the terrain check passes, with no bounds and no obstacles: nothing moves. -/
theorem update_at_rest_safe (F : FloatOps α) (p : α → α → Bool) (glfwTime : α) (b : Boat α)
    (dt currentTime : α) (hs : b.speed = 0) (ha : b.angularVelocity = 0)
    (hf : |b.forwardInput| ≤ 1 / 100) (hr0 : 0 ≤ b.rotation) (hr1 : b.rotation < 360)
    (hp : b.collisionPredicate = some p) (hb : b.hasBounds = false) (ho : b.obstacles = [])
    (hsafe : probesSafe F p b.position b.rotation = true) :
    b.update F glfwTime dt none currentTime =
      { b.updateMotion F glfwTime dt with
        lastSafePosition := b.position, hasLastSafePosition := true }
    ∧ (b.updateMotion F glfwTime dt).position = b.position
    ∧ (b.updateMotion F glfwTime dt).rotation = b.rotation
    ∧ (b.updateMotion F glfwTime dt).speed = 0
    ∧ (b.updateMotion F glfwTime dt).angularVelocity = 0 := by
  obtain ⟨m1, m2, m3, m4⟩ := updateMotion_at_rest F glfwTime b dt hs ha hf hr0 hr1
  refine ⟨?_, m1, m2, m3, m4⟩
  rw [update_eq]
  have hsafe1 : probesSafe F p (b.updateMotion F glfwTime dt).position
      (b.updateMotion F glfwTime dt).rotation = true := by
    rw [m1, m2]; exact hsafe
  have h := handleCollisions_safe_free F p (b.updateMotion F glfwTime dt) b.position hp hsafe1
    hb ho
  rw [h]
  simp only [Boat.updateBuoyancy, m1]

theorem applyOp_collisionPredicate (F : FloatOps α) (b : Boat α) (op : DriveOp α) :
    (b.applyOp F op).collisionPredicate = b.collisionPredicate := by
  cases op with
  | processInput forward turn => rfl
  | update glfwTime dt waterSurface currentTime =>
    obtain ⟨c1, -, -⟩ := handleCollisions_frame F (fun _ => True) trivial (fun _ _ => trivial)
      (b.updateMotion F glfwTime dt) b.position trivial
    obtain ⟨u1, -⟩ := updateBuoyancy_frame F
      ((b.updateMotion F glfwTime dt).handleCollisions F b.position) waterSurface currentTime
    show (b.update F glfwTime dt waterSurface currentTime).collisionPredicate = _
    rw [update_eq, u1.2.2.2.2.2.2.2.2.2, c1.2.2.2.2.2.2.2.2.2]
    rfl

theorem runOps_collisionPredicate (F : FloatOps α) (b : Boat α) (ops : List (DriveOp α)) :
    (b.runOps F ops).collisionPredicate = b.collisionPredicate := by
  induction ops generalizing b with
  | nil => rfl
  | cons op ops ih =>
    simp only [Boat.runOps, List.foldl_cons]
    exact (ih (b.applyOp F op)).trans (applyOp_collisionPredicate F b op)

/-- The containment invariant is kept by `update`: if the position, and the last-safe
position when there is one, are places where the terrain check passed, the same holds
after the tick. -/
theorem update_validated (F : FloatOps α) (p : α → α → Bool) (glfwTime : α) (c : Boat α)
    (dt : α) (waterSurface : Option (WaterSurface α)) (currentTime : α)
    (hp : c.collisionPredicate = some p) (hpos : validatedAt F p c.position)
    (hlast : c.hasLastSafePosition = true → validatedAt F p c.lastSafePosition) :
    validatedAt F p (c.update F glfwTime dt waterSurface currentTime).position
    ∧ ((c.update F glfwTime dt waterSurface currentTime).hasLastSafePosition = true →
        validatedAt F p (c.update F glfwTime dt waterSurface currentTime).lastSafePosition) := by
  obtain ⟨-, h2, h3⟩ := handleCollisions_validated F p (c.updateMotion F glfwTime dt)
    c.position hp hpos hlast
  obtain ⟨-, -, -, ux, uz, ul, uh⟩ := updateBuoyancy_frame F
    ((c.updateMotion F glfwTime dt).handleCollisions F c.position) waterSurface currentTime
  rw [update_eq]
  refine ⟨validatedAt_congr F p _ _ ux uz h2, ?_⟩
  rw [ul, uh]
  exact h3

theorem updateMotion_position (F : FloatOps α) (glfwTime : α) (b : Boat α) (dt : α) :
    (b.updateMotion F glfwTime dt).position
      = ⟨b.position.x + F.sin (radians F (b.updateMotion F glfwTime dt).rotation)
            * ((b.updateMotion F glfwTime dt).speed * max (35 / 100)
              (1 - min (|(b.updateMotion F glfwTime dt).angularVelocity| / 60) 1 * (7 / 10)))
            * dt,
          b.position.y,
          b.position.z + F.cos (radians F (b.updateMotion F glfwTime dt).rotation)
            * ((b.updateMotion F glfwTime dt).speed * max (35 / 100)
              (1 - min (|(b.updateMotion F glfwTime dt).angularVelocity| / 60) 1 * (7 / 10)))
            * dt⟩ := by
  have hpos : (b.updateMotion F glfwTime dt).position
      = b.position.add ((Vec3.scale ⟨F.sin (radians F (b.updateMotion F glfwTime dt).rotation),
          0, F.cos (radians F (b.updateMotion F glfwTime dt).rotation)⟩
          ((b.updateMotion F glfwTime dt).speed * max (35 / 100)
            (1 - min (|(b.updateMotion F glfwTime dt).angularVelocity| / TURN_SPEED) 1
              * TURN_SPEED_FACTOR))).scale dt) := rfl
  rw [hpos]
  simp [Vec3.add, Vec3.scale, TURN_SPEED, TURN_SPEED_FACTOR]

/-- The boat off the shore: a first tick at rest ends with all probes safe; after full
forward input, a tick of one second carries the boat onto the shore, the terrain check
fails there and the boat is put back at the origin. -/
theorem shore_rollback (F : FloatOps α) (hsin : F.sin 0 = 0) (hcos : F.cos 0 = 1)
    (he0 : 0 < F.exp (-4 * 1)) (he1 : F.exp (-4 * 1) ≤ 1 / 5) :
    probesSafe F shorePredicate ((boatOffShore : Boat α).update F 0 (1 / 60) none 0).position
      ((boatOffShore : Boat α).update F 0 (1 / 60) none 0).rotation = true
    ∧ probesSafe F shorePredicate
        ((((boatOffShore : Boat α).update F 0 (1 / 60) none 0).processInput 1 0).updateMotion
          F 0 1).position
        ((((boatOffShore : Boat α).update F 0 (1 / 60) none 0).processInput 1 0).updateMotion
          F 0 1).rotation = false
    ∧ ((((boatOffShore : Boat α).update F 0 (1 / 60) none 0).processInput 1 0).update
          F 0 1 none 0).position = ⟨0, 0, 0⟩ := by
  have hsafe0 : probesSafe F shorePredicate (⟨0, 0, 0⟩ : Vec3 α) 0 = true := by
    simp only [probesSafe, checkPoints, radians, zero_mul, hsin, hcos,
      Vec3.add, Vec3.sub, Vec3.scale, BOAT_LENGTH, BOAT_WIDTH, shorePredicate, List.all_cons,
      List.all_nil, Bool.and_true, Bool.and_eq_true, decide_eq_true_eq]
    norm_num
  obtain ⟨e1, p1, r1, s1, a1⟩ := update_at_rest_safe F shorePredicate 0
    (boatOffShore : Boat α) (1 / 60) 0 rfl rfl
    (by norm_num [boatOffShore, Boat.new, Boat.setCollisionPredicate])
    (le_refl (0 : α)) (by norm_num [boatOffShore, Boat.new, Boat.setCollisionPredicate])
    rfl rfl rfl hsafe0
  have q1 : ((boatOffShore : Boat α).update F 0 (1 / 60) none 0).position = ⟨0, 0, 0⟩ := by
    rw [e1]; exact p1
  have q2 : ((boatOffShore : Boat α).update F 0 (1 / 60) none 0).rotation = 0 := by
    rw [e1]; exact r1
  have q3 : ((boatOffShore : Boat α).update F 0 (1 / 60) none 0).speed = 0 := by
    rw [e1]; exact s1
  have q4 : ((boatOffShore : Boat α).update F 0 (1 / 60) none 0).angularVelocity = 0 := by
    rw [e1]; exact a1
  have q5 : ((boatOffShore : Boat α).update F 0 (1 / 60) none 0).collisionPredicate
      = some shorePredicate := by
    rw [e1]; rfl
  have q6 : ((boatOffShore : Boat α).update F 0 (1 / 60) none 0).lastSafePosition
      = ⟨0, 0, 0⟩ := by
    rw [e1]; rfl
  have q7 : ((boatOffShore : Boat α).update F 0 (1 / 60) none 0).hasLastSafePosition
      = true := by
    rw [e1]
  generalize (boatOffShore : Boat α).update F 0 (1 / 60) none 0 = u at q1 q2 q3 q4 q5 q6 q7 ⊢
  have c1 : (u.processInput 1 0).forwardInput = 1 := by
    simp [Boat.processInput]
  have c2 : (u.processInput 1 0).turnInput = 0 := by
    simp [Boat.processInput]
  have msp : ((u.processInput 1 0).updateMotion F 0 1).speed = 30 * (1 - F.exp (-4 * 1)) := by
    rw [updateMotion_speed_forward F 0 _ 1 c1]
    have h0 : (u.processInput 1 0).speed = 0 := q3
    have hpos : (0 : α) < (10 - 0) * (1 - F.exp (-4 * 1)) := by
      generalize F.exp (-4 * 1) = e at he0 he1
      linarith
    rw [h0, if_pos hpos]
    ring
  obtain ⟨t1, t2⟩ := updateMotion_turn F 0 (u.processInput 1 0) 1
  have mav : ((u.processInput 1 0).updateMotion F 0 1).angularVelocity = 0 := by
    rw [t1, c2]
    have h0 : (u.processInput 1 0).angularVelocity = 0 := q4
    rw [h0]
    simp
  have mrot : ((u.processInput 1 0).updateMotion F 0 1).rotation = 0 := by
    rw [t2, mav]
    have h0 : (u.processInput 1 0).rotation = 0 := q2
    rw [h0]
    norm_num
  have mpos : ((u.processInput 1 0).updateMotion F 0 1).position
      = ⟨0, 0, 30 * (1 - F.exp (-4 * 1))⟩ := by
    rw [updateMotion_position, mrot, mav, msp]
    have h0 : (u.processInput 1 0).position = ⟨0, 0, 0⟩ := q1
    rw [h0]
    simp only [radians, zero_mul, hsin, hcos, abs_zero, zero_div]
    norm_num
  have hbad : probesSafe F shorePredicate
      ((u.processInput 1 0).updateMotion F 0 1).position
      ((u.processInput 1 0).updateMotion F 0 1).rotation = false := by
    rw [mpos, mrot]
    simp only [probesSafe, checkPoints, radians, zero_mul, hsin, hcos,
      Vec3.add, Vec3.sub, Vec3.scale, BOAT_LENGTH, BOAT_WIDTH, shorePredicate, List.all_cons,
      List.all_nil, Bool.and_true, Bool.and_eq_false_imp, decide_eq_true_eq,
      decide_eq_false_iff_not, not_le]
    intro hbow
    exfalso
    generalize F.exp (-4 * 1) = e at he0 he1 hbow
    linarith
  refine ⟨by rw [q1, q2]; exact hsafe0, hbad, ?_⟩
  rw [update_eq]
  have hp : ((u.processInput 1 0).updateMotion F 0 1).collisionPredicate
      = some shorePredicate := q5
  rw [handleCollisions_veto F shorePredicate _ _ hp (by rw [hbad]; simp)]
  show (if ((u.processInput 1 0).updateMotion F 0 1).hasLastSafePosition = true
    then ((u.processInput 1 0).updateMotion F 0 1).lastSafePosition
    else (u.processInput 1 0).position) = _
  have hl : ((u.processInput 1 0).updateMotion F 0 1).hasLastSafePosition = true := q7
  have hl2 : ((u.processInput 1 0).updateMotion F 0 1).lastSafePosition = ⟨0, 0, 0⟩ := q6
  rw [if_pos hl, hl2]


theorem exp_long_tick_bound : Real.exp (-4 * 1) ≤ 1 / 5 := by
  have h4 : (5 : ℝ) ≤ Real.exp 4 := by
    have := Real.add_one_le_exp (4 : ℝ)
    linarith
  have hpos := Real.exp_pos (4 : ℝ)
  have hneg : Real.exp (-4 * 1) = (Real.exp 4)⁻¹ := by
    rw [show (-4 * 1 : ℝ) = -4 by norm_num, Real.exp_neg]
  rw [hneg, inv_le_comm₀ hpos (by norm_num)]
  simpa using h4

/-- C1 (counterexample): a boat built on a small rock (predicate false within `0.1` of the
origin, true elsewhere) with heading 0: the first tick ends with all four probes safe, and
after the next tick the predicate is still false at the position of the boat. -/
theorem containment_counterexample :
    probesSafe
        (FloatOps.mk Real.exp Real.sin Real.cos Real.sqrt (fun y x => Complex.arg ⟨x, y⟩)
          Real.pi) rockPredicate
        ((boatOnRock : Boat ℝ).runOps
          (FloatOps.mk Real.exp Real.sin Real.cos Real.sqrt (fun y x => Complex.arg ⟨x, y⟩)
            Real.pi) [DriveOp.update 0 (1 / 60) none 0]).position
        ((boatOnRock : Boat ℝ).runOps
          (FloatOps.mk Real.exp Real.sin Real.cos Real.sqrt (fun y x => Complex.arg ⟨x, y⟩)
            Real.pi) [DriveOp.update 0 (1 / 60) none 0]).rotation = true
    ∧ rockPredicate
        ((boatOnRock : Boat ℝ).runOps
          (FloatOps.mk Real.exp Real.sin Real.cos Real.sqrt (fun y x => Complex.arg ⟨x, y⟩)
            Real.pi)
          [DriveOp.update 0 (1 / 60) none 0, DriveOp.update 0 (1 / 60) none 0]).position.x
        ((boatOnRock : Boat ℝ).runOps
          (FloatOps.mk Real.exp Real.sin Real.cos Real.sqrt (fun y x => Complex.arg ⟨x, y⟩)
            Real.pi)
          [DriveOp.update 0 (1 / 60) none 0, DriveOp.update 0 (1 / 60) none 0]).position.z
        = false := by
  have hsafe0 : probesSafe
      (FloatOps.mk Real.exp Real.sin Real.cos Real.sqrt (fun y x => Complex.arg ⟨x, y⟩)
        Real.pi) rockPredicate (⟨0, 0, 0⟩ : Vec3 ℝ) 0 = true := by
    simp only [probesSafe, checkPoints, radians, zero_mul, Real.sin_zero, Real.cos_zero,
      Vec3.add, Vec3.sub, Vec3.scale, BOAT_LENGTH, BOAT_WIDTH, rockPredicate, List.all_cons,
      List.all_nil, Bool.and_true, Bool.and_eq_true, decide_eq_true_eq]
    norm_num
  obtain ⟨e1, p1, r1, s1, a1⟩ := update_at_rest_safe
    (FloatOps.mk Real.exp Real.sin Real.cos Real.sqrt (fun y x => Complex.arg ⟨x, y⟩) Real.pi)
    rockPredicate 0 (boatOnRock : Boat ℝ) (1 / 60) 0 rfl rfl
    (by norm_num [boatOnRock, Boat.new, Boat.setCollisionPredicate])
    (le_refl (0 : ℝ)) (by norm_num [boatOnRock, Boat.new, Boat.setCollisionPredicate])
    rfl rfl rfl hsafe0
  have hb1 : ((boatOnRock : Boat ℝ).runOps
      (FloatOps.mk Real.exp Real.sin Real.cos Real.sqrt (fun y x => Complex.arg ⟨x, y⟩) Real.pi)
      [DriveOp.update 0 (1 / 60) none 0])
      = (boatOnRock : Boat ℝ).update
      (FloatOps.mk Real.exp Real.sin Real.cos Real.sqrt (fun y x => Complex.arg ⟨x, y⟩) Real.pi)
      0 (1 / 60) none 0 := rfl
  have hb2 : ((boatOnRock : Boat ℝ).runOps
      (FloatOps.mk Real.exp Real.sin Real.cos Real.sqrt (fun y x => Complex.arg ⟨x, y⟩) Real.pi)
      [DriveOp.update 0 (1 / 60) none 0, DriveOp.update 0 (1 / 60) none 0])
      = ((boatOnRock : Boat ℝ).update
      (FloatOps.mk Real.exp Real.sin Real.cos Real.sqrt (fun y x => Complex.arg ⟨x, y⟩) Real.pi)
      0 (1 / 60) none 0).update
      (FloatOps.mk Real.exp Real.sin Real.cos Real.sqrt (fun y x => Complex.arg ⟨x, y⟩) Real.pi)
      0 (1 / 60) none 0 := rfl
  have q1 : ((boatOnRock : Boat ℝ).update
      (FloatOps.mk Real.exp Real.sin Real.cos Real.sqrt (fun y x => Complex.arg ⟨x, y⟩) Real.pi)
      0 (1 / 60) none 0).position = ⟨0, 0, 0⟩ := by rw [e1]; exact p1
  have q2 : ((boatOnRock : Boat ℝ).update
      (FloatOps.mk Real.exp Real.sin Real.cos Real.sqrt (fun y x => Complex.arg ⟨x, y⟩) Real.pi)
      0 (1 / 60) none 0).rotation = 0 := by rw [e1]; exact r1
  obtain ⟨e2, p2, -⟩ := update_at_rest_safe
    (FloatOps.mk Real.exp Real.sin Real.cos Real.sqrt (fun y x => Complex.arg ⟨x, y⟩) Real.pi)
    rockPredicate 0 ((boatOnRock : Boat ℝ).update
      (FloatOps.mk Real.exp Real.sin Real.cos Real.sqrt (fun y x => Complex.arg ⟨x, y⟩) Real.pi)
      0 (1 / 60) none 0) (1 / 60) 0
    (by rw [e1]; exact s1) (by rw [e1]; exact a1)
    (by rw [e1]; norm_num [Boat.updateMotion, boatOnRock, Boat.new, Boat.setCollisionPredicate])
    (by rw [q2]) (by rw [q2]; norm_num) (by rw [e1]; rfl) (by rw [e1]; rfl)
    (by rw [e1]; rfl) (by rw [q1, q2]; exact hsafe0)
  rw [hb1, hb2, q1, q2]
  refine ⟨hsafe0, ?_⟩
  have q3 : (((boatOnRock : Boat ℝ).update
      (FloatOps.mk Real.exp Real.sin Real.cos Real.sqrt (fun y x => Complex.arg ⟨x, y⟩) Real.pi)
      0 (1 / 60) none 0).update
      (FloatOps.mk Real.exp Real.sin Real.cos Real.sqrt (fun y x => Complex.arg ⟨x, y⟩) Real.pi)
      0 (1 / 60) none 0).position = ⟨0, 0, 0⟩ := by
    rw [e2]
    exact p2.trans q1
  rw [q3]
  simp [rockPredicate]

/-- C1 (amended): for every CollisionPredicate and every sequence of processInput/update
calls (any inputs, any dt), once one tick has ended with the terrain check passing (all
four probes safe), the position of the boat after every later call is a position at which
the terrain check passed: for some heading, all four probe points around it are safe. -/
theorem containment_after_safe_tick (F : FloatOps α) (p : α → α → Bool) (b : Boat α)
    (hp : b.collisionPredicate = some p) (before later : List (DriveOp α))
    (glfwTime dt : α) (waterSurface : Option (WaterSurface α)) (currentTime : α)
    (hpass : probesSafe F p
      ((b.runOps F before).update F glfwTime dt waterSurface currentTime).position
      ((b.runOps F before).update F glfwTime dt waterSurface currentTime).rotation = true) :
    validatedAt F p
      (((b.runOps F before).update F glfwTime dt waterSurface currentTime).runOps F
        later).position := by
  have hp1 : (b.runOps F before).collisionPredicate = some p :=
    (runOps_collisionPredicate F b before).trans hp
  have hp2 : ((b.runOps F before).update F glfwTime dt waterSurface currentTime).collisionPredicate
      = some p :=
    (applyOp_collisionPredicate F (b.runOps F before)
      (DriveOp.update glfwTime dt waterSurface currentTime)).trans hp1
  have hrec : ((b.runOps F before).update F glfwTime dt waterSurface
      currentTime).hasLastSafePosition = true →
      validatedAt F p ((b.runOps F before).update F glfwTime dt waterSurface
        currentTime).lastSafePosition := by
    obtain ⟨u1, -, -, ux, uz, ul, uh⟩ := updateBuoyancy_frame F
      (((b.runOps F before).updateMotion F glfwTime dt).handleCollisions F
        (b.runOps F before).position) waterSurface currentTime
    rw [update_eq] at hpass ⊢
    rw [ul, uh]
    refine handleCollisions_pass_records F p ((b.runOps F before).updateMotion F glfwTime dt)
      (b.runOps F before).position hp1 ?_
    rw [probesSafe_congr F p _ _ _ ux.symm uz.symm, ← u1.1]
    exact hpass
  have inv : ∀ (ops : List (DriveOp α)) (c : Boat α), c.collisionPredicate = some p →
      validatedAt F p c.position →
      (c.hasLastSafePosition = true → validatedAt F p c.lastSafePosition) →
      validatedAt F p (c.runOps F ops).position := by
    intro ops
    induction ops with
    | nil => intro c _ h _; exact h
    | cons op ops ih =>
      intro c hc hpos hlast
      simp only [Boat.runOps, List.foldl_cons]
      have hc1 := (applyOp_collisionPredicate F c op).trans hc
      cases op with
      | processInput forward turn => exact ih (c.processInput forward turn) hc1 hpos hlast
      | update g d w t =>
        obtain ⟨v1, v2⟩ := update_validated F p g c d w t hc hpos hlast
        exact ih (c.update F g d w t) hc1 v1 v2
  exact inv later _ hp2 ⟨_, hpass⟩ hrec

theorem containment_after_safe_tick_witness :
    probesSafe
        (FloatOps.mk Real.exp Real.sin Real.cos Real.sqrt (fun y x => Complex.arg ⟨x, y⟩)
          Real.pi) shorePredicate
        ((((boatOffShore : Boat ℝ).update
          (FloatOps.mk Real.exp Real.sin Real.cos Real.sqrt (fun y x => Complex.arg ⟨x, y⟩)
            Real.pi) 0 (1 / 60) none 0).processInput 1 0).updateMotion
          (FloatOps.mk Real.exp Real.sin Real.cos Real.sqrt (fun y x => Complex.arg ⟨x, y⟩)
            Real.pi) 0 1).position
        ((((boatOffShore : Boat ℝ).update
          (FloatOps.mk Real.exp Real.sin Real.cos Real.sqrt (fun y x => Complex.arg ⟨x, y⟩)
            Real.pi) 0 (1 / 60) none 0).processInput 1 0).updateMotion
          (FloatOps.mk Real.exp Real.sin Real.cos Real.sqrt (fun y x => Complex.arg ⟨x, y⟩)
            Real.pi) 0 1).rotation = false
    ∧ ((((boatOffShore : Boat ℝ).runOps
          (FloatOps.mk Real.exp Real.sin Real.cos Real.sqrt (fun y x => Complex.arg ⟨x, y⟩)
            Real.pi) []).update
          (FloatOps.mk Real.exp Real.sin Real.cos Real.sqrt (fun y x => Complex.arg ⟨x, y⟩)
            Real.pi) 0 (1 / 60) none 0).runOps
          (FloatOps.mk Real.exp Real.sin Real.cos Real.sqrt (fun y x => Complex.arg ⟨x, y⟩)
            Real.pi) [DriveOp.processInput 1 0, DriveOp.update 0 1 none 0]).position
        = ⟨0, 0, 0⟩
    ∧ validatedAt
        (FloatOps.mk Real.exp Real.sin Real.cos Real.sqrt (fun y x => Complex.arg ⟨x, y⟩)
          Real.pi) shorePredicate
        ((((boatOffShore : Boat ℝ).runOps
          (FloatOps.mk Real.exp Real.sin Real.cos Real.sqrt (fun y x => Complex.arg ⟨x, y⟩)
            Real.pi) []).update
          (FloatOps.mk Real.exp Real.sin Real.cos Real.sqrt (fun y x => Complex.arg ⟨x, y⟩)
            Real.pi) 0 (1 / 60) none 0).runOps
          (FloatOps.mk Real.exp Real.sin Real.cos Real.sqrt (fun y x => Complex.arg ⟨x, y⟩)
            Real.pi) [DriveOp.processInput 1 0, DriveOp.update 0 1 none 0]).position :=
  ⟨(shore_rollback
      (FloatOps.mk Real.exp Real.sin Real.cos Real.sqrt (fun y x => Complex.arg ⟨x, y⟩) Real.pi)
      Real.sin_zero Real.cos_zero (Real.exp_pos _) exp_long_tick_bound).2.1,
    (shore_rollback
      (FloatOps.mk Real.exp Real.sin Real.cos Real.sqrt (fun y x => Complex.arg ⟨x, y⟩) Real.pi)
      Real.sin_zero Real.cos_zero (Real.exp_pos _) exp_long_tick_bound).2.2,
    containment_after_safe_tick
      (FloatOps.mk Real.exp Real.sin Real.cos Real.sqrt (fun y x => Complex.arg ⟨x, y⟩) Real.pi)
      shorePredicate boatOffShore rfl [] [DriveOp.processInput 1 0, DriveOp.update 0 1 none 0]
      0 (1 / 60) none 0
      (shore_rollback
        (FloatOps.mk Real.exp Real.sin Real.cos Real.sqrt (fun y x => Complex.arg ⟨x, y⟩)
          Real.pi)
        Real.sin_zero Real.cos_zero (Real.exp_pos _) exp_long_tick_bound).1⟩

/-! ### Stages of handleCollisions -/

theorem probesSafe_iff (F : FloatOps α) (p : α → α → Bool) (pos : Vec3 α) (rot : α) :
    probesSafe F p pos rot = true ↔
      (p (pos.x + F.sin (radians F rot) * (BOAT_LENGTH * (6 / 10)))
          (pos.z + F.cos (radians F rot) * (BOAT_LENGTH * (6 / 10))) = true
      ∧ p (pos.x - F.sin (radians F rot) * (BOAT_LENGTH * (6 / 10)))
          (pos.z - F.cos (radians F rot) * (BOAT_LENGTH * (6 / 10))) = true
      ∧ p (pos.x - F.cos (radians F rot) * (BOAT_WIDTH * (8 / 10)))
          (pos.z - -F.sin (radians F rot) * (BOAT_WIDTH * (8 / 10))) = true
      ∧ p (pos.x + F.cos (radians F rot) * (BOAT_WIDTH * (8 / 10)))
          (pos.z + -F.sin (radians F rot) * (BOAT_WIDTH * (8 / 10))) = true) := by
  simp only [probesSafe, checkPoints, Vec3.add, Vec3.sub, Vec3.scale, List.all_cons,
    List.all_nil, Bool.and_true, Bool.and_eq_true]

/-- C11: terrain veto. With a predicate set and at least one of the four probes (bow,
stern, port, starboard) unsafe, `handleCollisions` ends with the position restored to the
last-safe position if there is one, else to `prevPosition`, with speed 0 and angular
velocity 0; nothing else changes, so the bounds and obstacle stages are not applied. -/
theorem terrain_veto (F : FloatOps α) (p : α → α → Bool) (b : Boat α) (prevPosition : Vec3 α)
    (hp : b.collisionPredicate = some p)
    (hbad : p (b.position.x + F.sin (radians F b.rotation) * (BOAT_LENGTH * (6 / 10)))
          (b.position.z + F.cos (radians F b.rotation) * (BOAT_LENGTH * (6 / 10))) = false
      ∨ p (b.position.x - F.sin (radians F b.rotation) * (BOAT_LENGTH * (6 / 10)))
          (b.position.z - F.cos (radians F b.rotation) * (BOAT_LENGTH * (6 / 10))) = false
      ∨ p (b.position.x - F.cos (radians F b.rotation) * (BOAT_WIDTH * (8 / 10)))
          (b.position.z - -F.sin (radians F b.rotation) * (BOAT_WIDTH * (8 / 10))) = false
      ∨ p (b.position.x + F.cos (radians F b.rotation) * (BOAT_WIDTH * (8 / 10)))
          (b.position.z + -F.sin (radians F b.rotation) * (BOAT_WIDTH * (8 / 10))) = false) :
    (b.handleCollisions F prevPosition).position
        = (if b.hasLastSafePosition then b.lastSafePosition else prevPosition)
    ∧ (b.handleCollisions F prevPosition).speed = 0
    ∧ (b.handleCollisions F prevPosition).angularVelocity = 0
    ∧ (b.handleCollisions F prevPosition).lastSafePosition = b.lastSafePosition
    ∧ (b.handleCollisions F prevPosition).hasLastSafePosition = b.hasLastSafePosition
    ∧ (b.handleCollisions F prevPosition).pitch = b.pitch
    ∧ (b.handleCollisions F prevPosition).roll = b.roll
    ∧ b.SameConfig (b.handleCollisions F prevPosition) := by
  have hno : ¬ probesSafe F p b.position b.rotation = true := by
    rw [probesSafe_iff]
    rintro ⟨h1, h2, h3, h4⟩
    rcases hbad with h | h | h | h
    · rw [h1] at h; exact absurd h (by decide)
    · rw [h2] at h; exact absurd h (by decide)
    · rw [h3] at h; exact absurd h (by decide)
    · rw [h4] at h; exact absurd h (by decide)
  rw [handleCollisions_veto F p b prevPosition hp hno]
  exact ⟨rfl, rfl, rfl, rfl, rfl, rfl, rfl, sameConfig_refl _⟩

theorem terrain_veto_witness :
    ((strandedBoat : Boat ℝ).setBounds (-1) 1 (-1) 1).handleCollisions
        (FloatOps.mk Real.exp Real.sin Real.cos Real.sqrt (fun y x => Complex.arg ⟨x, y⟩)
          Real.pi) ⟨5, 5, 5⟩
      = { (strandedBoat : Boat ℝ).setBounds (-1) 1 (-1) 1 with
          position := ⟨0, 0, 0⟩, speed := 0, angularVelocity := 0 } := by
  have h := terrain_veto
    (FloatOps.mk Real.exp Real.sin Real.cos Real.sqrt (fun y x => Complex.arg ⟨x, y⟩) Real.pi)
    (fun _ _ => false) ((strandedBoat : Boat ℝ).setBounds (-1) 1 (-1) 1) ⟨5, 5, 5⟩ rfl
    (Or.inl rfl)
  cases hb : ((strandedBoat : Boat ℝ).setBounds (-1) 1 (-1) 1).handleCollisions
        (FloatOps.mk Real.exp Real.sin Real.cos Real.sqrt (fun y x => Complex.arg ⟨x, y⟩)
          Real.pi) ⟨5, 5, 5⟩
  rw [hb] at h
  obtain ⟨h1, h2, h3, h4, h5, h6, h7, g1, g2, g3, g4, g5, g6, g7, g8, g9, g10⟩ := h
  simp only at h1 h2 h3 h4 h5 h6 h7 g1 g2 g3 g4 g5 g6 g7 g8 g9 g10
  subst h1 h2 h3 h4 h5 h6 h7 g1 g2 g3 g4 g5 g6 g7 g8 g9 g10
  rfl

/-- C12: with a predicate set and all four probes safe at the tentative position,
`handleCollisions` records that position, as it is before any bounds or obstacle push, as
the last-safe position. -/
theorem safe_position_recorded (F : FloatOps α) (p : α → α → Bool) (b : Boat α)
    (prevPosition : Vec3 α) (hp : b.collisionPredicate = some p)
    (hsafe : p (b.position.x + F.sin (radians F b.rotation) * (BOAT_LENGTH * (6 / 10)))
          (b.position.z + F.cos (radians F b.rotation) * (BOAT_LENGTH * (6 / 10))) = true
      ∧ p (b.position.x - F.sin (radians F b.rotation) * (BOAT_LENGTH * (6 / 10)))
          (b.position.z - F.cos (radians F b.rotation) * (BOAT_LENGTH * (6 / 10))) = true
      ∧ p (b.position.x - F.cos (radians F b.rotation) * (BOAT_WIDTH * (8 / 10)))
          (b.position.z - -F.sin (radians F b.rotation) * (BOAT_WIDTH * (8 / 10))) = true
      ∧ p (b.position.x + F.cos (radians F b.rotation) * (BOAT_WIDTH * (8 / 10)))
          (b.position.z + -F.sin (radians F b.rotation) * (BOAT_WIDTH * (8 / 10))) = true) :
    (b.handleCollisions F prevPosition).lastSafePosition = b.position
    ∧ (b.handleCollisions F prevPosition).hasLastSafePosition = true := by
  have hs : probesSafe F p b.position b.rotation = true := (probesSafe_iff F p _ _).mpr hsafe
  rw [handleCollisions_pass F p b prevPosition hp hs]
  obtain ⟨-, f2, f3⟩ := pushes_frame F
    { b with lastSafePosition := b.position, hasLastSafePosition := true }
  obtain ⟨-, -, -, r4, r5⟩ := revalidate_frame F (Boat.obstacleStage F (Boat.boundsStage
    { b with lastSafePosition := b.position, hasLastSafePosition := true }))
  exact ⟨r4.trans f2, r5.trans f3⟩

theorem safe_position_recorded_witness :
    (((throttleScenario : Boat ℝ).setPosition ⟨3, 0, 4⟩).handleCollisions
        (FloatOps.mk Real.exp Real.sin Real.cos Real.sqrt (fun y x => Complex.arg ⟨x, y⟩)
          Real.pi) ⟨0, 0, 0⟩).lastSafePosition = ⟨3, 0, 4⟩
    ∧ (((throttleScenario : Boat ℝ).setPosition ⟨3, 0, 4⟩).handleCollisions
        (FloatOps.mk Real.exp Real.sin Real.cos Real.sqrt (fun y x => Complex.arg ⟨x, y⟩)
          Real.pi) ⟨0, 0, 0⟩).hasLastSafePosition = true :=
  safe_position_recorded
    (FloatOps.mk Real.exp Real.sin Real.cos Real.sqrt (fun y x => Complex.arg ⟨x, y⟩) Real.pi)
    (fun _ _ => true) ((throttleScenario : Boat ℝ).setPosition ⟨3, 0, 4⟩) ⟨0, 0, 0⟩ rfl
    ⟨rfl, rfl, rfl, rfl⟩

theorem axis_pushed (v lo hi : α) (h : hi - lo ≥ 1) :
    lo + 5 / 10 ≤ v + (if v + 5 / 10 > hi then hi - 5 / 10 - v
        else (if v - 5 / 10 < lo then lo + 5 / 10 - v else 0))
    ∧ v + (if v + 5 / 10 > hi then hi - 5 / 10 - v
        else (if v - 5 / 10 < lo then lo + 5 / 10 - v else 0)) ≤ hi - 5 / 10 := by
  by_cases c2 : v + 5 / 10 > hi
  · rw [if_pos c2]
    constructor <;> linarith
  · rw [if_neg c2]
    by_cases c1 : v - 5 / 10 < lo
    · rw [if_pos c1]
      constructor <;> linarith
    · rw [if_neg c1]
      constructor <;> linarith

theorem handleCollisions_no_predicate (F : FloatOps α) (b : Boat α) (prev : Vec3 α)
    (hp : b.collisionPredicate = none) :
    b.handleCollisions F prev = Boat.obstacleStage F b.boundsStage := by
  have h : (Boat.obstacleStage F b.boundsStage).collisionPredicate = none :=
    (pushes_frame F b).1.trans hp
  unfold Boat.handleCollisions
  split
  · rename_i q hq
    rw [hp] at hq
    exact absurd hq (by simp)
  · exact revalidate_of_no_predicate F _ h

/-- C13: world bounds stage. With bounds configured at least one boat diameter wide in X
and in Z, no predicate and no obstacles, after `handleCollisions` the position satisfies
`minX + 0.5 <= x <= maxX - 0.5` and `minZ + 0.5 <= z <= maxZ - 0.5`; the speed is multiplied
by `0.3` exactly once if any edge was crossed and is unchanged otherwise. -/
theorem bounds_stage (F : FloatOps α) (b : Boat α) (prevPosition : Vec3 α)
    (hb : b.hasBounds = true) (hx : b.maxX - b.minX ≥ 2 * BOAT_RADIUS)
    (hz : b.maxZ - b.minZ ≥ 2 * BOAT_RADIUS) (hp : b.collisionPredicate = none)
    (ho : b.obstacles = []) :
    b.minX + 5 / 10 ≤ (b.handleCollisions F prevPosition).position.x
    ∧ (b.handleCollisions F prevPosition).position.x ≤ b.maxX - 5 / 10
    ∧ b.minZ + 5 / 10 ≤ (b.handleCollisions F prevPosition).position.z
    ∧ (b.handleCollisions F prevPosition).position.z ≤ b.maxZ - 5 / 10
    ∧ (b.handleCollisions F prevPosition).speed =
        (if b.position.x - 5 / 10 < b.minX ∨ b.position.x + 5 / 10 > b.maxX
            ∨ b.position.z - 5 / 10 < b.minZ ∨ b.position.z + 5 / 10 > b.maxZ
          then b.speed * (3 / 10) else b.speed) := by
  have hobs : Boat.obstacleStage F b.boundsStage = b.boundsStage := by
    unfold Boat.obstacleStage
    rw [(boundsStage_frame b).1.2.2.2.2.2.2.2.2.1, ho]
    rfl
  rw [handleCollisions_no_predicate F b prevPosition hp, hobs]
  simp only [BOAT_RADIUS] at hx hz
  have hx1 : b.maxX - b.minX ≥ 1 := by linarith
  have hz1 : b.maxZ - b.minZ ≥ 1 := by linarith
  unfold Boat.boundsStage
  simp only [hb, if_true, BOAT_RADIUS]
  by_cases hc : b.position.x - 5 / 10 < b.minX ∨ b.position.x + 5 / 10 > b.maxX
      ∨ b.position.z - 5 / 10 < b.minZ ∨ b.position.z + 5 / 10 > b.maxZ
  · rw [if_pos hc, if_pos hc]
    obtain ⟨a1, a2⟩ := axis_pushed b.position.x b.minX b.maxX hx1
    obtain ⟨a3, a4⟩ := axis_pushed b.position.z b.minZ b.maxZ hz1
    exact ⟨a1, a2, a3, a4, rfl⟩
  · rw [if_neg hc, if_neg hc]
    simp only [not_or, not_lt] at hc
    obtain ⟨c1, c2, c3, c4⟩ := hc
    refine ⟨?_, ?_, ?_, ?_, rfl⟩ <;> linarith

theorem bounds_stage_witness :
    (-3 : ℝ) + 5 / 10 ≤ ((((Boat.new ⟨10, 0, -10⟩ 0 : Boat ℝ).setBounds (-3) 3 (-2) 2).setSpeed
        10).handleCollisions
        (FloatOps.mk Real.exp Real.sin Real.cos Real.sqrt (fun y x => Complex.arg ⟨x, y⟩)
          Real.pi) ⟨0, 0, 0⟩).position.x
    ∧ ((((Boat.new ⟨10, 0, -10⟩ 0 : Boat ℝ).setBounds (-3) 3 (-2) 2).setSpeed
        10).handleCollisions
        (FloatOps.mk Real.exp Real.sin Real.cos Real.sqrt (fun y x => Complex.arg ⟨x, y⟩)
          Real.pi) ⟨0, 0, 0⟩).speed = 3 := by
  have h := bounds_stage
    (FloatOps.mk Real.exp Real.sin Real.cos Real.sqrt (fun y x => Complex.arg ⟨x, y⟩) Real.pi)
    (((Boat.new ⟨10, 0, -10⟩ 0 : Boat ℝ).setBounds (-3) 3 (-2) 2).setSpeed 10) ⟨0, 0, 0⟩ rfl
    (by norm_num [Boat.setBounds, Boat.setSpeed, Boat.new, BOAT_RADIUS])
    (by norm_num [Boat.setBounds, Boat.setSpeed, Boat.new, BOAT_RADIUS]) rfl rfl
  refine ⟨h.1, ?_⟩
  rw [h.2.2.2.2]
  norm_num [Boat.setBounds, Boat.setSpeed, Boat.new]

/-- C14: `updateBuoyancy` postcondition. With the water heights sampled at the bow and
stern (`position +/- 0.5 * BOAT_LENGTH * forward`) and at port and starboard
(`position -/+ 0.5 * BOAT_WIDTH * right`), `forward = (sin h, 0, cos h)`,
`right = (cos h, 0, -sin h)`: the new `position.y` is their average plus `0.45`, the new
pitch is `0.3 * atan2(bow - stern, BOAT_LENGTH)` in degrees and the new roll is
`0.5 * oldRoll + 0.5 * atan2(starboard - port, BOAT_WIDTH)` in degrees, the conversion to
degrees being the factor `180 / 3.14159` of the code. -/
theorem updateBuoyancy_postcondition (F : FloatOps α) (b : Boat α) (ws : WaterSurface α)
    (t : α) :
    (b.updateBuoyancy F (some ws) t).position.y =
      (ws.getWaterHeight F (b.position.x + 5 / 10 * BOAT_LENGTH * F.sin (radians F b.rotation))
          (b.position.z + 5 / 10 * BOAT_LENGTH * F.cos (radians F b.rotation)) t
        + ws.getWaterHeight F
          (b.position.x - 5 / 10 * BOAT_LENGTH * F.sin (radians F b.rotation))
          (b.position.z - 5 / 10 * BOAT_LENGTH * F.cos (radians F b.rotation)) t
        + ws.getWaterHeight F
          (b.position.x - 5 / 10 * BOAT_WIDTH * F.cos (radians F b.rotation))
          (b.position.z - 5 / 10 * BOAT_WIDTH * -F.sin (radians F b.rotation)) t
        + ws.getWaterHeight F
          (b.position.x + 5 / 10 * BOAT_WIDTH * F.cos (radians F b.rotation))
          (b.position.z + 5 / 10 * BOAT_WIDTH * -F.sin (radians F b.rotation)) t) / 4
        + 45 / 100
    ∧ (b.updateBuoyancy F (some ws) t).pitch =
      3 / 10 * (F.atan2
        (ws.getWaterHeight F
            (b.position.x + 5 / 10 * BOAT_LENGTH * F.sin (radians F b.rotation))
            (b.position.z + 5 / 10 * BOAT_LENGTH * F.cos (radians F b.rotation)) t
          - ws.getWaterHeight F
            (b.position.x - 5 / 10 * BOAT_LENGTH * F.sin (radians F b.rotation))
            (b.position.z - 5 / 10 * BOAT_LENGTH * F.cos (radians F b.rotation)) t)
        BOAT_LENGTH * (180 / (314159 / 100000)))
    ∧ (b.updateBuoyancy F (some ws) t).roll =
      5 / 10 * b.roll + 5 / 10 * (F.atan2
        (ws.getWaterHeight F
            (b.position.x + 5 / 10 * BOAT_WIDTH * F.cos (radians F b.rotation))
            (b.position.z + 5 / 10 * BOAT_WIDTH * -F.sin (radians F b.rotation)) t
          - ws.getWaterHeight F
            (b.position.x - 5 / 10 * BOAT_WIDTH * F.cos (radians F b.rotation))
            (b.position.z - 5 / 10 * BOAT_WIDTH * -F.sin (radians F b.rotation)) t)
        BOAT_WIDTH * (180 / (314159 / 100000))) := by
  have e1 : ∀ (u c : α), u * (c * (5 / 10)) = 5 / 10 * c * u := by
    intro u c
    ring
  simp only [Boat.updateBuoyancy, Boat.sampleWaterHeight, Vec3.add, Vec3.sub, Vec3.scale,
    BOAT_WATERLINE_OFFSET, e1]
  refine ⟨trivial, ?_, ?_⟩
  · ring1
  · ring1

/-! ### Missing collaborators and docked resync -/

theorem obstacleFold_keeps {β : Type} (F : FloatOps α) (f : Boat α → β)
    (hf : ∀ (c : Boat α) (o : Obstacle α), f (c.obstacleStep F o) = f c)
    (l : List (Obstacle α)) (b : Boat α) : f (l.foldl (Boat.obstacleStep F) b) = f b := by
  induction l generalizing b with
  | nil => rfl
  | cons o l ih => exact (ih (b.obstacleStep F o)).trans (hf b o)

theorem boundsStage_attitude (b : Boat α) :
    b.boundsStage.position.y = b.position.y ∧ b.boundsStage.pitch = b.pitch
    ∧ b.boundsStage.roll = b.roll := by
  unfold Boat.boundsStage
  dsimp only
  split
  · split
    · exact ⟨by simp [Vec3.add], rfl, rfl⟩
    · exact ⟨rfl, rfl, rfl⟩
  · exact ⟨rfl, rfl, rfl⟩

theorem obstacleStep_attitude (F : FloatOps α) (b : Boat α) (o : Obstacle α) :
    (b.obstacleStep F o).position.y = b.position.y ∧ (b.obstacleStep F o).pitch = b.pitch
    ∧ (b.obstacleStep F o).roll = b.roll := by
  unfold Boat.obstacleStep
  dsimp only
  split
  · exact ⟨by simp [Vec3.add, Vec3.scale, Vec3.normalize], rfl, rfl⟩
  · exact ⟨rfl, rfl, rfl⟩

theorem pushes_attitude (F : FloatOps α) (c : Boat α) :
    (Boat.obstacleStage F c.boundsStage).position.y = c.position.y
    ∧ (Boat.obstacleStage F c.boundsStage).pitch = c.pitch
    ∧ (Boat.obstacleStage F c.boundsStage).roll = c.roll := by
  obtain ⟨b1, b2, b3⟩ := boundsStage_attitude c
  unfold Boat.obstacleStage
  exact ⟨(obstacleFold_keeps F (fun d => d.position.y)
      (fun d o => (obstacleStep_attitude F d o).1) _ _).trans b1,
    (obstacleFold_keeps F (fun d => d.pitch)
      (fun d o => (obstacleStep_attitude F d o).2.1) _ _).trans b2,
    (obstacleFold_keeps F (fun d => d.roll)
      (fun d o => (obstacleStep_attitude F d o).2.2) _ _).trans b3⟩

theorem revalidate_attitude (F : FloatOps α) (b : Boat α) :
    (b.revalidate F).pitch = b.pitch ∧ (b.revalidate F).roll = b.roll := by
  unfold Boat.revalidate
  split
  · exact ⟨rfl, rfl⟩
  · split
    · exact ⟨rfl, rfl⟩
    · exact ⟨rfl, rfl⟩

theorem handleCollisions_attitude (F : FloatOps α) (b : Boat α) (prev : Vec3 α) :
    (b.handleCollisions F prev).pitch = b.pitch
    ∧ (b.handleCollisions F prev).roll = b.roll := by
  unfold Boat.handleCollisions
  split
  · split
    · obtain ⟨r1, r2⟩ := revalidate_attitude F (Boat.obstacleStage F (Boat.boundsStage
        { b with lastSafePosition := b.position, hasLastSafePosition := true }))
      obtain ⟨-, q1, q2⟩ := pushes_attitude F
        { b with lastSafePosition := b.position, hasLastSafePosition := true }
      exact ⟨r1.trans q1, r2.trans q2⟩
    · exact ⟨rfl, rfl⟩
  · obtain ⟨r1, r2⟩ := revalidate_attitude F (Boat.obstacleStage F b.boundsStage)
    obtain ⟨-, q1, q2⟩ := pushes_attitude F b
    exact ⟨r1.trans q1, r2.trans q2⟩

theorem updateMotion_height (F : FloatOps α) (glfwTime : α) (b : Boat α) (dt : α) :
    (b.updateMotion F glfwTime dt).position.y = b.position.y
    ∧ (b.updateMotion F glfwTime dt).pitch = b.pitch := by
  refine ⟨?_, rfl⟩
  simp [Boat.updateMotion, Vec3.add, Vec3.scale]

/-- Height after `handleCollisions`: it is kept, unless the first terrain check vetoes
the move and the whole position is restored to the last-safe position. -/
theorem handleCollisions_height (F : FloatOps α) (m : Boat α) (prev : Vec3 α)
    (hprev : prev.y = m.position.y) :
    ((m.handleCollisions F prev).position.y = m.position.y
      ∨ (m.handleCollisions F prev).position = m.lastSafePosition)
    ∧ (m.collisionPredicate = none → (m.handleCollisions F prev).position.y = m.position.y) := by
  cases hp : m.collisionPredicate with
  | none =>
    rw [handleCollisions_no_predicate F m prev hp]
    exact ⟨Or.inl (pushes_attitude F m).1, fun _ => (pushes_attitude F m).1⟩
  | some p =>
    refine ⟨?_, fun h => absurd h (by simp)⟩
    by_cases hsafe : probesSafe F p m.position m.rotation = true
    · rw [handleCollisions_pass F p m prev hp hsafe]
      obtain ⟨f1, f2, f3⟩ := pushes_frame F
        { m with lastSafePosition := m.position, hasLastSafePosition := true }
      obtain ⟨q1, -⟩ := pushes_attitude F
        { m with lastSafePosition := m.position, hasLastSafePosition := true }
      have f1' := f1.trans hp
      left
      by_cases h2 : probesSafe F p
          (Boat.obstacleStage F (Boat.boundsStage
            { m with lastSafePosition := m.position, hasLastSafePosition := true })).position
          (Boat.obstacleStage F (Boat.boundsStage
            { m with lastSafePosition := m.position, hasLastSafePosition := true })).rotation
          = true
      · rw [revalidate_pass F p _ f1' h2]
        exact q1
      · rw [revalidate_veto F p _ f1' h2]
        dsimp only
        rw [f3, f2]
        rfl
    · rw [handleCollisions_veto F p m prev hp hsafe]
      dsimp only
      by_cases hl : m.hasLastSafePosition = true
      · rw [if_pos hl]
        exact Or.inr rfl
      · rw [if_neg hl]
        exact Or.inl hprev

/-- C15 (counterexample): a boat whose last-safe position is the origin, moved by
`setPosition` to height 1 on terrain that the predicate rejects: `update(dt, null, t)`
restores the whole last-safe position, so `position.y` goes from 1 to 0. -/
theorem update_without_water_counterexample :
    (strandedBoat : Boat ℝ).position.y = 1
    ∧ ((strandedBoat : Boat ℝ).update
        (FloatOps.mk Real.exp Real.sin Real.cos Real.sqrt (fun y x => Complex.arg ⟨x, y⟩)
          Real.pi) 0 (1 / 60) none 0).position.y = 0 := by
  refine ⟨rfl, ?_⟩
  rw [update_eq]
  have hno : ¬ probesSafe
      (FloatOps.mk Real.exp Real.sin Real.cos Real.sqrt (fun y x => Complex.arg ⟨x, y⟩) Real.pi)
      (fun _ _ => false)
      ((strandedBoat : Boat ℝ).updateMotion
        (FloatOps.mk Real.exp Real.sin Real.cos Real.sqrt (fun y x => Complex.arg ⟨x, y⟩)
          Real.pi) 0 (1 / 60)).position
      ((strandedBoat : Boat ℝ).updateMotion
        (FloatOps.mk Real.exp Real.sin Real.cos Real.sqrt (fun y x => Complex.arg ⟨x, y⟩)
          Real.pi) 0 (1 / 60)).rotation = true := by
    simp [probesSafe, checkPoints]
  rw [handleCollisions_veto _ (fun _ _ => false) _ _ rfl hno]
  rfl

/-- C15 (amended): `update(dt, null, t)` leaves the pitch as it was and leaves
`position.y` as it was unless the terrain veto restores the whole position to the
last-safe position (never without a predicate); `syncToWaterSurface(null, t)` leaves the
entire boat state unchanged. -/
theorem update_without_water (F : FloatOps α) (glfwTime : α) (b : Boat α) (dt t : α) :
    (b.update F glfwTime dt none t).pitch = b.pitch
    ∧ ((b.update F glfwTime dt none t).position.y = b.position.y
        ∨ (b.update F glfwTime dt none t).position = b.lastSafePosition)
    ∧ (b.collisionPredicate = none → (b.update F glfwTime dt none t).position.y = b.position.y)
    ∧ b.syncToWaterSurface F none t = b := by
  obtain ⟨m1, m2⟩ := updateMotion_height F glfwTime b dt
  obtain ⟨h1, h2⟩ := handleCollisions_height F (b.updateMotion F glfwTime dt) b.position
    m1.symm
  have hu : b.update F glfwTime dt none t
      = (b.updateMotion F glfwTime dt).handleCollisions F b.position := rfl
  rw [hu]
  refine ⟨(handleCollisions_attitude F _ _).1.trans m2, ?_, ?_, rfl⟩
  · rcases h1 with h | h
    · exact Or.inl (h.trans m1)
    · exact Or.inr h
  · intro hp
    exact (h2 hp).trans m1

/-- C16: without a predicate `handleCollisions` is the bounds stage followed by the
obstacle stage, whatever `prevPosition` is: the angular velocity and the last-safe
position are kept; with no bounds and no obstacles either, the boat is unchanged. -/
theorem handleCollisions_without_predicate (F : FloatOps α) (b : Boat α)
    (prevPosition : Vec3 α) (hp : b.collisionPredicate = none) :
    b.handleCollisions F prevPosition = Boat.obstacleStage F b.boundsStage
    ∧ (b.handleCollisions F prevPosition).angularVelocity = b.angularVelocity
    ∧ (b.handleCollisions F prevPosition).lastSafePosition = b.lastSafePosition
    ∧ (b.handleCollisions F prevPosition).hasLastSafePosition = b.hasLastSafePosition
    ∧ (b.hasBounds = false → b.obstacles = [] → b.handleCollisions F prevPosition = b) := by
  have h := handleCollisions_no_predicate F b prevPosition hp
  obtain ⟨-, -, a3, -, -⟩ := boundsStage_frame b
  obtain ⟨-, -, o3, -, -⟩ := obstacleFold_frame F (fun _ => True) (fun _ _ => trivial)
    b.boundsStage.obstacles b.boundsStage trivial
  obtain ⟨-, f2, f3⟩ := pushes_frame F b
  rw [h]
  refine ⟨rfl, o3.trans a3, f2, f3, ?_⟩
  intro hb ho
  rw [← h]
  exact handleCollisions_free F b prevPosition hp hb ho

theorem handleCollisions_without_predicate_witness :
    ((boatWithObstacle (⟨9, 0, 9⟩ : Vec3 ℝ)).clearObstacles).handleCollisions
        (FloatOps.mk Real.exp Real.sin Real.cos Real.sqrt (fun y x => Complex.arg ⟨x, y⟩)
          Real.pi) ⟨7, 7, 7⟩
      = (boatWithObstacle (⟨9, 0, 9⟩ : Vec3 ℝ)).clearObstacles :=
  (handleCollisions_without_predicate
    (FloatOps.mk Real.exp Real.sin Real.cos Real.sqrt (fun y x => Complex.arg ⟨x, y⟩) Real.pi)
    ((boatWithObstacle (⟨9, 0, 9⟩ : Vec3 ℝ)).clearObstacles) ⟨7, 7, 7⟩ rfl).2.2.2.2 rfl rfl

/-- C17: `syncToWaterSurface(water, t)` changes at most `position.y`, pitch and roll:
`position.x`, `position.z`, heading, speed, angular velocity, the stored inputs, the
last-safe position, bounds, obstacles and predicate are unchanged; and when the mode is
not GAME the boat after `SceneEditor::update` is the boat resynced by this entry point
(`Boat::update` is not applied). -/
theorem docked_resync (F : FloatOps α) (b : Boat α) (water : Option (WaterSurface α)) (t : α)
    (s : SceneEditor α) (glfwTime currentTime dt : α)
    (hmode : s.currentMode ≠ EditorMode.GAME) :
    ((b.syncToWaterSurface F water t).position.x = b.position.x
      ∧ (b.syncToWaterSurface F water t).position.z = b.position.z
      ∧ (b.syncToWaterSurface F water t).speed = b.speed
      ∧ (b.syncToWaterSurface F water t).angularVelocity = b.angularVelocity
      ∧ (b.syncToWaterSurface F water t).lastSafePosition = b.lastSafePosition
      ∧ (b.syncToWaterSurface F water t).hasLastSafePosition = b.hasLastSafePosition
      ∧ b.SameConfig (b.syncToWaterSurface F water t))
    ∧ (s.update F glfwTime currentTime dt).boat
        = s.boat.map (fun c => c.syncToWaterSurface F s.waterSurface currentTime)
    ∧ (s.update F glfwTime currentTime dt).currentMode = s.currentMode
    ∧ (s.update F glfwTime currentTime dt).waterSurface = s.waterSurface := by
  constructor
  · cases water with
    | none => exact ⟨rfl, rfl, rfl, rfl, rfl, rfl, sameConfig_refl _⟩
    | some ws => exact ⟨rfl, rfl, rfl, rfl, rfl, rfl, sameConfig_refl _⟩
  · obtain ⟨mode, boat, surface⟩ := s
    unfold SceneEditor.update
    rw [if_neg hmode]
    cases boat with
    | none => exact ⟨rfl, rfl, rfl⟩
    | some c =>
      cases surface with
      | none => exact ⟨rfl, rfl, rfl⟩
      | some ws => exact ⟨rfl, rfl, rfl⟩

theorem docked_resync_witness :
    ((SceneEditor.mk EditorMode.BUILDING (some (throttleScenario : Boat ℝ))
        (some WaterSurface.new)).update
        (FloatOps.mk Real.exp Real.sin Real.cos Real.sqrt (fun y x => Complex.arg ⟨x, y⟩)
          Real.pi) 0 2 (1 / 60)).boat
      = some ((throttleScenario : Boat ℝ).syncToWaterSurface
        (FloatOps.mk Real.exp Real.sin Real.cos Real.sqrt (fun y x => Complex.arg ⟨x, y⟩)
          Real.pi) (some WaterSurface.new) 2) :=
  (docked_resync
    (FloatOps.mk Real.exp Real.sin Real.cos Real.sqrt (fun y x => Complex.arg ⟨x, y⟩) Real.pi)
    throttleScenario none 0
    (SceneEditor.mk EditorMode.BUILDING (some (throttleScenario : Boat ℝ))
      (some WaterSurface.new)) 0 2 (1 / 60) (by decide)).2.1

/-! ### BoatWake -/

theorem capacity_eq_of_max_eq (w v : BoatWake α) (h : v.maxParticles = w.maxParticles) :
    v.capacity = w.capacity := by
  unfold BoatWake.capacity
  rw [h]

theorem grows_refl (w : BoatWake α) (h : ¬ w.particles.length < w.capacity) : w.Grows w :=
  ⟨rfl, rfl, rfl, rfl, ⟨[], by simp, by simp⟩, fun hle => hle, fun hlt => absurd hlt h⟩

theorem grows_trans {w v u : BoatWake α} (h1 : w.Grows v) (h2 : v.Grows u) :
    w.Grows u := by
  obtain ⟨a1, a2, a3, a4, ⟨s1, e1, f1⟩, a6, a7⟩ := h1
  obtain ⟨b1, b2, b3, b4, ⟨s2, e2, f2⟩, b6, -⟩ := h2
  have hc : v.capacity = w.capacity := capacity_eq_of_max_eq w v a1
  refine ⟨b1.trans a1, b2.trans a2, b3.trans a3, b4.trans a4, ⟨s1 ++ s2, ?_, ?_⟩, ?_, ?_⟩
  · rw [e2, e1, List.append_assoc]
  · intro q hq
    rcases List.mem_append.mp hq with h | h
    · exact f1 q h
    · obtain ⟨g1, g2⟩ := f2 q h
      exact ⟨g1, g2.trans a2⟩
  · intro hle
    have := b6 (by rw [hc]; exact a6 hle)
    rw [hc] at this
    exact this
  · intro hlt
    have h3 := a7 hlt
    have h4 : v.particles.length ≤ u.particles.length := by
      rw [e2, List.length_append]
      omega
    omega

theorem emitWake_grows (w : BoatWake α) (position : Vec3 α) (direction : Vec2 α)
    (intensity : α) : w.Grows (w.emitWake position direction intensity) := by
  unfold BoatWake.emitWake
  split
  · rename_i h
    exact grows_refl w (by omega)
  · rename_i h
    refine ⟨rfl, rfl, rfl, rfl, ⟨[_], rfl, ?_⟩, ?_, ?_⟩
    · intro q hq
      rw [List.mem_singleton] at hq
      subst hq
      exact ⟨rfl, rfl⟩
    · intro _
      simp only [List.length_append, List.length_singleton]
      omega
    · intro _
      simp only [List.length_append, List.length_singleton]
      omega

theorem emitBatch_grows (F : FloatOps α) (w : BoatWake α) (boatPos : Vec3 α)
    (boatForward : Vec2 α) (speedFactor : α) :
    w.Grows (w.emitBatch F boatPos boatForward speedFactor) := by
  unfold BoatWake.emitBatch
  dsimp only
  exact grows_trans (grows_trans (grows_trans (grows_trans
    (emitWake_grows w _ _ _) (emitWake_grows _ _ _ _)) (emitWake_grows _ _ _ _))
    (emitWake_grows _ _ _ _)) (emitWake_grows _ _ _ _)

theorem extendedBy_refl (w : BoatWake α) : w.ExtendedBy w :=
  ⟨rfl, rfl, [], by simp, by simp⟩

theorem extendedBy_trans {w v u : BoatWake α} (h1 : w.ExtendedBy v) (h2 : v.ExtendedBy u) :
    w.ExtendedBy u := by
  obtain ⟨a1, a2, s1, e1, f1⟩ := h1
  obtain ⟨b1, b2, s2, e2, f2⟩ := h2
  refine ⟨b1.trans a1, b2.trans a2, s1 ++ s2, ?_, ?_⟩
  · rw [e2, e1, List.append_assoc]
  · intro q hq
    rcases List.mem_append.mp hq with h | h
    · exact f1 q h
    · obtain ⟨g1, g2⟩ := f2 q h
      exact ⟨g1, g2.trans a2⟩

/-- The emission loop only appends fresh particles, never exceeds the capacity, and with
`capacity - size` iterations allowed it stops because its test is false. -/
theorem emitLoop_spec (F : FloatOps α) (boatPos : Vec3 α) (boatForward : Vec2 α)
    (speedFactor : α) (interval : ExtFloat α) (fuel : Nat) (w : BoatWake α) :
    w.ExtendedBy (BoatWake.emitLoop F boatPos boatForward speedFactor interval fuel w)
    ∧ (w.particles.length ≤ w.capacity →
        (BoatWake.emitLoop F boatPos boatForward speedFactor interval fuel
          w).particles.length ≤ w.capacity)
    ∧ (w.capacity - w.particles.length ≤ fuel →
        ¬ (BoatWake.emitLoop F boatPos boatForward speedFactor interval fuel
          w).canEmit interval) := by
  induction fuel generalizing w with
  | zero =>
    refine ⟨extendedBy_refl w, fun h => h, ?_⟩
    intro hf hc
    have := hc.2
    simp only [BoatWake.emitLoop] at this
    omega
  | succ fuel ih =>
    unfold BoatWake.emitLoop
    by_cases hc : w.canEmit interval
    · rw [if_pos hc]
      obtain ⟨g1, g2, -, -, ⟨sp, ge, gf⟩, g6, g7⟩ := emitBatch_grows F
        { w with accumulator := w.accumulator.sub interval } boatPos boatForward
        speedFactor
      obtain ⟨i1, i2, i3⟩ := ih (BoatWake.emitBatch F
        { w with accumulator := w.accumulator.sub interval } boatPos boatForward
        speedFactor)
      have hcap : (BoatWake.emitBatch F
          { w with accumulator := w.accumulator.sub interval } boatPos boatForward
          speedFactor).capacity = w.capacity := by
        unfold BoatWake.capacity
        rw [g1]
      have hlt : w.particles.length < w.capacity := hc.2
      refine ⟨extendedBy_trans ⟨g1, g2, sp, ge, gf⟩ i1, ?_, ?_⟩
      · intro hle
        have := i2 (by rw [hcap]; exact g6 hle)
        rw [hcap] at this
        exact this
      · intro hf
        apply i3
        rw [hcap]
        have := g7 hlt
        simp only at this
        omega
    · rw [if_neg hc]
      exact ⟨extendedBy_refl w, fun h => h, fun _ => hc⟩

theorem ageParticles_length (particles : List (WakeParticle α)) (dt : α) :
    (ageParticles particles dt).length ≤ particles.length := by
  unfold ageParticles
  exact (List.length_filter_le _ _).trans (by rw [List.length_map])

/-- The particles after `update` are the surviving aged particles followed by freshly
emitted ones; the capacity bound is kept and the emission loop has run to its end. -/
theorem update_spec (F : FloatOps α) (w : BoatWake α) (dt : α) (boatPos : Vec3 α)
    (boatForward : Vec2 α) (boatSpeed : α) :
    (w.update F dt boatPos boatForward boatSpeed).maxParticles = w.maxParticles
    ∧ (w.update F dt boatPos boatForward boatSpeed).particleLifetime = w.particleLifetime
    ∧ (∃ spawned : List (WakeParticle α),
        (w.update F dt boatPos boatForward boatSpeed).particles
          = ageParticles w.particles dt ++ spawned
        ∧ ∀ q ∈ spawned, q.age = 0 ∧ q.lifetime = w.particleLifetime)
    ∧ (w.particles.length ≤ w.capacity →
        (w.update F dt boatPos boatForward boatSpeed).particles.length ≤ w.capacity)
    ∧ ¬ (w.update F dt boatPos boatForward boatSpeed).canEmit
        (emissionInterval w.emissionRate (min (max (boatSpeed / 10) 0) 1)) := by
  unfold BoatWake.update
  dsimp only
  obtain ⟨⟨e1, e2, e3⟩, l2, l3⟩ := emitLoop_spec F boatPos boatForward
    (min (max (boatSpeed / 10) 0) 1)
    (emissionInterval w.emissionRate (min (max (boatSpeed / 10) 0) 1))
    (w.capacity - (ageParticles w.particles dt).length)
    { w with
      currentBoatSpeed := boatSpeed
      particles := ageParticles w.particles dt
      accumulator := w.accumulator.addFinite dt }
  refine ⟨e1, e2, e3, ?_, l3 (le_refl _)⟩
  intro hle
  exact l2 (le_trans (ageParticles_length w.particles dt) hle)

theorem capacity_le_max (w : BoatWake α) (h : 0 ≤ w.maxParticles) :
    (w.capacity : Int) ≤ w.maxParticles := by
  unfold BoatWake.capacity
  have h1 : (0 : Int) ≤ w.maxParticles % 2 ^ 64 := Int.emod_nonneg _ (by norm_num)
  rw [Int.toNat_of_nonneg h1]
  have h2 : (2 : Int) ^ 64 = 18446744073709551616 := by norm_num
  rw [h2]
  omega

theorem applyOp_bounded (F : FloatOps α) (w : BoatWake α) (op : WakeOp α)
    (h : w.particles.length ≤ w.capacity) :
    (w.applyOp F op).maxParticles = w.maxParticles
    ∧ (w.applyOp F op).particles.length ≤ (w.applyOp F op).capacity := by
  cases op with
  | update dt boatPos boatForward boatSpeed =>
    obtain ⟨u1, -, -, u4, -⟩ := update_spec F w dt boatPos boatForward boatSpeed
    refine ⟨u1, ?_⟩
    show (w.update F dt boatPos boatForward boatSpeed).particles.length
      ≤ (w.update F dt boatPos boatForward boatSpeed).capacity
    rw [capacity_eq_of_max_eq w _ u1]
    exact u4 h
  | emitWake position direction intensity =>
    obtain ⟨g1, -, -, -, -, g6, -⟩ := emitWake_grows w position direction intensity
    refine ⟨g1, ?_⟩
    show (w.emitWake position direction intensity).particles.length
      ≤ (w.emitWake position direction intensity).capacity
    rw [capacity_eq_of_max_eq w _ g1]
    exact g6 h

theorem runOps_bounded (F : FloatOps α) (ops : List (WakeOp α)) (w : BoatWake α)
    (h : w.particles.length ≤ w.capacity) :
    (w.runOps F ops).maxParticles = w.maxParticles
    ∧ (w.runOps F ops).particles.length ≤ (w.runOps F ops).capacity := by
  induction ops generalizing w with
  | nil => exact ⟨rfl, h⟩
  | cons op ops ih =>
    obtain ⟨a1, a2⟩ := applyOp_bounded F w op h
    obtain ⟨i1, i2⟩ := ih (w.applyOp F op) a2
    simp only [BoatWake.runOps, List.foldl_cons]
    exact ⟨i1.trans a1, i2⟩

/-- C18: wake capacity. For a wake system that starts empty with a fixed
`maxParticles >= 0` (20 after construction), after every sequence of `update` and
`emitWake` calls the number of live particles is at most `maxParticles`, and an `emitWake`
call made when that number has reached `maxParticles` changes nothing. -/
theorem wake_capacity (F : FloatOps α) (w : BoatWake α) (hempty : w.particles = [])
    (hmax : 0 ≤ w.maxParticles) (ops : List (WakeOp α)) :
    (w.runOps F ops).maxParticles = w.maxParticles
    ∧ ((w.runOps F ops).particles.length : Int) ≤ w.maxParticles
    ∧ (∀ (position : Vec3 α) (direction : Vec2 α) (intensity : α),
        w.maxParticles ≤ ((w.runOps F ops).particles.length : Int) →
        (w.runOps F ops).emitWake position direction intensity = w.runOps F ops)
    ∧ (BoatWake.new : BoatWake α).maxParticles = 20 := by
  obtain ⟨r1, r2⟩ := runOps_bounded F ops w (by rw [hempty]; exact Nat.zero_le _)
  have hcap : ((w.runOps F ops).capacity : Int) ≤ w.maxParticles := by
    rw [← r1]
    exact capacity_le_max _ (by rw [r1]; exact hmax)
  refine ⟨r1, ?_, ?_, rfl⟩
  · exact le_trans (by exact_mod_cast r2) hcap
  · intro position direction intensity hfull
    unfold BoatWake.emitWake
    rw [if_pos]
    have : ((w.runOps F ops).capacity : Int) ≤ ((w.runOps F ops).particles.length : Int) :=
      le_trans hcap hfull
    exact_mod_cast this

theorem wake_capacity_witness :
    (((BoatWake.new : BoatWake ℝ).runOps
        (FloatOps.mk Real.exp Real.sin Real.cos Real.sqrt (fun y x => Complex.arg ⟨x, y⟩)
          Real.pi)
        [WakeOp.update 1 ⟨0, 0, 0⟩ ⟨0, 1⟩ 10, WakeOp.emitWake ⟨0, 0, 0⟩ ⟨0, 1⟩ 1,
          WakeOp.update 1 ⟨0, 0, 0⟩ ⟨0, 1⟩ 10]).particles.length : Int) ≤ 20 :=
  (wake_capacity
    (FloatOps.mk Real.exp Real.sin Real.cos Real.sqrt (fun y x => Complex.arg ⟨x, y⟩) Real.pi)
    (BoatWake.new : BoatWake ℝ) rfl (by decide)
    [WakeOp.update 1 ⟨0, 0, 0⟩ ⟨0, 1⟩ 10, WakeOp.emitWake ⟨0, 0, 0⟩ ⟨0, 1⟩ 1,
      WakeOp.update 1 ⟨0, 0, 0⟩ ⟨0, 1⟩ 10]).2.1

theorem emitLoop_of_not_canEmit (F : FloatOps α) (boatPos : Vec3 α) (boatForward : Vec2 α)
    (speedFactor : α) (interval : ExtFloat α) (fuel : Nat) (w : BoatWake α)
    (h : ¬ w.canEmit interval) :
    BoatWake.emitLoop F boatPos boatForward speedFactor interval fuel w = w := by
  cases fuel with
  | zero => rfl
  | succ n =>
    unfold BoatWake.emitLoop
    rw [if_neg h]

theorem emissionInterval_at_rest (emissionRate : α) (h : 0 ≤ emissionRate) :
    emissionInterval emissionRate (min (max ((0 : α) / 10) 0) 1) = ExtFloat.posInf := by
  unfold emissionInterval
  simp [not_lt.mpr h]

theorem emissionInterval_negative_at_rest (emissionRate : α) (h : emissionRate < 0) :
    emissionInterval emissionRate (min (max ((0 : α) / 10) 0) 1) = ExtFloat.negInf := by
  unfold emissionInterval
  simp [h]

/-- With the interval `-inf` and an accumulator that is finite or `+inf`, the accumulator
is finite or `+inf` after the emission loop as well (it is `+inf` after an iteration). -/
theorem emitLoop_negInf_accumulator (F : FloatOps α) (boatPos : Vec3 α)
    (boatForward : Vec2 α) (speedFactor : α) (fuel : Nat) (w : BoatWake α)
    (h : (∃ a, w.accumulator = ExtFloat.finite a) ∨ w.accumulator = ExtFloat.posInf) :
    (∃ a, (BoatWake.emitLoop F boatPos boatForward speedFactor ExtFloat.negInf fuel
        w).accumulator = ExtFloat.finite a)
    ∨ (BoatWake.emitLoop F boatPos boatForward speedFactor ExtFloat.negInf fuel
        w).accumulator = ExtFloat.posInf := by
  induction fuel generalizing w with
  | zero => exact h
  | succ fuel ih =>
    unfold BoatWake.emitLoop
    by_cases hc : w.canEmit ExtFloat.negInf
    · rw [if_pos hc]
      apply ih
      right
      rw [(emitBatch_grows F _ boatPos boatForward speedFactor).2.2.1]
      rcases h with ⟨a, ha⟩ | ha
      · show w.accumulator.sub ExtFloat.negInf = ExtFloat.posInf
        rw [ha]
        rfl
      · show w.accumulator.sub ExtFloat.negInf = ExtFloat.posInf
        rw [ha]
        rfl
    · rw [if_neg hc]
      exact h

/-- With the interval `-inf` the emission loop fills the wake system to its capacity. -/
theorem emitLoop_negInf_fills (F : FloatOps α) (boatPos : Vec3 α) (boatForward : Vec2 α)
    (speedFactor : α) (w : BoatWake α)
    (h : (∃ a, w.accumulator = ExtFloat.finite a) ∨ w.accumulator = ExtFloat.posInf)
    (hle : w.particles.length ≤ w.capacity) :
    (BoatWake.emitLoop F boatPos boatForward speedFactor ExtFloat.negInf
      (w.capacity - w.particles.length) w).particles.length = w.capacity := by
  obtain ⟨⟨e1, -, -⟩, l2, l3⟩ := emitLoop_spec F boatPos boatForward speedFactor
    ExtFloat.negInf (w.capacity - w.particles.length) w
  have hge : (BoatWake.emitLoop F boatPos boatForward speedFactor ExtFloat.negInf
      (w.capacity - w.particles.length) w).accumulator.ge ExtFloat.negInf = true := by
    rcases emitLoop_negInf_accumulator F boatPos boatForward speedFactor
      (w.capacity - w.particles.length) w h with ⟨a, ha⟩ | ha
    · rw [ha]
      rfl
    · rw [ha]
      rfl
  have hnot := l3 (le_refl _)
  have hcap := capacity_eq_of_max_eq w _ e1
  have hfull : ¬ (BoatWake.emitLoop F boatPos boatForward speedFactor ExtFloat.negInf
      (w.capacity - w.particles.length) w).particles.length < w.capacity := by
    intro hlt
    exact hnot ⟨hge, by rw [hcap]; exact hlt⟩
  have := l2 hle
  omega

/-- C19 (counterexample): on a new wake system whose emission rate is set to `-5`, one
`update` of 1 s with `boatSpeed = 0` spawns 20 particles into the empty particle list:
the adjusted rate is `-5 * 0 = -0.0f`, the interval `1.0f / -0.0f = -inf`, and the loop
runs until the capacity is reached. -/
theorem wake_at_rest_counterexample :
    (((BoatWake.new : BoatWake ℝ).setEmissionRate (-5)).update
        (FloatOps.mk Real.exp Real.sin Real.cos Real.sqrt (fun y x => Complex.arg ⟨x, y⟩)
          Real.pi) 1 ⟨0, 0, 0⟩ ⟨0, 1⟩ 0).particles.length = 20
    ∧ ((BoatWake.new : BoatWake ℝ).setEmissionRate (-5)).particles = [] := by
  refine ⟨?_, rfl⟩
  have hcap : ∀ v : BoatWake ℝ, v.maxParticles = 20 → v.capacity = 20 := by
    intro v hv
    unfold BoatWake.capacity
    rw [hv]
    rfl
  unfold BoatWake.update
  dsimp only
  rw [show ((BoatWake.new : BoatWake ℝ).setEmissionRate (-5)).emissionRate = -5 from rfl,
    emissionInterval_negative_at_rest (-5 : ℝ) (by norm_num)]
  rw [emitLoop_negInf_fills]
  · exact hcap _ rfl
  · left
    exact ⟨0 + 1, rfl⟩
  · rw [hcap _ rfl]
    simp [ageParticles, BoatWake.new, BoatWake.setEmissionRate]

/-- C19 (amended): wake at rest. An `update` with `boatSpeed = 0` on a wake system whose
emission rate is `>= 0` and whose accumulator is finite spawns nothing, whatever the tick
duration, boat position and heading (zeros are `+0.0f`): the particles after it are the
particles before it, aged by the tick, minus the expired ones, in the same order. The
emission rate is the same after the call and the accumulator is finite again (the old
value plus the tick), so the same holds for every further such call. -/
theorem wake_at_rest (F : FloatOps α) (w : BoatWake α) (dt : α) (boatPos : Vec3 α)
    (boatForward : Vec2 α) (accumulated : α) (hrate : 0 ≤ w.emissionRate)
    (hacc : w.accumulator = ExtFloat.finite accumulated) :
    (w.update F dt boatPos boatForward 0).particles = ageParticles w.particles dt
    ∧ List.Sublist (w.update F dt boatPos boatForward 0).particles
        (w.particles.map (fun p => p.advance dt))
    ∧ (w.update F dt boatPos boatForward 0).particles.length ≤ w.particles.length
    ∧ (w.update F dt boatPos boatForward 0).emissionRate = w.emissionRate
    ∧ (w.update F dt boatPos boatForward 0).accumulator
        = ExtFloat.finite (accumulated + dt) := by
  have hu : w.update F dt boatPos boatForward 0
      = { w with
          currentBoatSpeed := 0
          particles := ageParticles w.particles dt
          accumulator := w.accumulator.addFinite dt } := by
    unfold BoatWake.update
    dsimp only
    rw [emitLoop_of_not_canEmit]
    intro hc
    have h1 := hc.1
    rw [emissionInterval_at_rest w.emissionRate hrate] at h1
    simp only [hacc, ExtFloat.addFinite, ExtFloat.ge] at h1
    exact Bool.false_ne_true h1
  rw [hu]
  refine ⟨rfl, List.filter_sublist _, ageParticles_length w.particles dt, rfl, ?_⟩
  show w.accumulator.addFinite dt = ExtFloat.finite (accumulated + dt)
  rw [hacc]
  rfl

theorem wake_at_rest_witness :
    ((((BoatWake.new : BoatWake ℝ).emitWake ⟨0, 0, 0⟩ ⟨0, 1⟩ 1).emitWake ⟨1, 0, 0⟩ ⟨0, 1⟩
        (1 / 200)).update
        (FloatOps.mk Real.exp Real.sin Real.cos Real.sqrt (fun y x => Complex.arg ⟨x, y⟩)
          Real.pi) 1 ⟨0, 0, 0⟩ ⟨0, 1⟩ 0).particles
      = ageParticles (((BoatWake.new : BoatWake ℝ).emitWake ⟨0, 0, 0⟩ ⟨0, 1⟩ 1).emitWake
          ⟨1, 0, 0⟩ ⟨0, 1⟩ (1 / 200)).particles 1 :=
  (wake_at_rest
    (FloatOps.mk Real.exp Real.sin Real.cos Real.sqrt (fun y x => Complex.arg ⟨x, y⟩) Real.pi)
    (((BoatWake.new : BoatWake ℝ).emitWake ⟨0, 0, 0⟩ ⟨0, 1⟩ 1).emitWake ⟨1, 0, 0⟩ ⟨0, 1⟩
      (1 / 200)) 1 ⟨0, 0, 0⟩ ⟨0, 1⟩ 0
    (by
      have h := (grows_trans
        (emitWake_grows (BoatWake.new : BoatWake ℝ) ⟨0, 0, 0⟩ ⟨0, 1⟩ 1)
        (emitWake_grows _ ⟨1, 0, 0⟩ ⟨0, 1⟩ (1 / 200))).2.2.2.1
      rw [h]
      norm_num [BoatWake.new])
    (((grows_trans
        (emitWake_grows (BoatWake.new : BoatWake ℝ) ⟨0, 0, 0⟩ ⟨0, 1⟩ 1)
        (emitWake_grows _ ⟨1, 0, 0⟩ ⟨0, 1⟩ (1 / 200))).2.2.1).trans rfl)).1

theorem emitLoop_once (F : FloatOps α) (boatPos : Vec3 α) (boatForward : Vec2 α)
    (speedFactor : α) (interval : ExtFloat α) (fuel : Nat) (w : BoatWake α) (hfuel : 0 < fuel)
    (hc : w.canEmit interval)
    (hstop : ¬ (BoatWake.emitBatch F { w with accumulator := w.accumulator.sub interval }
      boatPos boatForward speedFactor).canEmit interval) :
    BoatWake.emitLoop F boatPos boatForward speedFactor interval fuel w
      = BoatWake.emitBatch F { w with accumulator := w.accumulator.sub interval }
          boatPos boatForward speedFactor := by
  obtain ⟨n, rfl⟩ : ∃ n, fuel = n + 1 := ⟨fuel - 1, by omega⟩
  unfold BoatWake.emitLoop
  rw [if_pos hc]
  exact emitLoop_of_not_canEmit F boatPos boatForward speedFactor interval n _ hstop

/-- C20 (counterexample): on a new wake system, one `update` of 11 s at boat speed 0.2
spawns a batch whose amplitudes are `0.02 * 0.3` and `0.02 * 0.2`: the live set after that
update holds particles of amplitude below `0.01`. -/
theorem wake_lifecycle_counterexample :
    ((BoatWake.new : BoatWake ℝ).update
        (FloatOps.mk Real.exp Real.sin Real.cos Real.sqrt (fun y x => Complex.arg ⟨x, y⟩)
          Real.pi) 11 ⟨0, 0, 0⟩ ⟨0, 1⟩ (2 / 10)).particles.map (fun q => q.amplitude)
      = [3 / 500, 3 / 500, 3 / 500, 1 / 250, 1 / 250] := by
  have hsf : min (max ((2 / 10 : ℝ) / 10) 0) 1 = 1 / 50 := by
    rw [max_eq_left (by norm_num), min_eq_left (by norm_num)]
    norm_num
  have hcap : ∀ v : BoatWake ℝ, v.maxParticles = 20 → v.capacity = 20 := by
    intro v hv
    unfold BoatWake.capacity
    rw [hv]
    rfl
  unfold BoatWake.update
  dsimp only
  rw [hsf]
  rw [emitLoop_once]
  · simp [BoatWake.emitBatch, BoatWake.emitWake, BoatWake.new, ageParticles, hcap]
    norm_num
  · rw [hcap _ rfl]
    simp [ageParticles, BoatWake.new]
  · refine ⟨?_, ?_⟩
    · norm_num [BoatWake.new, emissionInterval, ExtFloat.addFinite, ExtFloat.ge]
    · rw [hcap _ rfl]
      simp [ageParticles, BoatWake.new]
  · intro hc
    have h2 := hc.1
    rw [(emitBatch_grows _ _ _ _ _).2.2.1] at h2
    norm_num [BoatWake.new, emissionInterval, ExtFloat.addFinite, ExtFloat.ge,
      ExtFloat.sub] at h2

/-- C20 (amended): in every `update` with `dt > 0`, each particle live before the call
has its age increased by exactly `dt`, and it is removed in that call if and only if its
updated age is `>= lifetime` or its updated amplitude is `< 0.01`; consequently every
particle that was live before the update and is still live after it has
`age < lifetime` and `amplitude >= 0.01`. The particles spawned by that update come after
them in the list, with age 0 and the configured lifetime (nothing is claimed about their
amplitude). -/
theorem wake_lifecycle (F : FloatOps α) (w : BoatWake α) (dt : α) (hdt : 0 < dt)
    (boatPos : Vec3 α) (boatForward : Vec2 α) (boatSpeed : α) :
    (∀ p : WakeParticle α, (p.advance dt).age = p.age + dt ∧ p.age < (p.advance dt).age)
    ∧ (∃ spawned : List (WakeParticle α),
        (w.update F dt boatPos boatForward boatSpeed).particles
          = (w.particles.map (fun p => p.advance dt)).filter
              (fun q => !decide (q.age ≥ q.lifetime ∨ q.amplitude < 1 / 100)) ++ spawned
        ∧ ∀ q ∈ spawned, q.age = 0 ∧ q.lifetime = w.particleLifetime)
    ∧ (∀ q ∈ (w.particles.map (fun p => p.advance dt)).filter
          (fun q => !decide (q.age ≥ q.lifetime ∨ q.amplitude < 1 / 100)),
        q.age < q.lifetime ∧ q.amplitude ≥ 1 / 100) := by
  refine ⟨?_, ?_, ?_⟩
  · intro p
    have h : (p.advance dt).age = p.age + dt := rfl
    rw [h]
    exact ⟨rfl, by linarith⟩
  · exact (update_spec F w dt boatPos boatForward boatSpeed).2.2.1
  · intro q hq
    rw [List.mem_filter] at hq
    have h := hq.2
    simp only [Bool.not_eq_true', decide_eq_false_iff_not, not_or, not_le, not_lt] at h
    exact ⟨h.1, h.2⟩

theorem wake_lifecycle_witness :
    (0 : ℝ) < 1
    ∧ ((WakeParticle.mk ⟨0, 0, 0⟩ 1 3 5 0 ⟨0, 1⟩ 2 : WakeParticle ℝ).advance 1).age
        = (WakeParticle.mk ⟨0, 0, 0⟩ 1 3 5 0 ⟨0, 1⟩ 2 : WakeParticle ℝ).age + 1
    ∧ (WakeParticle.mk ⟨0, 0, 0⟩ 1 3 5 0 ⟨0, 1⟩ 2 : WakeParticle ℝ).age
        < ((WakeParticle.mk ⟨0, 0, 0⟩ 1 3 5 0 ⟨0, 1⟩ 2 : WakeParticle ℝ).advance 1).age :=
  ⟨by norm_num,
    (wake_lifecycle
      (FloatOps.mk Real.exp Real.sin Real.cos Real.sqrt (fun y x => Complex.arg ⟨x, y⟩) Real.pi)
      (BoatWake.new : BoatWake ℝ) 1 (by norm_num) ⟨0, 0, 0⟩ ⟨0, 1⟩ 10).1
      (WakeParticle.mk ⟨0, 0, 0⟩ 1 3 5 0 ⟨0, 1⟩ 2)⟩

/-! ### Wake emission pattern -/

theorem emitWake_length (w : BoatWake α) (position : Vec3 α) (direction : Vec2 α)
    (intensity : α) :
    (w.emitWake position direction intensity).particles.length
      = (if w.particles.length < w.capacity then w.particles.length + 1
          else w.particles.length)
    ∧ (w.emitWake position direction intensity).capacity = w.capacity := by
  unfold BoatWake.emitWake
  split
  · rename_i h
    exact ⟨by rw [if_neg (by omega)], rfl⟩
  · rename_i h
    refine ⟨?_, rfl⟩
    rw [if_pos (by omega)]
    simp

theorem emitBatch_length (F : FloatOps α) (w : BoatWake α) (boatPos : Vec3 α)
    (boatForward : Vec2 α) (speedFactor : α) :
    (w.emitBatch F boatPos boatForward speedFactor).particles.length
      = w.particles.length + min 5 (w.capacity - w.particles.length) := by
  unfold BoatWake.emitBatch
  dsimp only
  simp only [(emitWake_length _ _ _ _).1, (emitWake_length _ _ _ _).2]
  split_ifs <;> omega

theorem emitLoop_multiple (F : FloatOps α) (boatPos : Vec3 α) (boatForward : Vec2 α)
    (speedFactor : α) (interval : ExtFloat α) (fuel : Nat) (w : BoatWake α)
    (hle : w.particles.length ≤ w.capacity)
    (hdiv : 5 ∣ w.capacity - w.particles.length) :
    ∃ k : Nat, (BoatWake.emitLoop F boatPos boatForward speedFactor interval fuel
      w).particles.length = w.particles.length + 5 * k := by
  induction fuel generalizing w with
  | zero => exact ⟨0, rfl⟩
  | succ fuel ih =>
    unfold BoatWake.emitLoop
    by_cases hc : w.canEmit interval
    · rw [if_pos hc]
      have hlt : w.particles.length < w.capacity := hc.2
      have hlen := emitBatch_length F
        { w with accumulator := w.accumulator.sub interval } boatPos boatForward
        speedFactor
      have hcap : (BoatWake.emitBatch F
          { w with accumulator := w.accumulator.sub interval } boatPos boatForward
          speedFactor).capacity = w.capacity :=
        capacity_eq_of_max_eq _ _ (emitBatch_grows F _ boatPos boatForward speedFactor).1
      have hw : BoatWake.capacity { w with accumulator := w.accumulator.sub interval }
          = w.capacity := rfl
      rw [hw] at hlen
      simp only at hlen
      obtain ⟨j, hj⟩ := hdiv
      have hfive : min 5 (w.capacity - w.particles.length) = 5 := by omega
      rw [hfive] at hlen
      obtain ⟨k, hk⟩ := ih (BoatWake.emitBatch F
          { w with accumulator := w.accumulator.sub interval } boatPos boatForward
          speedFactor) (by rw [hcap, hlen]; omega) (by rw [hcap, hlen]; exact ⟨j - 1, by omega⟩)
      exact ⟨k + 1, by rw [hk, hlen]; ring⟩
    · rw [if_neg hc]
      exact ⟨0, rfl⟩

/-- C21 (counterexample): with `maxParticles = 3`, one `update` of 1 s at boat speed 10 on
an empty wake system spawns 3 particles: the interval is consumed and only the three bow
particles of the pattern are appended. -/
theorem wake_batch_counterexample :
    ((smallWake : BoatWake ℝ).update
        (FloatOps.mk Real.exp Real.sin Real.cos Real.sqrt (fun y x => Complex.arg ⟨x, y⟩)
          Real.pi) 1 ⟨0, 0, 0⟩ ⟨0, 1⟩ 10).particles.length = 3
    ∧ (smallWake : BoatWake ℝ).particles.length = 0 := by
  refine ⟨?_, rfl⟩
  have hsf : min (max ((10 : ℝ) / 10) 0) 1 = 1 := by
    rw [max_eq_left (by norm_num), min_eq_right (by norm_num)]
  have hcap : ∀ v : BoatWake ℝ, v.maxParticles = 3 → v.capacity = 3 := by
    intro v hv
    unfold BoatWake.capacity
    rw [hv]
    rfl
  unfold BoatWake.update
  dsimp only
  rw [hsf, emitLoop_once]
  · rw [emitBatch_length, hcap _ rfl]
    simp [ageParticles, smallWake, BoatWake.new, BoatWake.setMaxParticles]
  · rw [hcap _ rfl]
    simp [ageParticles, smallWake, BoatWake.new, BoatWake.setMaxParticles]
  · refine ⟨?_, ?_⟩
    · norm_num [smallWake, BoatWake.new, BoatWake.setMaxParticles, emissionInterval,
        ExtFloat.addFinite, ExtFloat.ge]
    · rw [hcap _ rfl]
      simp [ageParticles, smallWake, BoatWake.new, BoatWake.setMaxParticles]
  · intro hc
    have h3 := hc.2
    rw [emitBatch_length, capacity_eq_of_max_eq _ _ (emitBatch_grows _ _ _ _ _).1,
      hcap _ rfl] at h3
    simp [ageParticles, smallWake, BoatWake.new, BoatWake.setMaxParticles] at h3

theorem emitWake_of_lt (w : BoatWake α) (l : List (WakeParticle α)) (position : Vec3 α)
    (direction : Vec2 α) (intensity : α)
    (h : w.particles.length + l.length < w.capacity) :
    BoatWake.emitWake { w with particles := w.particles ++ l } position direction intensity
      = { w with particles := w.particles ++ (l ++ [w.newParticle position direction
          intensity]) } := by
  have hc : BoatWake.capacity { w with particles := w.particles ++ l } = w.capacity := rfl
  unfold BoatWake.emitWake
  rw [hc, if_neg (by simp only [List.length_append]; omega)]
  simp only [List.append_assoc]
  rfl

theorem emitWake_of_not_lt (w : BoatWake α) (l : List (WakeParticle α)) (position : Vec3 α)
    (direction : Vec2 α) (intensity : α)
    (h : ¬ w.particles.length + l.length < w.capacity) :
    BoatWake.emitWake { w with particles := w.particles ++ l } position direction intensity
      = { w with particles := w.particles ++ l } := by
  have hc : BoatWake.capacity { w with particles := w.particles ++ l } = w.capacity := rfl
  unfold BoatWake.emitWake
  rw [hc, if_pos (by simp only [List.length_append]; omega)]

/-- Five `emitWake` calls in a row append the first `capacity - size` of the five
particles. -/
theorem emitWake_five (w : BoatWake α) (p1 p2 p3 p4 p5 : Vec3 α) (d1 d2 d3 d4 d5 : Vec2 α)
    (i1 i2 i3 i4 i5 : α) :
    (((((w.emitWake p1 d1 i1).emitWake p2 d2 i2).emitWake p3 d3 i3).emitWake p4 d4
        i4).emitWake p5 d5 i5).particles
      = w.particles ++ List.take (w.capacity - w.particles.length)
          [w.newParticle p1 d1 i1, w.newParticle p2 d2 i2, w.newParticle p3 d3 i3,
            w.newParticle p4 d4 i4, w.newParticle p5 d5 i5] := by
  have hw : ({ w with particles := w.particles ++ [] } : BoatWake α) = w := by
    rw [List.append_nil]
  have key : (((((BoatWake.emitWake { w with particles := w.particles ++ [] } p1 d1
      i1).emitWake p2 d2 i2).emitWake p3 d3 i3).emitWake p4 d4 i4).emitWake p5 d5
      i5).particles
      = w.particles ++ List.take (w.capacity - w.particles.length)
          [w.newParticle p1 d1 i1, w.newParticle p2 d2 i2, w.newParticle p3 d3 i3,
            w.newParticle p4 d4 i4, w.newParticle p5 d5 i5] := by
    by_cases h1 : w.particles.length < w.capacity
    · rw [emitWake_of_lt w [] p1 d1 i1 (by simp only [List.length_nil]; omega)]
      by_cases h2 : w.particles.length + 1 < w.capacity
      · rw [emitWake_of_lt w _ p2 d2 i2 (by simpa using h2)]
        by_cases h3 : w.particles.length + 2 < w.capacity
        · rw [emitWake_of_lt w _ p3 d3 i3 (by simpa using h3)]
          by_cases h4 : w.particles.length + 3 < w.capacity
          · rw [emitWake_of_lt w _ p4 d4 i4 (by simpa using h4)]
            by_cases h5 : w.particles.length + 4 < w.capacity
            · rw [emitWake_of_lt w _ p5 d5 i5 (by simpa using h5)]
              rw [List.take_of_length_le (by simp only [List.length_cons, List.length_nil]; omega)]
              rfl
            · rw [emitWake_of_not_lt w _ p5 d5 i5 (by simpa using h5)]
              rw [show w.capacity - w.particles.length = 4 by omega]
              rfl
          · rw [emitWake_of_not_lt w _ p4 d4 i4 (by simpa using h4),
              emitWake_of_not_lt w _ p5 d5 i5 (by simpa using h4)]
            rw [show w.capacity - w.particles.length = 3 by omega]
            rfl
        · rw [emitWake_of_not_lt w _ p3 d3 i3 (by simpa using h3),
            emitWake_of_not_lt w _ p4 d4 i4 (by simpa using h3),
            emitWake_of_not_lt w _ p5 d5 i5 (by simpa using h3)]
          rw [show w.capacity - w.particles.length = 2 by omega]
          rfl
      · rw [emitWake_of_not_lt w _ p2 d2 i2 (by simpa using h2),
          emitWake_of_not_lt w _ p3 d3 i3 (by simpa using h2),
          emitWake_of_not_lt w _ p4 d4 i4 (by simpa using h2),
          emitWake_of_not_lt w _ p5 d5 i5 (by simpa using h2)]
        rw [show w.capacity - w.particles.length = 1 by omega]
        rfl
    · rw [emitWake_of_not_lt w [] p1 d1 i1 (by simpa using h1),
        emitWake_of_not_lt w [] p2 d2 i2 (by simpa using h1),
        emitWake_of_not_lt w [] p3 d3 i3 (by simpa using h1),
        emitWake_of_not_lt w [] p4 d4 i4 (by simpa using h1),
        emitWake_of_not_lt w [] p5 d5 i5 (by simpa using h1)]
      rw [show w.capacity - w.particles.length = 0 by omega]
      rfl
  rw [hw] at key
  exact key

theorem emitBatch_particles (F : FloatOps α) (w : BoatWake α) (boatPos : Vec3 α)
    (boatForward : Vec2 α) (speedFactor : α) :
    (w.emitBatch F boatPos boatForward speedFactor).particles
      = w.particles ++ List.take (w.capacity - w.particles.length)
          (w.wakePattern F boatPos boatForward speedFactor) := by
  have hb : ∀ (v : BoatWake α) (p : Vec3 α) (d : Vec2 α) (i : α),
      (v.emitWake p d i).bowWaveAmplitude = v.bowWaveAmplitude
      ∧ (v.emitWake p d i).sternWaveAmplitude = v.sternWaveAmplitude := by
    intro v p d i
    unfold BoatWake.emitWake
    split <;> exact ⟨rfl, rfl⟩
  unfold BoatWake.emitBatch BoatWake.wakePattern
  dsimp only
  simp only [(hb _ _ _ _).1, (hb _ _ _ _).2]
  exact emitWake_five w _ _ _ _ _ _ _ _ _ _ _ _ _ _ _


/-- C21 (amended): in every `BoatWake::update`, each consumed emission interval hands the
five particles of the pattern (bow at -30, 0 and +30 degrees, stern left, stern right, in
this order) to `emitWake`, which appends a particle only while the live count is below the
capacity: the interval appends exactly the first `min(5, capacity - count)` particles of
the pattern, in order, after the live ones, so the batch is complete when at least 5 slots
are free and a proper initial part of the pattern otherwise. The number of particles spawned
by one update call is a multiple of 5 whenever the number of free slots after the particle
loop is a multiple of 5. -/
theorem wake_batch_size (F : FloatOps α) (w : BoatWake α) (dt : α) (boatPos : Vec3 α)
    (boatForward : Vec2 α) (boatSpeed speedFactor : α) :
    (w.emitBatch F boatPos boatForward speedFactor).particles
      = w.particles ++ List.take (min 5 (w.capacity - w.particles.length))
          (w.wakePattern F boatPos boatForward speedFactor)
    ∧ (w.wakePattern F boatPos boatForward speedFactor).length = 5
    ∧ (w.emitBatch F boatPos boatForward speedFactor).particles.length
      = w.particles.length + min 5 (w.capacity - w.particles.length)
    ∧ ((ageParticles w.particles dt).length ≤ w.capacity →
        5 ∣ w.capacity - (ageParticles w.particles dt).length →
        ∃ k : Nat, (w.update F dt boatPos boatForward boatSpeed).particles.length
          = (ageParticles w.particles dt).length + 5 * k) := by
  have hlen : (w.wakePattern F boatPos boatForward speedFactor).length = 5 := rfl
  refine ⟨?_, hlen, emitBatch_length F w boatPos boatForward speedFactor, ?_⟩
  · rw [emitBatch_particles]
    congr 1
    rcases Nat.lt_or_ge (w.capacity - w.particles.length) 5 with h | h
    · rw [min_eq_right (le_of_lt h)]
    · rw [min_eq_left h, List.take_of_length_le (by rw [hlen]; exact h),
        List.take_of_length_le (by rw [hlen])]
  · intro hle hdiv
    unfold BoatWake.update
    dsimp only
    exact emitLoop_multiple F boatPos boatForward _ _ _
      { w with
        currentBoatSpeed := boatSpeed
        particles := ageParticles w.particles dt
        accumulator := w.accumulator.addFinite dt } hle hdiv

theorem wake_batch_size_witness :
    ((smallWake : BoatWake ℝ).emitBatch
        (FloatOps.mk Real.exp Real.sin Real.cos Real.sqrt (fun y x => Complex.arg ⟨x, y⟩)
          Real.pi) ⟨0, 0, 0⟩ ⟨0, 1⟩ 1).particles
      = List.take 3 ((smallWake : BoatWake ℝ).wakePattern
          (FloatOps.mk Real.exp Real.sin Real.cos Real.sqrt (fun y x => Complex.arg ⟨x, y⟩)
            Real.pi) ⟨0, 0, 0⟩ ⟨0, 1⟩ 1) :=
  (wake_batch_size
    (FloatOps.mk Real.exp Real.sin Real.cos Real.sqrt (fun y x => Complex.arg ⟨x, y⟩) Real.pi)
    (smallWake : BoatWake ℝ) 1 ⟨0, 0, 0⟩ ⟨0, 1⟩ 10 1).1

theorem sqrt_quarter : Real.sqrt (1 / 4) = 1 / 2 := by
  rw [show (1 / 4 : ℝ) = (1 / 2) * (1 / 2) by norm_num]
  exact Real.sqrt_mul_self (by norm_num)

theorem radians_thirty : radians
    (FloatOps.mk Real.exp Real.sin Real.cos Real.sqrt (fun y x => Complex.arg ⟨x, y⟩) Real.pi)
    (30 : ℝ) = Real.pi / 6 := by
  unfold radians
  dsimp only
  ring

/-- C22 (code at the failing input): on a new wake system, one `update` of 0.2 s at boat
speed 10 with `boatForward = (0, 1)` spawns five particles; the directions of the two stern
particles are `(-1, 0)` and `(1, 0)`, perpendicular to the heading. -/
theorem stern_directions_heading_zero :
    (((BoatWake.new : BoatWake ℝ).update
        (FloatOps.mk Real.exp Real.sin Real.cos Real.sqrt (fun y x => Complex.arg ⟨x, y⟩)
          Real.pi) (1 / 5) ⟨0, 0, 0⟩ ⟨0, 1⟩ 10).particles.map (fun q => q.direction)).drop 3
      = [⟨-1, 0⟩, ⟨1, 0⟩] := by
  have hsf : min (max ((10 : ℝ) / 10) 0) 1 = 1 := by
    rw [max_eq_left (by norm_num), min_eq_right (by norm_num)]
  have hcap : ∀ v : BoatWake ℝ, v.maxParticles = 20 → v.capacity = 20 := by
    intro v hv
    unfold BoatWake.capacity
    rw [hv]
    rfl
  unfold BoatWake.update
  dsimp only
  rw [hsf, emitLoop_once]
  · simp only [BoatWake.emitBatch, BoatWake.emitWake, BoatWake.new, ageParticles, hcap,
      radians_thirty, Vec2.normalize, Vec2.dot]
    simp [hcap, Real.sin_pi_div_six, sqrt_quarter]
  · rw [hcap _ rfl]
    simp [ageParticles, BoatWake.new]
  · refine ⟨?_, ?_⟩
    · norm_num [BoatWake.new, emissionInterval, ExtFloat.addFinite, ExtFloat.ge]
    · rw [hcap _ rfl]
      simp [ageParticles, BoatWake.new]
  · intro hc
    have h2 := hc.1
    rw [(emitBatch_grows _ _ _ _ _).2.2.1] at h2
    norm_num [BoatWake.new, emissionInterval, ExtFloat.addFinite, ExtFloat.ge,
      ExtFloat.sub] at h2

/-! ### Second terrain pass, throttle, drag, translation -/

/-- C23: second terrain pass. With a predicate set and the first pass successful, after the
bounds and obstacle pushes either all four probes at the pushed position are safe and the
result is the pushed state, or some probe is unsafe and the final position is the last-safe
position, which is the position before the pushes recorded by the first pass, with speed 0
and angular velocity 0. -/
theorem second_terrain_pass (F : FloatOps α) (p : α → α → Bool) (b : Boat α)
    (prevPosition : Vec3 α) (hp : b.collisionPredicate = some p)
    (hfirst : probesSafe F p b.position b.rotation = true) :
    (probesSafe F p
        (Boat.obstacleStage F (Boat.boundsStage
          { b with lastSafePosition := b.position, hasLastSafePosition := true })).position
        (Boat.obstacleStage F (Boat.boundsStage
          { b with lastSafePosition := b.position, hasLastSafePosition := true })).rotation
        = true
      ∧ b.handleCollisions F prevPosition = Boat.obstacleStage F (Boat.boundsStage
          { b with lastSafePosition := b.position, hasLastSafePosition := true }))
    ∨ (probesSafe F p
        (Boat.obstacleStage F (Boat.boundsStage
          { b with lastSafePosition := b.position, hasLastSafePosition := true })).position
        (Boat.obstacleStage F (Boat.boundsStage
          { b with lastSafePosition := b.position, hasLastSafePosition := true })).rotation
        = false
      ∧ (b.handleCollisions F prevPosition).position
          = (b.handleCollisions F prevPosition).lastSafePosition
      ∧ (b.handleCollisions F prevPosition).lastSafePosition = b.position
      ∧ (b.handleCollisions F prevPosition).speed = 0
      ∧ (b.handleCollisions F prevPosition).angularVelocity = 0) := by
  obtain ⟨f1, f2, f3⟩ := pushes_frame F
    { b with lastSafePosition := b.position, hasLastSafePosition := true }
  have f1' := f1.trans hp
  rw [handleCollisions_pass F p b prevPosition hp hfirst]
  by_cases h2 : probesSafe F p
      (Boat.obstacleStage F (Boat.boundsStage
        { b with lastSafePosition := b.position, hasLastSafePosition := true })).position
      (Boat.obstacleStage F (Boat.boundsStage
        { b with lastSafePosition := b.position, hasLastSafePosition := true })).rotation
      = true
  · left
    exact ⟨h2, revalidate_pass F p _ f1' h2⟩
  · right
    rw [revalidate_veto F p _ f1' h2]
    dsimp only
    rw [f3, f2]
    exact ⟨by simpa using h2, rfl, rfl, rfl, rfl⟩

theorem second_terrain_pass_witness :
    (Boat.obstacleStage
        (FloatOps.mk Real.exp Real.sin Real.cos Real.sqrt (fun y x => Complex.arg ⟨x, y⟩)
          Real.pi)
        (Boat.boundsStage { (boatPushedAshore : Boat ℝ) with
          lastSafePosition := (boatPushedAshore : Boat ℝ).position
          hasLastSafePosition := true })).position = ⟨0, 0, 1⟩
    ∧ ((boatPushedAshore : Boat ℝ).handleCollisions
        (FloatOps.mk Real.exp Real.sin Real.cos Real.sqrt (fun y x => Complex.arg ⟨x, y⟩)
          Real.pi) ⟨0, 0, 0⟩).position = ⟨0, 0, 3 / 10⟩
    ∧ ((boatPushedAshore : Boat ℝ).handleCollisions
        (FloatOps.mk Real.exp Real.sin Real.cos Real.sqrt (fun y x => Complex.arg ⟨x, y⟩)
          Real.pi) ⟨0, 0, 0⟩).speed = 0 := by
  have hfirst : probesSafe
      (FloatOps.mk Real.exp Real.sin Real.cos Real.sqrt (fun y x => Complex.arg ⟨x, y⟩)
        Real.pi) shorePredicate (boatPushedAshore : Boat ℝ).position
      (boatPushedAshore : Boat ℝ).rotation = true := by
    simp only [boatPushedAshore, Boat.setCollisionPredicate, Boat.setBounds, Boat.setSpeed,
      Boat.new, probesSafe, checkPoints, radians, zero_mul, Real.sin_zero, Real.cos_zero,
      Vec3.add, Vec3.sub, Vec3.scale, BOAT_LENGTH, BOAT_WIDTH, shorePredicate, List.all_cons,
      List.all_nil, Bool.and_true, Bool.and_eq_true, decide_eq_true_eq]
    norm_num
  have hpush : (Boat.obstacleStage
      (FloatOps.mk Real.exp Real.sin Real.cos Real.sqrt (fun y x => Complex.arg ⟨x, y⟩)
        Real.pi)
      (Boat.boundsStage { (boatPushedAshore : Boat ℝ) with
        lastSafePosition := (boatPushedAshore : Boat ℝ).position
        hasLastSafePosition := true })).position = ⟨0, 0, 1⟩ := by
    simp only [Boat.obstacleStage, Boat.boundsStage, boatPushedAshore,
      Boat.setCollisionPredicate, Boat.setBounds, Boat.setSpeed, Boat.new, BOAT_RADIUS,
      Vec3.add]
    norm_num
  have hrot : (Boat.obstacleStage
      (FloatOps.mk Real.exp Real.sin Real.cos Real.sqrt (fun y x => Complex.arg ⟨x, y⟩)
        Real.pi)
      (Boat.boundsStage { (boatPushedAshore : Boat ℝ) with
        lastSafePosition := (boatPushedAshore : Boat ℝ).position
        hasLastSafePosition := true })).rotation = 0 := by
    simp only [Boat.obstacleStage, Boat.boundsStage, boatPushedAshore,
      Boat.setCollisionPredicate, Boat.setBounds, Boat.setSpeed, Boat.new, BOAT_RADIUS,
      Vec3.add]
    norm_num
  refine ⟨hpush, ?_⟩
  rcases second_terrain_pass
    (FloatOps.mk Real.exp Real.sin Real.cos Real.sqrt (fun y x => Complex.arg ⟨x, y⟩) Real.pi)
    shorePredicate (boatPushedAshore : Boat ℝ) ⟨0, 0, 0⟩ rfl hfirst with h | h
  · exfalso
    have h1 := h.1
    rw [hpush, hrot] at h1
    simp only [probesSafe, checkPoints, radians, zero_mul, Real.sin_zero, Real.cos_zero,
      Vec3.add, Vec3.sub, Vec3.scale, BOAT_LENGTH, BOAT_WIDTH, shorePredicate, List.all_cons,
      List.all_nil, Bool.and_true, Bool.and_eq_true, decide_eq_true_eq] at h1
    norm_num at h1
  · exact ⟨h.2.1.trans h.2.2.1, h.2.2.2.1⟩


/-- C24: throttle-scenario monotonicity. In the throttle scenario (speed 0, forward input
1, predicate always true, no bounds, no obstacles), after any number of `update` ticks of
`1/60` s, one more such tick gives a speed strictly greater than before and strictly less
than 10. -/
theorem throttle_monotone (F : FloatOps α) (he0 : 0 < F.exp (-4 * (1 / 60)))
    (he1 : F.exp (-4 * (1 / 60)) < 1) (ops : List (DriveOp α))
    (hops : ∀ op ∈ ops, isUpdateWithDt (1 / 60) op) (glfwTime : α)
    (waterSurface : Option (WaterSurface α)) (currentTime : α) :
    ((throttleScenario : Boat α).runOps F ops).speed
      < (((throttleScenario : Boat α).runOps F ops).update F glfwTime (1 / 60) waterSurface
          currentTime).speed
    ∧ (((throttleScenario : Boat α).runOps F ops).update F glfwTime (1 / 60) waterSurface
          currentTime).speed < 10 := by
  have hf : (throttleScenario : Boat α).forwardInput = 1 := by
    simp [throttleScenario, Boat.processInput]
  have hs : (throttleScenario : Boat α).speed < 10 := by
    simp [throttleScenario, Boat.processInput, Boat.setCollisionPredicate, Boat.new]
  have h1 := throttle_runOps_speed F he0 he1 ops hops throttleScenario hf rfl rfl rfl hs
  have hops2 : ∀ op ∈ ops ++ [DriveOp.update glfwTime (1 / 60) waterSurface currentTime],
      isUpdateWithDt (1 / 60) op := by
    intro op hop
    rcases List.mem_append.mp hop with h | h
    · exact hops op h
    · rw [List.mem_singleton] at h
      rw [h]
      exact rfl
  have h2 := throttle_runOps_speed F he0 he1 _ hops2 throttleScenario hf rfl rfl rfl hs
  have hrun : (throttleScenario : Boat α).runOps F
      (ops ++ [DriveOp.update glfwTime (1 / 60) waterSurface currentTime])
      = ((throttleScenario : Boat α).runOps F ops).update F glfwTime (1 / 60) waterSurface
          currentTime := by
    simp [Boat.runOps, List.foldl_append, Boat.applyOp]
  rw [hrun, List.length_append, List.length_singleton, pow_succ] at h2
  have h0 : (throttleScenario : Boat α).speed = 0 := rfl
  rw [h0] at h1 h2
  have hr0 : 0 < 1 - (1 - F.exp (-4 * (1 / 60))) * 3 * (1 / 60) := by linarith
  have hr1 : 1 - (1 - F.exp (-4 * (1 / 60))) * 3 * (1 / 60) < 1 := by linarith
  have hpow : 0 < (1 - (1 - F.exp (-4 * (1 / 60))) * 3 * (1 / 60)) ^ ops.length :=
    pow_pos hr0 _
  generalize (1 - (1 - F.exp (-4 * (1 / 60))) * 3 * (1 / 60)) ^ ops.length = q at h1 h2 hpow
  generalize 1 - (1 - F.exp (-4 * (1 / 60))) * 3 * (1 / 60) = r at h2 hr0 hr1
  have hq1 : q * r < q := by nlinarith
  have hq2 : 0 < q * r := mul_pos hpow hr0
  constructor <;> nlinarith

theorem throttle_monotone_witness :
    ((throttleScenario : Boat ℝ).runOps
        (FloatOps.mk Real.exp Real.sin Real.cos Real.sqrt (fun y x => Complex.arg ⟨x, y⟩)
          Real.pi) (List.replicate 299 (DriveOp.update 0 (1 / 60) none 0))).speed
      < (((throttleScenario : Boat ℝ).runOps
        (FloatOps.mk Real.exp Real.sin Real.cos Real.sqrt (fun y x => Complex.arg ⟨x, y⟩)
          Real.pi) (List.replicate 299 (DriveOp.update 0 (1 / 60) none 0))).update
        (FloatOps.mk Real.exp Real.sin Real.cos Real.sqrt (fun y x => Complex.arg ⟨x, y⟩)
          Real.pi) 0 (1 / 60) none 0).speed :=
  (throttle_monotone
    (FloatOps.mk Real.exp Real.sin Real.cos Real.sqrt (fun y x => Complex.arg ⟨x, y⟩) Real.pi)
    (Real.exp_pos _) (Real.exp_lt_one_iff.mpr (by norm_num))
    (List.replicate 299 (DriveOp.update 0 (1 / 60) none 0))
    (fun op hop => by rw [List.eq_of_mem_replicate hop]; exact rfl) 0 none 0).1

/-- C25: water drag. With `|forwardInput| <= 0.01`, one `updateMotion` with `dt >= 0` sets
the speed to `s * exp(-0.5 * dt)` if that value has magnitude `>= 0.01` and to exactly 0
otherwise (`s` the old speed); so the magnitude of the speed does not increase, its sign
does not flip, and the new speed is 0 or of magnitude `>= 0.01`. -/
theorem water_drag (F : FloatOps α) (hexp : ∀ x : α, x ≤ 0 → 0 < F.exp x ∧ F.exp x ≤ 1)
    (glfwTime : α) (b : Boat α) (dt : α) (hf : |b.forwardInput| ≤ 1 / 100) (hdt : 0 ≤ dt) :
    (b.updateMotion F glfwTime dt).speed
      = (if 1 / 100 ≤ |b.speed * F.exp (-(5 / 10) * dt)| then b.speed * F.exp (-(5 / 10) * dt)
          else 0)
    ∧ |(b.updateMotion F glfwTime dt).speed| ≤ |b.speed|
    ∧ 0 ≤ (b.updateMotion F glfwTime dt).speed * b.speed
    ∧ ((b.updateMotion F glfwTime dt).speed = 0
        ∨ 1 / 100 ≤ |(b.updateMotion F glfwTime dt).speed|) := by
  obtain ⟨he0, he1⟩ := hexp (-(5 / 10) * dt) (by linarith)
  have hn : ¬ (|b.forwardInput| > 1 / 100) := not_lt.mpr hf
  have hsp : (b.updateMotion F glfwTime dt).speed
      = (if 1 / 100 ≤ |b.speed * F.exp (-(5 / 10) * dt)|
          then b.speed * F.exp (-(5 / 10) * dt) else 0) := by
    simp only [Boat.updateMotion, DRAG, if_neg hn]
    by_cases h : |b.speed * F.exp (-(5 / 10) * dt)| < 1 / 100
    · rw [if_pos h, if_neg (not_le.mpr h)]
    · rw [if_neg h, if_pos (not_lt.mp h)]
  rw [hsp]
  refine ⟨rfl, ?_, ?_, ?_⟩
  · split_ifs
    · rw [abs_mul, abs_of_pos he0]
      calc |b.speed| * F.exp (-(5 / 10) * dt) ≤ |b.speed| * 1 :=
            mul_le_mul_of_nonneg_left he1 (abs_nonneg _)
        _ = |b.speed| := mul_one _
    · rw [abs_zero]
      exact abs_nonneg _
  · split_ifs
    · have : b.speed * F.exp (-(5 / 10) * dt) * b.speed
          = F.exp (-(5 / 10) * dt) * (b.speed * b.speed) := by ring
      rw [this]
      exact mul_nonneg he0.le (mul_self_nonneg _)
    · rw [zero_mul]
  · split_ifs with h
    · exact Or.inr h
    · exact Or.inl rfl

theorem water_drag_witness :
    (((Boat.new ⟨0, 0, 0⟩ 0 : Boat ℝ).setSpeed 5).updateMotion
        (FloatOps.mk Real.exp Real.sin Real.cos Real.sqrt (fun y x => Complex.arg ⟨x, y⟩)
          Real.pi) 0 1).speed
      = (if 1 / 100 ≤ |((Boat.new ⟨0, 0, 0⟩ 0 : Boat ℝ).setSpeed 5).speed
            * Real.exp (-(5 / 10) * 1)|
          then ((Boat.new ⟨0, 0, 0⟩ 0 : Boat ℝ).setSpeed 5).speed * Real.exp (-(5 / 10) * 1)
          else 0) :=
  (water_drag
    (FloatOps.mk Real.exp Real.sin Real.cos Real.sqrt (fun y x => Complex.arg ⟨x, y⟩) Real.pi)
    (fun x hx => ⟨Real.exp_pos x, Real.exp_le_one_iff.mpr hx⟩) 0
    ((Boat.new ⟨0, 0, 0⟩ 0 : Boat ℝ).setSpeed 5) 1
    (by norm_num [Boat.setSpeed, Boat.new]) (by norm_num)).1

/-- C26: turn penalty and translation. One `updateMotion` moves the position by
`(sin h, 0, cos h) * effectiveSpeed * dt`, `h` the updated heading and
`effectiveSpeed = newSpeed * max(0.35, 1 - min(|newAngularVelocity| / 60, 1) * 0.7)`; so
`position.y` is unchanged and, for `dt >= 0`, the length of the horizontal displacement
lies between `0.35 * |newSpeed| * dt` and `|newSpeed| * dt`. -/
theorem turn_penalty_translation (F : FloatOps α)
    (hunit : ∀ θ : α, F.cos θ * F.cos θ + F.sin θ * F.sin θ = 1)
    (hsqrt : ∀ x : α, 0 ≤ x → 0 ≤ F.sqrt x ∧ F.sqrt x * F.sqrt x = x)
    (glfwTime : α) (b : Boat α) (dt : α) (hdt : 0 ≤ dt) :
    (b.updateMotion F glfwTime dt).position
      = ⟨b.position.x + F.sin (radians F (b.updateMotion F glfwTime dt).rotation)
            * ((b.updateMotion F glfwTime dt).speed * max (35 / 100)
              (1 - min (|(b.updateMotion F glfwTime dt).angularVelocity| / 60) 1 * (7 / 10)))
            * dt,
          b.position.y,
          b.position.z + F.cos (radians F (b.updateMotion F glfwTime dt).rotation)
            * ((b.updateMotion F glfwTime dt).speed * max (35 / 100)
              (1 - min (|(b.updateMotion F glfwTime dt).angularVelocity| / 60) 1 * (7 / 10)))
            * dt⟩
    ∧ (b.updateMotion F glfwTime dt).position.y = b.position.y
    ∧ 35 / 100 * |(b.updateMotion F glfwTime dt).speed| * dt
        ≤ planarDistance F (b.updateMotion F glfwTime dt).position b.position
    ∧ planarDistance F (b.updateMotion F glfwTime dt).position b.position
        ≤ |(b.updateMotion F glfwTime dt).speed| * dt := by
  have hpos := updateMotion_position F glfwTime b dt
  refine ⟨hpos, by rw [hpos], ?_⟩
  have hk0 : (35 / 100 : α) ≤ max (35 / 100)
      (1 - min (|(b.updateMotion F glfwTime dt).angularVelocity| / 60) 1 * (7 / 10)) :=
    le_max_left _ _
  have hk1 : max (35 / 100)
      (1 - min (|(b.updateMotion F glfwTime dt).angularVelocity| / 60) 1 * (7 / 10)) ≤ 1 := by
    apply max_le (by norm_num)
    have : (0 : α) ≤ min (|(b.updateMotion F glfwTime dt).angularVelocity| / 60) 1 :=
      le_min (div_nonneg (abs_nonneg _) (by norm_num)) (by norm_num)
    linarith
  have hdist : planarDistance F (b.updateMotion F glfwTime dt).position b.position
      = |(b.updateMotion F glfwTime dt).speed| * max (35 / 100)
          (1 - min (|(b.updateMotion F glfwTime dt).angularVelocity| / 60) 1 * (7 / 10))
        * dt := by
    rw [hpos]
    simp only [planarDistance, Vec3.length, Vec3.dot, Vec3.sub]
    have hm : (0 : α) ≤ |(b.updateMotion F glfwTime dt).speed| * max (35 / 100)
        (1 - min (|(b.updateMotion F glfwTime dt).angularVelocity| / 60) 1 * (7 / 10))
        * dt :=
      mul_nonneg (mul_nonneg (abs_nonneg _) (le_trans (by norm_num) hk0)) hdt
    refine Eq.trans (congrArg F.sqrt ?_) (sqrt_mul_self_of_nonneg F hsqrt _ hm)
    have hu := hunit (radians F (b.updateMotion F glfwTime dt).rotation)
    generalize F.sin (radians F (b.updateMotion F glfwTime dt).rotation) = sn at hu
    generalize F.cos (radians F (b.updateMotion F glfwTime dt).rotation) = cs at hu
    generalize max (35 / 100)
      (1 - min (|(b.updateMotion F glfwTime dt).angularVelocity| / 60) 1 * (7 / 10)) = k
    have habs : |(b.updateMotion F glfwTime dt).speed| * |(b.updateMotion F glfwTime dt).speed|
        = (b.updateMotion F glfwTime dt).speed * (b.updateMotion F glfwTime dt).speed :=
      abs_mul_abs_self _
    generalize (b.updateMotion F glfwTime dt).speed = s at habs
    generalize |s| = a at habs
    have e1 : b.position.x + sn * (s * k) * dt - b.position.x = sn * (s * k) * dt := by ring
    have e2 : b.position.z + cs * (s * k) * dt - b.position.z = cs * (s * k) * dt := by ring
    rw [e1, e2]
    calc sn * (s * k) * dt * (sn * (s * k) * dt) + 0 * 0
          + cs * (s * k) * dt * (cs * (s * k) * dt)
        = (cs * cs + sn * sn) * (s * s) * (k * dt) * (k * dt) := by ring
      _ = a * k * dt * (a * k * dt) := by rw [hu, ← habs]; ring
  rw [hdist]
  constructor
  · have : (0 : α) ≤ |(b.updateMotion F glfwTime dt).speed| * dt :=
      mul_nonneg (abs_nonneg _) hdt
    nlinarith
  · have : (0 : α) ≤ |(b.updateMotion F glfwTime dt).speed| * dt :=
      mul_nonneg (abs_nonneg _) hdt
    nlinarith

theorem turn_penalty_translation_witness :
    planarDistance
        (FloatOps.mk Real.exp Real.sin Real.cos Real.sqrt (fun y x => Complex.arg ⟨x, y⟩)
          Real.pi)
        (((Boat.new ⟨0, 0, 0⟩ 0 : Boat ℝ).setSpeed 5).updateMotion
          (FloatOps.mk Real.exp Real.sin Real.cos Real.sqrt (fun y x => Complex.arg ⟨x, y⟩)
            Real.pi) 0 1).position
        ((Boat.new ⟨0, 0, 0⟩ 0 : Boat ℝ).setSpeed 5).position
      ≤ |(((Boat.new ⟨0, 0, 0⟩ 0 : Boat ℝ).setSpeed 5).updateMotion
          (FloatOps.mk Real.exp Real.sin Real.cos Real.sqrt (fun y x => Complex.arg ⟨x, y⟩)
            Real.pi) 0 1).speed| * 1 :=
  (turn_penalty_translation
    (FloatOps.mk Real.exp Real.sin Real.cos Real.sqrt (fun y x => Complex.arg ⟨x, y⟩) Real.pi)
    (fun θ => by simpa [pow_two] using Real.cos_sq_add_sin_sq θ)
    (fun x hx => ⟨Real.sqrt_nonneg x, Real.mul_self_sqrt hx⟩) 0
    ((Boat.new ⟨0, 0, 0⟩ 0 : Boat ℝ).setSpeed 5) 1 (by norm_num)).2.2.2

theorem handleCollisions_keeps_flag (F : FloatOps α) (b : Boat α) (prev : Vec3 α)
    (h : b.hasLastSafePosition = true) :
    (b.handleCollisions F prev).hasLastSafePosition = true := by
  unfold Boat.handleCollisions
  split
  · split
    · obtain ⟨-, -, f3⟩ := pushes_frame F
        { b with lastSafePosition := b.position, hasLastSafePosition := true }
      obtain ⟨-, -, -, -, r5⟩ := revalidate_frame F (Boat.obstacleStage F (Boat.boundsStage
        { b with lastSafePosition := b.position, hasLastSafePosition := true }))
      exact r5.trans f3
    · exact h
  · obtain ⟨-, -, f3⟩ := pushes_frame F b
    obtain ⟨-, -, -, -, r5⟩ := revalidate_frame F (Boat.obstacleStage F b.boundsStage)
    exact (r5.trans f3).trans h

theorem applyPublic_keeps_flag (F : FloatOps α) (b : Boat α) (op : BoatOp α)
    (h : b.hasLastSafePosition = true) : (b.applyPublic F op).hasLastSafePosition = true := by
  cases op with
  | update glfwTime dt waterSurface currentTime =>
    show (b.update F glfwTime dt waterSurface currentTime).hasLastSafePosition = true
    rw [update_eq, (updateBuoyancy_frame F _ waterSurface currentTime).2.2.2.2.2.2]
    exact handleCollisions_keeps_flag F _ _ h
  | processInput forward turn => exact h
  | setPosition position => exact h
  | setRotation rotation => exact h
  | setSpeed speed => exact h
  | setBounds minX maxX minZ maxZ => exact h
  | addObstacle position radius => exact h
  | clearObstacles => exact h
  | syncToWaterSurface waterSurface currentTime =>
    show (b.syncToWaterSurface F waterSurface currentTime).hasLastSafePosition = true
    cases waterSurface with
    | none => exact h
    | some ws => exact h
  | setCollisionPredicate predicate => exact h

/-- C27: a last-safe position always exists. In every state reached from the constructor
by any sequence of public operations the flag `hasLastSafePosition` is true, so the
rollback target of the terrain veto is the last-safe position and `prevPosition` is never
used; the constructor records the initial position as last-safe position. -/
theorem last_safe_position_exists (F : FloatOps α) (position : Vec3 α) (rotation : α)
    (ops : List (BoatOp α)) (prevPosition : Vec3 α) :
    (Boat.new position rotation).hasLastSafePosition = true
    ∧ (Boat.new position rotation).lastSafePosition = position
    ∧ ((Boat.new position rotation).runPublic F ops).hasLastSafePosition = true
    ∧ (if ((Boat.new position rotation).runPublic F ops).hasLastSafePosition
        then ((Boat.new position rotation).runPublic F ops).lastSafePosition
        else prevPosition)
      = ((Boat.new position rotation).runPublic F ops).lastSafePosition := by
  have inv : ∀ (l : List (BoatOp α)) (c : Boat α), c.hasLastSafePosition = true →
      (c.runPublic F l).hasLastSafePosition = true := by
    intro l
    induction l with
    | nil => intro c h; exact h
    | cons op l ih =>
      intro c h
      simp only [Boat.runPublic, List.foldl_cons]
      exact ih _ (applyPublic_keeps_flag F c op h)
  have h := inv ops (Boat.new position rotation) rfl
  refine ⟨rfl, rfl, h, ?_⟩
  rw [h]
  rfl

/-- C28: `handleCollisions` never modifies the heading. For every state, predicate, bounds
and obstacle list, rotation, pitch, roll and the stored inputs are the same after
`handleCollisions` as before it; hence after every `update`, also one that rolls the
position back, the heading is the one computed by `updateMotion` in that tick. -/
theorem handleCollisions_keeps_heading (F : FloatOps α) (b : Boat α) (prevPosition : Vec3 α)
    (glfwTime dt : α) (waterSurface : Option (WaterSurface α)) (currentTime : α) :
    (b.handleCollisions F prevPosition).rotation = b.rotation
    ∧ (b.handleCollisions F prevPosition).pitch = b.pitch
    ∧ (b.handleCollisions F prevPosition).roll = b.roll
    ∧ (b.handleCollisions F prevPosition).forwardInput = b.forwardInput
    ∧ (b.handleCollisions F prevPosition).turnInput = b.turnInput
    ∧ (b.update F glfwTime dt waterSurface currentTime).rotation
        = (b.updateMotion F glfwTime dt).rotation := by
  obtain ⟨c1, -, -⟩ := handleCollisions_frame F (fun _ => True) trivial (fun _ _ => trivial)
    b prevPosition trivial
  obtain ⟨a1, a2⟩ := handleCollisions_attitude F b prevPosition
  obtain ⟨d1, -, -⟩ := handleCollisions_frame F (fun _ => True) trivial (fun _ _ => trivial)
    (b.updateMotion F glfwTime dt) b.position trivial
  obtain ⟨u1, -⟩ := updateBuoyancy_frame F
    ((b.updateMotion F glfwTime dt).handleCollisions F b.position) waterSurface currentTime
  refine ⟨c1.1, a1, a2, c1.2.1, c1.2.2.1, ?_⟩
  rw [update_eq, u1.1, d1.1]

/-- C29: teleporting does not refresh the rollback target. `setPosition`, `setRotation`
and `setSpeed` leave the last-safe position (and its flag) unchanged; so when the first
`update` after `setPosition(p)` fails the terrain check and a last-safe position exists,
the `(x, z)` of the boat is that of the last-safe position recorded before the teleport
(the constructor position for a new boat), not that of `p`. -/
theorem teleport_keeps_rollback_target (F : FloatOps α) (pr : α → α → Bool) (b : Boat α)
    (p : Vec3 α) (r s glfwTime dt : α) (waterSurface : Option (WaterSurface α))
    (currentTime : α) (hp : b.collisionPredicate = some pr)
    (hlast : b.hasLastSafePosition = true)
    (hfail : ¬ probesSafe F pr ((b.setPosition p).updateMotion F glfwTime dt).position
      ((b.setPosition p).updateMotion F glfwTime dt).rotation = true) :
    (b.setPosition p).lastSafePosition = b.lastSafePosition
    ∧ (b.setRotation r).lastSafePosition = b.lastSafePosition
    ∧ (b.setSpeed s).lastSafePosition = b.lastSafePosition
    ∧ (b.setPosition p).hasLastSafePosition = b.hasLastSafePosition
    ∧ ((b.setPosition p).update F glfwTime dt waterSurface currentTime).position.x
        = b.lastSafePosition.x
    ∧ ((b.setPosition p).update F glfwTime dt waterSurface currentTime).position.z
        = b.lastSafePosition.z := by
  obtain ⟨-, -, -, ux, uz, -⟩ := updateBuoyancy_frame F
    (((b.setPosition p).updateMotion F glfwTime dt).handleCollisions F
      (b.setPosition p).position) waterSurface currentTime
  have hv := handleCollisions_veto F pr ((b.setPosition p).updateMotion F glfwTime dt)
    (b.setPosition p).position hp hfail
  have hl : ((b.setPosition p).updateMotion F glfwTime dt).hasLastSafePosition = true := hlast
  refine ⟨rfl, rfl, rfl, rfl, ?_, ?_⟩
  · rw [update_eq, ux, hv]
    dsimp only
    rw [hl, if_pos rfl]
    rfl
  · rw [update_eq, uz, hv]
    dsimp only
    rw [hl, if_pos rfl]
    rfl

theorem teleport_keeps_rollback_target_witness :
    ((strandedBoat : Boat ℝ).setPosition ⟨7, 0, 9⟩).lastSafePosition = ⟨0, 0, 0⟩
    ∧ (((strandedBoat : Boat ℝ).setPosition ⟨7, 0, 9⟩).update
        (FloatOps.mk Real.exp Real.sin Real.cos Real.sqrt (fun y x => Complex.arg ⟨x, y⟩)
          Real.pi) 0 (1 / 60) none 0).position.x = 0
    ∧ (((strandedBoat : Boat ℝ).setPosition ⟨7, 0, 9⟩).update
        (FloatOps.mk Real.exp Real.sin Real.cos Real.sqrt (fun y x => Complex.arg ⟨x, y⟩)
          Real.pi) 0 (1 / 60) none 0).position.z = 0 := by
  have h := teleport_keeps_rollback_target
    (FloatOps.mk Real.exp Real.sin Real.cos Real.sqrt (fun y x => Complex.arg ⟨x, y⟩) Real.pi)
    (fun _ _ => false) (strandedBoat : Boat ℝ) ⟨7, 0, 9⟩ 0 0 0 (1 / 60) none 0 rfl rfl
    (by simp [probesSafe, checkPoints])
  exact ⟨h.1, h.2.2.2.2.1, h.2.2.2.2.2⟩

/-- C30: a boat at rest stays at rest and cannot turn in place. With speed 0, angular
velocity 0, `|forwardInput| <= 0.01` and heading in `[0, 360)`, one `updateMotion` leaves
position, heading, speed and angular velocity unchanged, whatever the stored turn input
and the tick duration are. -/
theorem rest_is_stable (F : FloatOps α) (glfwTime : α) (b : Boat α) (dt : α)
    (hs : b.speed = 0) (ha : b.angularVelocity = 0) (hf : |b.forwardInput| ≤ 1 / 100)
    (hr0 : 0 ≤ b.rotation) (hr1 : b.rotation < 360) :
    (b.updateMotion F glfwTime dt).position = b.position
    ∧ (b.updateMotion F glfwTime dt).rotation = b.rotation
    ∧ (b.updateMotion F glfwTime dt).speed = b.speed
    ∧ (b.updateMotion F glfwTime dt).angularVelocity = b.angularVelocity
    ∧ (b.updateMotion F glfwTime dt).turnInput = b.turnInput := by
  obtain ⟨m1, m2, m3, m4⟩ := updateMotion_at_rest F glfwTime b dt hs ha hf hr0 hr1
  exact ⟨m1, m2, m3.trans hs.symm, m4.trans ha.symm, rfl⟩

theorem rest_is_stable_witness :
    (((Boat.new ⟨1, 2, 3⟩ 90 : Boat ℝ).processInput 0 1).updateMotion
        (FloatOps.mk Real.exp Real.sin Real.cos Real.sqrt (fun y x => Complex.arg ⟨x, y⟩)
          Real.pi) 0 (1 / 60)).position = ⟨1, 2, 3⟩
    ∧ (((Boat.new ⟨1, 2, 3⟩ 90 : Boat ℝ).processInput 0 1).updateMotion
        (FloatOps.mk Real.exp Real.sin Real.cos Real.sqrt (fun y x => Complex.arg ⟨x, y⟩)
          Real.pi) 0 (1 / 60)).rotation = 90 := by
  have h := rest_is_stable
    (FloatOps.mk Real.exp Real.sin Real.cos Real.sqrt (fun y x => Complex.arg ⟨x, y⟩) Real.pi)
    0 ((Boat.new ⟨1, 2, 3⟩ 90 : Boat ℝ).processInput 0 1) (1 / 60) rfl rfl
    (by norm_num [Boat.new, Boat.processInput]) (by norm_num [Boat.new, Boat.processInput])
    (by norm_num [Boat.new, Boat.processInput])
  exact ⟨h.1, h.2.1⟩

end Theorems

end WaterTown
